import Mathlib

/-!
# Four-in-a-row server: board engine, bot heuristic and match state machine

A shallow embedding of `src/backend/gameLogic.js` and of the in-memory match
orchestration of `src/backend/server.js`.

Conventions of the embedding:
* a board cell is `Option String`: `none` is JavaScript `null`, `some m` is the
  marker `m` (markers are usernames, the bot plays `"Bot"`);
* JavaScript truthiness of a cell or of a username is `truthy`/`truthyStr`:
  `null` and the empty string are falsy;
* row and column indices are `Nat`; a column that comes from a client is `Int`;
* loops are structural recursions on the loop counter.
-/

namespace FourInARow

/-! ## Board engine (`gameLogic.js`) -/

/-- A board cell: `none` for `null`, `some m` for marker `m`. -/
abbrev Cell := Option String

/-- A board: array of rows, each an array of cells. -/
abbrev Board := List (List Cell)

/-- Constructor field `this.ROWS`. -/
def ROWS : Nat := 6

/-- Constructor field `this.COLS`. -/
def COLS : Nat := 7

/-- Shape produced by `createEmptyBoard`: `ROWS` rows of `COLS` cells. -/
def WF (b : Board) : Prop := b.length = ROWS ∧ ∀ row ∈ b, row.length = COLS

instance (b : Board) : Decidable (WF b) := by unfold WF; infer_instance

/-- Read `board[r][c]`; an index outside the arrays reads as `none`. -/
def cell (b : Board) (r c : Nat) : Cell := (b.getD r []).getD c none

/-- Assignment `board[r][c] = v` (inside the arrays). -/
def setCell (b : Board) (r c : Nat) (v : Cell) : Board :=
  b.set r ((b.getD r []).set c v)

/-- JavaScript truthiness of a string: only the empty string is falsy. -/
def truthyStr (s : String) : Bool := s != ""

/-- JavaScript truthiness of a cell value. -/
def truthy : Cell → Bool
  | none => false
  | some m => truthyStr m

/-- `createEmptyBoard()`. -/
def createEmptyBoard : Board := List.replicate ROWS (List.replicate COLS none)

/-- `isValidMove(board, col)`: `col >= 0 && col < COLS && board[0][col] === null`. -/
def isValidMove (b : Board) (col : Int) : Bool :=
  decide (0 ≤ col) && decide (col < (COLS : Int)) && (cell b 0 col.toNat == none)

/-- Landing coordinates `{ row, col }` returned by `makeMove`. -/
structure Pos where
  row : Nat
  col : Nat
deriving DecidableEq, Repr

/-- Loop of `makeMove`: `n` is `row + 1`, the rows `n-1, n-2, .., 0` remain to be
scanned. -/
def makeMoveFrom (b : Board) (col : Nat) (player : String) : Nat → Board × Option Pos
  | 0 => (b, none)
  | n + 1 =>
    if cell b n col = none then (setCell b n col (some player), some ⟨n, col⟩)
    else makeMoveFrom b col player n

/-- `makeMove(board, col, player)`: the mutated board and the returned value. -/
def makeMove (b : Board) (col : Nat) (player : String) : Board × Option Pos :=
  makeMoveFrom b col player ROWS

/-- The `if` of the four scans of `checkWinner`: the first cell is truthy and
strictly equal to the three others; the value returned is the first cell. -/
def four (b : Board) (r0 c0 r1 c1 r2 c2 r3 c3 : Nat) : Option String :=
  if truthy (cell b r0 c0) && (cell b r0 c0 == cell b r1 c1) &&
      (cell b r0 c0 == cell b r2 c2) && (cell b r0 c0 == cell b r3 c3)
  then cell b r0 c0 else none

/-- A `for (i = lo; i < lo + n; i++)` loop whose body may `return`: the first
result that is not `none`. -/
def scan (lo n : Nat) (body : Nat → Option String) : Option String :=
  (List.range' lo n).findSome? body

/-- Horizontal scan of `checkWinner`. -/
def checkHorizontal (b : Board) : Option String :=
  scan 0 ROWS fun row => scan 0 (COLS - 3) fun col =>
    four b row col row (col + 1) row (col + 2) row (col + 3)

/-- Vertical scan of `checkWinner`. -/
def checkVertical (b : Board) : Option String :=
  scan 0 COLS fun col => scan 0 (ROWS - 3) fun row =>
    four b row col (row + 1) col (row + 2) col (row + 3) col

/-- Diagonal scan (bottom-left to top-right) of `checkWinner`. -/
def checkDiagUp (b : Board) : Option String :=
  scan 3 (ROWS - 3) fun row => scan 0 (COLS - 3) fun col =>
    four b row col (row - 1) (col + 1) (row - 2) (col + 2) (row - 3) (col + 3)

/-- Diagonal scan (top-left to bottom-right) of `checkWinner`. -/
def checkDiagDown (b : Board) : Option String :=
  scan 0 (ROWS - 3) fun row => scan 0 (COLS - 3) fun col =>
    four b row col (row + 1) (col + 1) (row + 2) (col + 2) (row + 3) (col + 3)

/-- `checkWinner(board)`: the four scans in source order, `none` for `null`. -/
def checkWinner (b : Board) : Option String :=
  (checkHorizontal b).orElse fun _ => (checkVertical b).orElse fun _ =>
    (checkDiagUp b).orElse fun _ => checkDiagDown b

/-- `isBoardFull(board)`: `board[0].every(cell => cell !== null)`. -/
def isBoardFull (b : Board) : Bool := (b.getD 0 []).all fun c => c != none

/-- One of the two `for` loops of `getBotMove` over the columns `COLS - n .. COLS - 1`:
the first legal column where placing `player` makes `checkWinner` return `player`. -/
def winningColFrom (b : Board) (player : String) : Nat → Option Nat
  | 0 => none
  | n + 1 =>
    let col := COLS - (n + 1)
    if isValidMove b col && (checkWinner (makeMove b col player).1 == some player)
    then some col
    else winningColFrom b player n

/-- The array `strategicCols` of `getBotMove`. -/
def strategicCols : List Nat := [3, 2, 4, 1, 5, 0, 6]

/-- The `for (let col of strategicCols)` loop of `getBotMove`. -/
def firstStrategic (b : Board) : List Nat → Option Nat
  | [] => none
  | col :: rest => if isValidMove b col then some col else firstStrategic b rest

/-- `getBotMove(board, botPlayer, humanPlayer)`. -/
def getBotMove (b : Board) (botPlayer humanPlayer : String) : Nat :=
  match winningColFrom b botPlayer COLS with
  | some col => col
  | none =>
    match winningColFrom b humanPlayer COLS with
    | some col => col
    | none =>
      if isValidMove b 3 then 3
      else
        match firstStrategic b strategicCols with
        | some col => col
        | none => 0

/-! ## Reference notions taken from the specification -/

/-- Four adjacent cells in a line along a row, a column or either diagonal of the
6x7 grid, all holding the marker `m`; `(r, c)` is the top-left corner of the
bounding box of the line. -/
def LineOfFour (b : Board) (m : String) : Prop :=
  ∃ r, r < ROWS ∧ ∃ c, c < COLS ∧
    ((c + 3 < COLS ∧ cell b r c = some m ∧ cell b r (c + 1) = some m ∧
        cell b r (c + 2) = some m ∧ cell b r (c + 3) = some m) ∨
     (r + 3 < ROWS ∧ cell b r c = some m ∧ cell b (r + 1) c = some m ∧
        cell b (r + 2) c = some m ∧ cell b (r + 3) c = some m) ∨
     (r + 3 < ROWS ∧ c + 3 < COLS ∧ cell b r c = some m ∧ cell b (r + 1) (c + 1) = some m ∧
        cell b (r + 2) (c + 2) = some m ∧ cell b (r + 3) (c + 3) = some m) ∨
     (r + 3 < ROWS ∧ c + 3 < COLS ∧ cell b (r + 3) c = some m ∧ cell b (r + 2) (c + 1) = some m ∧
        cell b (r + 1) (c + 2) = some m ∧ cell b r (c + 3) = some m))

instance (b : Board) (m : String) : Decidable (LineOfFour b m) := by
  unfold LineOfFour; infer_instance

/-- Column `c` is legal and placing `player` there makes `checkWinner` return `player`. -/
def winsAt (b : Board) (player : String) (c : Nat) : Bool :=
  isValidMove b c && (checkWinner (makeMove b c player).1 == some player)

/-- Reference for `getBotMove`, written after the priority list of the specification:
(1) lowest-indexed legal column that wins for the bot, (2) else lowest-indexed legal
column that would win for the human, (3) else column 3 if legal, (4) else the first
legal column of `[3,2,4,1,5,0,6]`, (5) else 0. -/
def chooseColumnRef (b : Board) (botMarker humanMarker : String) : Nat :=
  match (List.range 7).find? (winsAt b botMarker) with
  | some c => c
  | none =>
    match (List.range 7).find? (winsAt b humanMarker) with
    | some c => c
    | none =>
      if isValidMove b 3 then 3
      else ([3, 2, 4, 1, 5, 0, 6].find? fun c => isValidMove b (c : Nat)).getD 0

/-- Gravity: in every column, every cell below an occupied cell is occupied. -/
def Gravity (b : Board) : Prop :=
  ∀ r c, r + 1 < ROWS → c < COLS → cell b r c ≠ none → cell b (r + 1) c ≠ none

/-- The occupied positions of the 6x7 grid. -/
def occupied (b : Board) : Finset (Fin 6 × Fin 7) :=
  Finset.univ.filter fun p => cell b p.1 p.2 ≠ none

/-- Number of occupied cells of the 6x7 grid. -/
def filled (b : Board) : Nat := (occupied b).card

/-! ## Match orchestration (`server.js`)

In this section every socket event handler and timer callback is embedded as one
atomic transition on the in-memory state: it describes the runs in which no other
event is handled while a handler waits at an `await` on the database or on the
analytics producer, whose effects appear only as outputs.  The section `Interleaving
at the awaits` below splits the handlers at their `await`s.  Identifiers produced by `uuidv4()`, `Date.now()` and `setTimeout`
are explicit: the fresh game id and the current time are arguments, timer ids come
from a counter. -/

/-- An entry of `game.players`; `socketId = none` is `null`. -/
structure Player where
  username : String
  color : String
  socketId : Option Nat
deriving DecidableEq, Repr

/-- A match object stored in `games`. -/
structure Game where
  gameId : Nat
  players : List Player
  board : Board
  currentTurn : String
  winner : Option String
  startTime : Nat
  moves : Nat
  isBot : Bool
deriving DecidableEq, Repr

/-- Properties that the handlers keep on a socket object (`socket.username`,
`socket.gameId`, `socket.matchTimeout`), and whether the socket is still listed in
`io.sockets.sockets`. -/
structure Sock where
  username : Option String
  gameId : Option Nat
  matchTimeout : Option Nat
  connected : Bool
deriving DecidableEq, Repr

/-- A value of the `disconnectedPlayers` map. -/
structure DisconnectInfo where
  gameId : Nat
  disconnectTime : Nat
  timeoutId : Nat
deriving DecidableEq, Repr

/-- What a pending `setTimeout` callback closes over. -/
inductive TimerKind where
  /-- Callback of `joinGame`: closes over `socket` and `username`. -/
  | escalate (sid : Nat) (username : String)
  /-- Callback of `disconnect`: closes over `socket` and `opponent`, found in the
  match `gameId` when the timer was set. -/
  | forfeit (sid : Nat) (gameId : Nat) (opponent : Option String)
  /-- Callback `() => makeBotMove(game)`. -/
  | botMove (gameId : Nat)
deriving DecidableEq, Repr

/-- A pending timer: its handle, the time at which it is due and its callback. -/
structure Timer where
  id : Nat
  due : Nat
  kind : TimerKind
deriving DecidableEq, Repr

/-- Payload of an event sent to a client. -/
inductive Event where
  | error (message : String)
  | waiting
  | gameStart (gameId : Nat) (opponent : Option String) (yourColor : String)
      (currentTurn : String)
  | gameState (board : Board) (currentTurn : String) (moves : Nat)
  | gameOver (winner : String) (board : Board) (duration : Nat) (moves : Nat)
      (reason : Option String)
  | opponentDisconnected (username : String)
  | opponentReconnected (username : String)
deriving DecidableEq, Repr

/-- An effect of a transition that is not part of the in-memory state. -/
inductive Out where
  /-- `socket.emit` / `io.to(socketId).emit`. -/
  | emit (target : Option Nat) (event : Event)
  /-- The `INSERT INTO games` of `endGame`. -/
  | saveGame (gameId : Nat) (winner : Option String) (duration : Nat) (moves : Nat)
  /-- `sendGameEvent(eventType, { gameId, .. })`. -/
  | publish (eventType : String) (gameId : Nat)
deriving DecidableEq, Repr

/-- The module-level state of `server.js`, the socket properties and the pending
timers. -/
structure State where
  games : Nat → Option Game
  waitingPlayers : List String
  playerSockets : String → Option Nat
  disconnectedPlayers : String → Option DisconnectInfo
  sockets : Nat → Sock
  timers : List Timer
  nextTimer : Nat

/-- State at start-up: empty maps, empty queue, no socket, no timer. -/
def State.init : State where
  games := fun _ => none
  waitingPlayers := []
  playerSockets := fun _ => none
  disconnectedPlayers := fun _ => none
  sockets := fun _ => ⟨none, none, none, false⟩
  timers := []
  nextTimer := 0

/-- `setTimeout(callback, delay)`: returns the state with the timer pending and its
handle. -/
def State.setTimeout (s : State) (now delay : Nat) (kind : TimerKind) : State × Nat :=
  ({ s with timers := s.timers ++ [⟨s.nextTimer, now + delay, kind⟩],
            nextTimer := s.nextTimer + 1 }, s.nextTimer)

/-- `clearTimeout(id)`. -/
def State.clearTimeout (s : State) (id : Nat) : State :=
  { s with timers := s.timers.filter fun t => t.id != id }

/-- Assignment `socket.gameId = gameId` on the socket object `sid`. -/
def State.setSocketGameId (s : State) (sid gameId : Nat) : State :=
  { s with sockets := Function.update s.sockets sid { s.sockets sid with gameId := some gameId } }

/-- Assignment `socket.matchTimeout = timeoutId` on the socket object `sid`. -/
def State.setSocketMatchTimeout (s : State) (sid timeoutId : Nat) : State :=
  { s with sockets :=
      Function.update s.sockets sid { s.sockets sid with matchTimeout := some timeoutId } }

/-- `Math.floor((Date.now() - game.startTime) / 1000)`. -/
def duration (now start : Nat) : Nat := (now - start) / 1000

/-- The `forEach` of `broadcastGameState` and of `endGame`: one event for every
player whose `socketId` is truthy. -/
def notifyPlayers (ps : List Player) (ev : Event) : List Out :=
  (ps.filter fun p => p.socketId.isSome).map fun p => Out.emit p.socketId ev

/-- `broadcastGameState(game)`. -/
def broadcastGameState (g : Game) : List Out :=
  notifyPlayers g.players (Event.gameState g.board g.currentTurn g.moves)

/-- The `winner || 'draw'` of the `gameOver` payload. -/
def outcomeLabel (winner : Option String) : String :=
  match winner with
  | some w => if truthyStr w then w else "draw"
  | none => "draw"

/-- `endGame(game, winner, reason)`: records the outcome, notifies the players and
deletes `game.gameId` from `games`. -/
def endGame (s : State) (g : Game) (winner : Option String) (reason : Option String)
    (now : Nat) : State × List Out :=
  let d := duration now g.startTime
  ({ s with games := Function.update s.games g.gameId none },
    [Out.saveGame g.gameId winner d g.moves, Out.publish "game.completed" g.gameId] ++
      notifyPlayers g.players (Event.gameOver (outcomeLabel winner) g.board d g.moves reason))

/-- Handler of the `connection` event: a new socket object without properties. -/
def handleConnection (s : State) (sid : Nat) : State :=
  { s with sockets := Function.update s.sockets sid ⟨none, none, none, true⟩ }

/-- `startBotGame(socket, username)` with `newId` the value of `uuidv4()`. -/
def startBotGame (s : State) (sid : Nat) (username : String) (newId now : Nat) :
    State × List Out :=
  let game : Game :=
    { gameId := newId
      players := [⟨username, "red", some sid⟩, ⟨"Bot", "yellow", none⟩]
      board := createEmptyBoard
      currentTurn := username
      winner := none
      startTime := now
      moves := 0
      isBot := true }
  ({ s with games := Function.update s.games newId (some game) }.setSocketGameId sid newId,
    [Out.emit (some sid) (Event.gameStart newId (some "Bot") "red" username),
     Out.publish "game.started" newId])

/-- The lines `const waitingSocket = io.sockets.sockets.get(playerSockets.get(waitingPlayer));
if (waitingSocket) waitingSocket.gameId = gameId;` of `joinGame`. -/
def State.setWaitingSocketGameId (s : State) (waitingPlayer : String) (gameId : Nat) : State :=
  match s.playerSockets waitingPlayer with
  | some wsid => if (s.sockets wsid).connected then s.setSocketGameId wsid gameId else s
  | none => s

/-- The `else` branch of `joinGame`: push on the queue, emit `waiting`, start the
10-second timer and keep its handle in `socket.matchTimeout`. -/
def joinWaiting (s : State) (sid : Nat) (username : String) (now : Nat) : State × List Out :=
  let s3 : State := { s with waitingPlayers := s.waitingPlayers ++ [username] }
  let r := s3.setTimeout now 10000 (TimerKind.escalate sid username)
  (r.1.setSocketMatchTimeout sid r.2, [Out.emit (some sid) Event.waiting])

/-- Handler of `joinGame` from `playerSockets.set` on, with `newId` the value that
`uuidv4()` returns if a match is formed. -/
def handleJoinGame (s : State) (sid : Nat) (username : String) (newId now : Nat) :
    State × List Out :=
  let s1 : State :=
    { s with playerSockets := Function.update s.playerSockets username (some sid),
             sockets := Function.update s.sockets sid
               { s.sockets sid with username := some username } }
  let waitingPlayer := s1.waitingPlayers.head?
  let s2 : State := { s1 with waitingPlayers := s1.waitingPlayers.tail }
  match waitingPlayer with
  | some w =>
    if truthyStr w && (w != username) then
      let game : Game :=
        { gameId := newId
          players := [⟨w, "red", s2.playerSockets w⟩, ⟨username, "yellow", some sid⟩]
          board := createEmptyBoard
          currentTurn := w
          winner := none
          startTime := now
          moves := 0
          isBot := false }
      let s3 : State :=
        { s2 with games := Function.update s2.games newId (some game) }.setSocketGameId sid newId
      let s4 : State := s3.setWaitingSocketGameId w newId
      (s4, [Out.emit (s4.playerSockets w) (Event.gameStart newId (some username) "red" w),
            Out.emit (some sid) (Event.gameStart newId (some w) "yellow" w),
            Out.publish "game.started" newId])
    else
      joinWaiting s2 sid username now
  | none =>
    joinWaiting s2 sid username now

/-- The block `if (disconnectedPlayers.has(username)) { clearTimeout(..); delete .. }`
of `reconnectGame`. -/
def State.clearDisconnection (s : State) (username : String) : State :=
  match s.disconnectedPlayers username with
  | some info =>
    { (s.clearTimeout info.timeoutId) with
      disconnectedPlayers := Function.update s.disconnectedPlayers username none }
  | none => s

/-- Assignment `players[i].socketId = v`. -/
def setSocketId (ps : List Player) (i : Nat) (v : Option Nat) : List Player :=
  match ps[i]? with
  | some p => ps.set i { p with socketId := v }
  | none => ps

/-- Handler of `reconnectGame`. -/
def handleReconnectGame (s : State) (sid : Nat) (username : String) (gameId : Nat) :
    State × List Out :=
  match s.games gameId with
  | none => (s, [Out.emit (some sid) (Event.error "Game no longer exists")])
  | some game =>
    match game.players.findIdx? (fun p => p.username == username) with
    | none => (s, [Out.emit (some sid) (Event.error "You are not part of this game")])
    | some playerIndex =>
      let s1 : State := s.clearDisconnection username
      let game1 : Game := { game with players := setSocketId game.players playerIndex (some sid) }
      let s2 : State :=
        { s1 with games := Function.update s1.games gameId (some game1),
                  playerSockets := Function.update s1.playerSockets username (some sid),
                  sockets := Function.update s1.sockets sid
                    { s1.sockets sid with username := some username, gameId := some gameId } }
      let opponent := game1.players.find? (fun p => p.username != username)
      let color := (game1.players.getD playerIndex ⟨"", "", none⟩).color
      (s2, [Out.emit (some sid)
              (Event.gameStart game1.gameId (opponent.map (·.username)) color game1.currentTurn),
            Out.emit (some sid) (Event.gameState game1.board game1.currentTurn game1.moves)] ++
        (match opponent with
         | some o =>
           if o.socketId.isSome then [Out.emit o.socketId (Event.opponentReconnected username)]
           else []
         | none => []))

/-- The `makeMove` handler after its three guards (lines 244-285): `game` is the match
stored under `gameId`, the move is applied for `game.currentTurn`. -/
def acceptMove (s : State) (sid : Nat) (gameId : Nat) (column : Int) (now : Nat)
    (game : Game) : State × List Out :=
  let moved := makeMove game.board column.toNat game.currentTurn
  let game1 : Game := { game with board := moved.1, moves := game.moves + 1 }
  let s1 : State := { s with games := Function.update s.games gameId (some game1) }
  let winner := checkWinner game1.board
  let isDraw := isBoardFull game1.board
  if truthy winner || isDraw then
    let r := endGame s1 game1 winner none now
    (r.1, Out.publish "game.move" gameId :: r.2)
  else
    match game1.players.find? (fun p => p.username != game1.currentTurn) with
    | none =>
      -- `nextPlayer.username` throws; the `catch` reports the failure
      (s1, [Out.publish "game.move" gameId,
            Out.emit (some sid) (Event.error "Move failed")])
    | some nextPlayer =>
      let game2 : Game := { game1 with currentTurn := nextPlayer.username }
      let s2 : State := { s1 with games := Function.update s1.games gameId (some game2) }
      let outs := Out.publish "game.move" gameId :: broadcastGameState game2
      if game2.isBot && (game2.currentTurn == "Bot") then
        ((s2.setTimeout now 1000 (TimerKind.botMove game2.gameId)).1, outs)
      else (s2, outs)

/-- Handler of `makeMove`; `socket.username` is read from the socket `sid`. -/
def handleMakeMove (s : State) (sid : Nat) (gameId : Nat) (column : Int) (now : Nat) :
    State × List Out :=
  match s.games gameId with
  | none => (s, [Out.emit (some sid) (Event.error "Game not found")])
  | some game =>
    if some game.currentTurn ≠ (s.sockets sid).username then
      (s, [Out.emit (some sid) (Event.error "Not your turn")])
    else if !isValidMove game.board column then
      (s, [Out.emit (some sid) (Event.error "Invalid move")])
    else acceptMove s sid gameId column now game

/-- The body of `makeBotMove` after the registry check (lines 412-441), for the human
participant `human` found by `game.players.find(p => p.username !== 'Bot')`. -/
def applyBotMove (s : State) (gameId : Nat) (now : Nat) (game : Game) (human : Player) :
    State × List Out :=
  let humanPlayer := human.username
  let column := getBotMove game.board "Bot" humanPlayer
  let moved := makeMove game.board column "Bot"
  let game1 : Game := { game with board := moved.1, moves := game.moves + 1 }
  let s1 : State := { s with games := Function.update s.games gameId (some game1) }
  let winner := checkWinner game1.board
  let isDraw := isBoardFull game1.board
  if truthy winner || isDraw then
    let r := endGame s1 game1 winner none now
    (r.1, Out.publish "game.move" game1.gameId :: r.2)
  else
    let game2 : Game := { game1 with currentTurn := humanPlayer }
    ({ s1 with games := Function.update s1.games gameId (some game2) },
      Out.publish "game.move" game2.gameId :: broadcastGameState game2)

/-- `makeBotMove(game)` for the match object stored under `gameId`; `none` is the
uncaught `TypeError` when no player is named other than `'Bot'`. -/
def makeBotMove (s : State) (gameId : Nat) (now : Nat) : Option (State × List Out) :=
  match s.games gameId with
  | none => some (s, [])
  | some game =>
    match game.players.find? (fun p => p.username != "Bot") with
    | none => none
    | some human => some (applyBotMove s gameId now game human)

/-- `waitingPlayers.indexOf(x)` followed by `splice(index, 1)` when found: removes
the first occurrence. -/
def removeWaiting (q : List String) (x : Option String) : List String :=
  match x with
  | some u => q.erase u
  | none => q

/-- Handler of `disconnect`; the socket leaves `io.sockets.sockets`. -/
def handleDisconnect (s : State) (sid : Nat) (now : Nat) : State × List Out :=
  let sock := s.sockets sid
  let s1 : State :=
    match sock.matchTimeout with
    | some tid => s.clearTimeout tid
    | none => s
  let s2 : State :=
    { s1 with waitingPlayers := removeWaiting s1.waitingPlayers sock.username,
              sockets := Function.update s1.sockets sid { sock with connected := false } }
  match sock.gameId, sock.username with
  | some gid, some username =>
    if truthyStr username then
      match s2.games gid with
      | some game =>
        if game.winner = none then
          let opponent := game.players.find? (fun p => p.username != username)
          let outs : List Out :=
            match opponent with
            | some o =>
              if o.socketId.isSome then
                [Out.emit o.socketId (Event.opponentDisconnected username)]
              else []
            | none => []
          let (s3, tid) :=
            s2.setTimeout now 30000 (TimerKind.forfeit sid gid (opponent.map (·.username)))
          ({ s3 with disconnectedPlayers :=
               Function.update s3.disconnectedPlayers username (some ⟨gid, now, tid⟩) }, outs)
        else (s2, [])
      | none => (s2, [])
    else (s2, [])
  | _, _ => (s2, [])

/-! ### Example states, reached from start-up through the handlers -/

/-- Sockets 1 and 2 connect; alice joins on socket 1 at time 0 and waits. -/
def aliceWaiting : State :=
  (handleJoinGame (handleConnection (handleConnection State.init 1) 2) 1 "alice" 0 0).1

/-- Then bob joins on socket 2 at time 5: match 7 between alice and bob. -/
def aliceVsBob : State := (handleJoinGame aliceWaiting 2 "bob" 7 5).1

/-- Socket 1 connects and joins with the empty string as username: the queue is `[""]`. -/
def emptyNameWaiting : State :=
  (handleJoinGame (handleConnection (handleConnection State.init 1) 2) 1 "" 0 0).1

/-! ### Runs of accepted moves on one match -/

/-- A move event on a match: a `makeMove` request from socket `sid`, or the firing of
the bot's think-delay timer. -/
inductive MoveEv where
  | human (sid : Nat) (column : Int) (now : Nat)
  | bot (now : Nat)
deriving DecidableEq, Repr

/-- The transition a move event triggers on match `gameId`. -/
def stepMove (s : State) (gameId : Nat) : MoveEv → Option (State × List Out)
  | MoveEv.human sid column now => some (handleMakeMove s sid gameId column now)
  | MoveEv.bot now => makeBotMove s gameId now

/-- The board that the move produces when the event is an accepted move on match
`gameId` (the three guards of the handler pass, or `makeBotMove` finds the match and
the human participant); `none` when the move is not accepted. -/
def movedBoard (s : State) (gameId : Nat) : MoveEv → Option Board
  | MoveEv.human sid column _ =>
    match s.games gameId with
    | some game =>
      if (s.sockets sid).username = some game.currentTurn ∧ isValidMove game.board column = true
      then some (makeMove game.board column.toNat game.currentTurn).1
      else none
    | none => none
  | MoveEv.bot _ =>
    match s.games gameId with
    | some game =>
      match game.players.find? (fun p => p.username != "Bot") with
      | some human =>
        some (makeMove game.board (getBotMove game.board "Bot" human.username) "Bot").1
      | none => none
    | none => none

/-- Runs a sequence of move events on match `gameId`, each of which must be an
accepted move that leaves no four-in-a-row on the board (`checkWinner` returns
`null`); yields the final state and all outputs, or `none` if some event is not
such a move. -/
def runClean (s : State) (gameId : Nat) : List MoveEv → Option (State × List Out)
  | [] => some (s, [])
  | e :: rest =>
    match movedBoard s gameId e, stepMove s gameId e with
    | some b, some r =>
      if checkWinner b = none then
        match runClean r.1 gameId rest with
        | some q => some (q.1, r.2 ++ q.2)
        | none => none
      else none
    | _, _ => none

/-- Columns of a complete game without any four-in-a-row, in move order. -/
def drawColumns : List Int :=
  [0, 1, 0, 0, 4, 0, 0, 1, 0, 2, 1, 2, 1, 1, 2, 1, 2, 2, 2, 3, 4, 3, 3, 4, 3, 3, 6, 3, 6, 4, 4,
   5, 4, 5, 5, 6, 5, 6, 6, 5, 6, 5]

/-- The requests of that game: sockets 1 and 2 move in turn, socket 1 first. -/
def alternate : Nat → List Int → List MoveEv
  | _, [] => []
  | sid, c :: rest => MoveEv.human sid c 10 :: alternate (3 - sid) rest

/-- The drawn game as a sequence of move events. -/
def drawGame : List MoveEv := alternate 1 drawColumns

/-- A request from socket `sid` in state `s` is rejected: the result `r` of the handler
is the unchanged state and a single `error` event sent to the requesting socket. -/
def Rejected (s : State) (sid : Nat) (r : State × List Out) : Prop :=
  ∃ message, r = (s, [Out.emit (some sid) (Event.error message)])

/-! ### Timer callbacks and the transition system -/

/-- Callback of the 10-second timer of `joinGame` (lines 132-139): if `username` is
still in the queue, its first occurrence is removed and a bot match is started on
the socket the timer closes over. -/
def fireEscalate (s : State) (sid : Nat) (username : String) (newId now : Nat) :
    State × List Out :=
  if username ∈ s.waitingPlayers then
    startBotGame { s with waitingPlayers := s.waitingPlayers.erase username } sid username
      newId now
  else (s, [])

/-- The `socketId` of the `opponent` object that the forfeit callback closes over: the
first player of the match `gameId0` (the match at disconnect time) whose username
differs from the socket's.  In this section the object is looked up in the registry,
so nothing is sent to the opponent once that match has left it; the interleaved
server below keeps the objects that have left the registry (`capturedOpponentSocket`). -/
def opponentSocket (s : State) (gameId0 : Nat) (username : Option String) : Option Nat :=
  match s.games gameId0, username with
  | some g, some u => (g.players.find? (fun p => p.username != u)).bind (·.socketId)
  | _, _ => none

/-- Callback of the 30-second timer of `disconnect` (lines 328-357) for the socket
`sid`; `opponent` is `opponent?.username` as found when the timer was set. -/
def fireForfeit (s : State) (sid gameId0 : Nat) (opponent : Option String) (now : Nat) :
    State × List Out :=
  let sock := s.sockets sid
  let r : State × List Out :=
    match sock.gameId with
    | some gid =>
      match s.games gid with
      | some currentGame =>
        if currentGame.winner = none then
          let e := endGame s currentGame opponent (some "forfeit") now
          (e.1, e.2 ++
            (match opponent, opponentSocket s gameId0 sock.username with
             | some w, some osid =>
               [Out.emit (some osid) (Event.gameOver w currentGame.board
                 (duration now currentGame.startTime) currentGame.moves (some "forfeit"))]
             | _, _ => []))
        else (s, [])
      | none => (s, [])
    | none => (s, [])
  match sock.username with
  | some u =>
    ({ r.1 with disconnectedPlayers := Function.update r.1.disconnectedPlayers u none }, r.2)
  | none => r

/-- A pending timer fires: it stops being pending and its callback runs; `newId` is
the value of `uuidv4()` if the callback starts a bot match.  `none` is the uncaught
`TypeError` of `makeBotMove`. -/
def fireTimer (s : State) (t : Timer) (newId now : Nat) : Option (State × List Out) :=
  let s0 := s.clearTimeout t.id
  match t.kind with
  | TimerKind.escalate sid username => some (fireEscalate s0 sid username newId now)
  | TimerKind.forfeit sid gameId0 opponent => some (fireForfeit s0 sid gameId0 opponent now)
  | TimerKind.botMove gameId => makeBotMove s0 gameId now

/-- The events that drive the server. -/
inductive Ev where
  /-- A client connects: socket `sid` is created. -/
  | connect (sid : Nat)
  | joinGame (sid : Nat) (username : String) (newId now : Nat)
  | reconnectGame (sid : Nat) (username : String) (gameId : Nat)
  | makeMove (sid : Nat) (gameId : Nat) (column : Int) (now : Nat)
  | disconnect (sid : Nat) (now : Nat)
  /-- The pending timer `t` fires at time `now`. -/
  | fire (t : Timer) (newId now : Nat)
deriving DecidableEq, Repr

/-- When an event can happen: a connection creates a socket id never seen before,
client events arrive on connected sockets, a fresh match id is not in the registry,
and a timer fires only while pending and not before it is due. -/
def Ev.enabled (s : State) : Ev → Prop
  | Ev.connect sid => s.sockets sid = ⟨none, none, none, false⟩
  | Ev.joinGame sid _ newId _ => (s.sockets sid).connected = true ∧ s.games newId = none
  | Ev.reconnectGame sid _ _ => (s.sockets sid).connected = true
  | Ev.makeMove sid _ _ _ => (s.sockets sid).connected = true
  | Ev.disconnect sid _ => (s.sockets sid).connected = true
  | Ev.fire t newId now => t ∈ s.timers ∧ t.due ≤ now ∧ s.games newId = none

instance (s : State) (e : Ev) : Decidable (e.enabled s) := by
  cases e <;> unfold Ev.enabled <;> infer_instance

/-- The transition of an event; `none` when the process dies. -/
def Ev.apply (s : State) : Ev → Option (State × List Out)
  | Ev.connect sid => some (handleConnection s sid, [])
  | Ev.joinGame sid username newId now => some (handleJoinGame s sid username newId now)
  | Ev.reconnectGame sid username gameId => some (handleReconnectGame s sid username gameId)
  | Ev.makeMove sid gameId column now => some (handleMakeMove s sid gameId column now)
  | Ev.disconnect sid now => some (handleDisconnect s sid now)
  | Ev.fire t newId now => fireTimer s t newId now

/-- The server states that can be reached from start-up. -/
inductive Reachable : State → Prop where
  | init : Reachable State.init
  | step {s : State} (e : Ev) (r : State × List Out) :
      Reachable s → e.enabled s → e.apply s = some r → Reachable r.1

/-- Runs a list of events from a state, checking that each one is enabled; the final
state, or `none` if an event is not enabled or the process dies. -/
def runEvents (s : State) : List Ev → Option State
  | [] => some s
  | e :: rest =>
    if e.enabled s then
      match e.apply s with
      | some r => runEvents r.1 rest
      | none => none
    else none

/-! ### More example states -/

/-- Whether an output is the saving of a completed match by `endGame`. -/
def Out.isSaveGame : Out → Bool
  | Out.saveGame _ _ _ _ => true
  | _ => false

/-- The escalation timer that alice's join at time 0 on socket 1 started. -/
def aliceTimer : Timer := ⟨0, 10000, TimerKind.escalate 1 "alice"⟩

/-- While matched with bob in match 7, alice joins again on socket 1 at time 9000. -/
def aliceRejoinsAfterPairing : State := (handleJoinGame aliceVsBob 1 "alice" 8 9000).1

/-- While waiting, alice joins again on socket 1 at time 4000. -/
def aliceRejoinsWhileWaiting : State := (handleJoinGame aliceWaiting 1 "alice" 8 4000).1

/-! ### Invariants of the reachable states -/

/-- The boards that occur in a match: the empty board, and every board obtained from
such a board by `makeMove` on a column accepted by `isValidMove`. -/
inductive PlayedBoard : Board → Prop where
  | empty : PlayedBoard createEmptyBoard
  | move {b : Board} (column : Int) (marker : String) :
      PlayedBoard b → isValidMove b column = true →
      PlayedBoard (makeMove b column.toNat marker).1

/-- What holds of every match `g` stored under `gameId` in the registry. -/
structure GameOK (gameId : Nat) (g : Game) : Prop where
  key : g.gameId = gameId
  noWinner : g.winner = none
  two : ∃ p0 p1 : Player, g.players = [p0, p1] ∧
    (g.isBot = false → p0.username ≠ p1.username) ∧ (g.isBot = true → p1.username = "Bot")
  turn : g.currentTurn ∈ g.players.map (·.username)
  played : PlayedBoard g.board
  notFull : isBoardFull g.board = false
  noLine : checkWinner g.board = none
  count : g.moves = filled g.board

/-- Every registry entry is a well-formed running match. -/
def RegInv (s : State) : Prop := ∀ gameId g, s.games gameId = some g → GameOK gameId g

/-- A human called `Bot`: socket 1 connects and joins as `Bot` at time 0. -/
def botNamedWaiting : State := (handleJoinGame (handleConnection State.init 1) 1 "Bot" 0 0).1

/-- The escalation of that join fires at time 10000 and starts bot match 7. -/
def botNamedMatch : State :=
  (fireEscalate (botNamedWaiting.clearTimeout 0) 1 "Bot" 7 10000).1

/-- The first part of the `disconnect` handler (lines 299-309): the socket's matchmaking
timer is cleared, its username leaves the queue; the socket is no longer connected. -/
def disconnectCleanup (s : State) (sid : Nat) : State :=
  let sock := s.sockets sid
  let s1 : State :=
    match sock.matchTimeout with
    | some tid => s.clearTimeout tid
    | none => s
  { s1 with waitingPlayers := removeWaiting s1.waitingPlayers sock.username,
            sockets := Function.update s1.sockets sid { sock with connected := false } }

/-! ### Names of participants -/

/-- The usernames of the participants of a match. -/
def Game.usernames (g : Game) : List String := g.players.map (·.username)

/-! ### Moves -/

/-- The event is a move in match `gid`: a `makeMove` request that names it, or the
firing of a bot-move timer scheduled for it. -/
def Ev.movesIn (gid : Nat) : Ev → Prop
  | Ev.makeMove _ gameId _ _ => gameId = gid
  | Ev.fire t _ _ => t.kind = TimerKind.botMove gid
  | _ => False

/-- How the registry entry under `gid` can change in one event `e`, from `a` to `b`:
it is absent afterwards; or it is created with an empty board and counter 0; or
board and counter stay as they were; or the event is a move in match `gid` and
both the counter and the number of occupied cells grow by one. -/
def EntryStep (e : Ev) (gid : Nat) (a b : Option Game) : Prop :=
  b = none ∨
  (a = none ∧ ∃ g', b = some g' ∧ g'.moves = 0 ∧ g'.board = createEmptyBoard) ∨
  (∃ g g', a = some g ∧ b = some g' ∧ g'.moves = g.moves ∧ g'.board = g.board) ∨
  (∃ g g', a = some g ∧ b = some g' ∧ e.movesIn gid ∧ g'.moves = g.moves + 1 ∧
    filled g'.board = filled g.board + 1)

/-! ## Interleaving at the `await`s

The handlers of `joinGame` and `makeMove` and the function `endGame` are `async`:
they run up to an `await`, and the rest runs when the awaited promise settles, after
any number of other handlers and timer callbacks.  Here each of them is split at
its `await`s into the segments that Node runs without interruption; a suspended
function is a `Task`.  Match objects are referred to by their id: `games` holds the
objects of the registry, `dead` those that `games.delete` has removed and that a
task or a timer callback may still hold.  The handlers of `connection`,
`reconnectGame` and `disconnect`, and `startBotGame`, contain no `await` before
their last statement and are the transitions defined above. -/

/-- A suspended `async` function: what runs when its `await` settles. -/
inductive Task where
  /-- `joinGame` after `await pool.query(..)` (line 67): closes over `socket` and
  `username`. -/
  | joinBody (sid : Nat) (username : String)
  /-- `makeMove` after `await sendGameEvent('game.move', ..)` (line 255): closes over
  `socket` and the match object `game`. -/
  | moveRest (sid : Nat) (gameId : Nat)
  /-- `endGame` after its database and analytics `await`s (lines 475-505): closes over
  `game`, `winner`, `reason` and `duration`. -/
  | endRest (gameId : Nat) (winner reason : Option String) (duration : Nat)
deriving DecidableEq, Repr

/-- The server with its suspended functions and the match objects that have left
the registry. -/
structure Srv where
  base : State
  dead : Nat → Option Game
  tasks : List Task

/-- The server at start-up. -/
def Srv.init : Srv := ⟨State.init, fun _ => none, []⟩

/-- The match object with id `gameId`, in the registry or not. -/
def Srv.obj (sv : Srv) (gameId : Nat) : Option Game :=
  match sv.base.games gameId with
  | some g => some g
  | none => sv.dead gameId

/-- Assignment to fields of the match object with id `gameId`: `g` is the object
afterwards. -/
def Srv.setObj (sv : Srv) (gameId : Nat) (g : Game) : Srv :=
  match sv.base.games gameId with
  | some _ =>
    { sv with base := { sv.base with games := Function.update sv.base.games gameId (some g) } }
  | none => { sv with dead := Function.update sv.dead gameId (some g) }

/-- A handler without `await` that runs on the server. -/
def Srv.lift (sv : Srv) (r : State × List Out) : Srv × List Out :=
  ({ sv with base := r.1 }, r.2)

/-- `games.delete(gameId)`: the object leaves the registry. -/
def Srv.deleteGame (sv : Srv) (gameId : Nat) : Srv :=
  match sv.base.games gameId with
  | some g =>
    { sv with base := { sv.base with games := Function.update sv.base.games gameId none },
              dead := Function.update sv.dead gameId (some g) }
  | none => sv

/-- The start of `endGame(game, winner, reason)` up to its first `await` (lines
467-475), for the match object `game` with id `gameId`: the duration is computed,
`game.winner` is set and the `INSERT` is issued. -/
def endGameStart (sv : Srv) (gameId : Nat) (game : Game) (winner reason : Option String)
    (now : Nat) : Srv × List Out :=
  let d := duration now game.startTime
  let sv1 := sv.setObj gameId { game with winner := winner }
  ({ sv1 with tasks := sv1.tasks ++ [Task.endRest gameId winner reason d] },
    [Out.saveGame game.gameId winner d game.moves])

/-- The rest of `endGame` (lines 497-523): `game.completed` is published unless a
query has thrown (`dbOk = false`), the players are notified with the board and the
move count of that moment, and `game.gameId` is deleted from `games`. -/
def endGameRest (sv : Srv) (gameId : Nat) (winner reason : Option String) (d : Nat)
    (dbOk : Bool) : Srv × List Out :=
  match sv.obj gameId with
  | none => (sv, [])
  | some game =>
    (sv.deleteGame game.gameId,
      (if dbOk then [Out.publish "game.completed" game.gameId] else []) ++
        notifyPlayers game.players
          (Event.gameOver (outcomeLabel winner) game.board d game.moves reason))

/-- The `makeMove` handler up to `await sendGameEvent('game.move', ..)` (lines
221-255): the three guards, then the disc is dropped and counted. -/
def makeMoveStart (sv : Srv) (sid : Nat) (gameId : Nat) (column : Int) : Srv × List Out :=
  match sv.base.games gameId with
  | none => (sv, [Out.emit (some sid) (Event.error "Game not found")])
  | some game =>
    if some game.currentTurn ≠ (sv.base.sockets sid).username then
      (sv, [Out.emit (some sid) (Event.error "Not your turn")])
    else if !isValidMove game.board column then
      (sv, [Out.emit (some sid) (Event.error "Invalid move")])
    else
      let moved := makeMove game.board column.toNat game.currentTurn
      let game1 : Game := { game with board := moved.1, moves := game.moves + 1 }
      let sv1 := sv.setObj gameId game1
      ({ sv1 with tasks := sv1.tasks ++ [Task.moveRest sid gameId] },
        [Out.publish "game.move" gameId])

/-- The rest of the `makeMove` handler (lines 262-285) on the match object with id
`gameId`: winner and draw are read from the board of that moment; then either
`endGame` starts, or the turn is switched, the state broadcast and the bot move
scheduled. -/
def makeMoveRest (sv : Srv) (sid : Nat) (gameId : Nat) (now : Nat) : Srv × List Out :=
  match sv.obj gameId with
  | none => (sv, [])
  | some game =>
    let winner := checkWinner game.board
    let isDraw := isBoardFull game.board
    if truthy winner || isDraw then endGameStart sv gameId game winner none now
    else
      match game.players.find? (fun p => p.username != game.currentTurn) with
      | none => (sv, [Out.emit (some sid) (Event.error "Move failed")])
      | some nextPlayer =>
        let game2 : Game := { game with currentTurn := nextPlayer.username }
        let sv2 := sv.setObj gameId game2
        if game2.isBot && (game2.currentTurn == "Bot") then
          ({ sv2 with base := (sv2.base.setTimeout now 1000 (TimerKind.botMove gameId)).1 },
            broadcastGameState game2)
        else (sv2, broadcastGameState game2)

/-- The `socketId` of the `opponent` object that the forfeit callback closed over:
the first player called `opponent` of the match object `gameId0`. -/
def capturedOpponentSocket (sv : Srv) (gameId0 : Nat) (opponent : Option String) :
    Option Nat :=
  match opponent, sv.obj gameId0 with
  | some w, some g => (g.players.find? (fun p => p.username == w)).bind (·.socketId)
  | _, _ => none

/-- The forfeit callback of `disconnect` (lines 328-358): `endGame` is called without
`await`, so only its start runs here. -/
def forfeitCallback (sv : Srv) (sid gameId0 : Nat) (opponent : Option String) (now : Nat) :
    Srv × List Out :=
  let sock := sv.base.sockets sid
  let r : Srv × List Out :=
    match sock.gameId with
    | some gid =>
      match sv.base.games gid with
      | some currentGame =>
        if currentGame.winner = none then
          let e := endGameStart sv gid currentGame opponent (some "forfeit") now
          (e.1, e.2 ++
            (match opponent, capturedOpponentSocket sv gameId0 opponent with
             | some w, some osid =>
               [Out.emit (some osid) (Event.gameOver w currentGame.board
                 (duration now currentGame.startTime) currentGame.moves (some "forfeit"))]
             | _, _ => []))
        else (sv, [])
      | none => (sv, [])
    | none => (sv, [])
  match sock.username with
  | some u =>
    ({ r.1 with base := { r.1.base with
        disconnectedPlayers := Function.update r.1.base.disconnectedPlayers u none } }, r.2)
  | none => r

/-- The callback `() => makeBotMove(game)` (lines 406-441) for the match object with
id `gameId`: nothing happens unless `games` has an entry under `game.gameId`;
`endGame` is called without `await`.  `none` is the uncaught `TypeError`. -/
def botMoveCallback (sv : Srv) (gameId now : Nat) : Option (Srv × List Out) :=
  match sv.obj gameId with
  | none => some (sv, [])
  | some game =>
    if (sv.base.games game.gameId).isNone then some (sv, [])
    else
      match game.players.find? (fun p => p.username != "Bot") with
      | none => none
      | some human =>
        let column := getBotMove game.board "Bot" human.username
        let moved := makeMove game.board column "Bot"
        let game1 : Game := { game with board := moved.1, moves := game.moves + 1 }
        let sv1 := sv.setObj gameId game1
        let winner := checkWinner game1.board
        let isDraw := isBoardFull game1.board
        if truthy winner || isDraw then
          let e := endGameStart sv1 gameId game1 winner none now
          some (e.1, Out.publish "game.move" game1.gameId :: e.2)
        else
          let game2 : Game := { game1 with currentTurn := human.username }
          some (sv1.setObj gameId game2,
            Out.publish "game.move" game2.gameId :: broadcastGameState game2)

/-- A pending timer fires on the server. -/
def fireTimerSrv (sv : Srv) (t : Timer) (newId now : Nat) : Option (Srv × List Out) :=
  let sv0 : Srv := { sv with base := sv.base.clearTimeout t.id }
  match t.kind with
  | TimerKind.escalate sid username =>
    some (sv0.lift (fireEscalate sv0.base sid username newId now))
  | TimerKind.forfeit sid gameId0 opponent => some (forfeitCallback sv0 sid gameId0 opponent now)
  | TimerKind.botMove gameId => botMoveCallback sv0 gameId now

/-- What Node runs without interruption: the arrival of a socket event (the handler
up to its first `await`), the resumption of a suspended function, or a timer
callback.  `newId` and `now` are the values of `uuidv4()` and `Date.now()`;
`dbOk` tells whether the queries of `endGame` succeeded. -/
inductive Step where
  | connect (sid : Nat)
  | joinGame (sid : Nat) (username : String)
  | joinResume (sid : Nat) (username : String) (newId now : Nat)
  | reconnectGame (sid : Nat) (username : String) (gameId : Nat)
  | makeMove (sid : Nat) (gameId : Nat) (column : Int)
  | moveResume (sid : Nat) (gameId : Nat) (now : Nat)
  | endResume (gameId : Nat) (winner reason : Option String) (d : Nat) (dbOk : Bool)
  | disconnect (sid : Nat) (now : Nat)
  | fire (t : Timer) (newId now : Nat)

/-- The socket a task belongs to, if any. -/
def Task.socket : Task → Option Nat
  | Task.joinBody sid _ => some sid
  | Task.moveRest sid _ => some sid
  | Task.endRest _ _ _ _ => none

/-- No match object has the id `newId` yet. -/
def Srv.fresh (sv : Srv) (newId : Nat) : Prop :=
  sv.base.games newId = none ∧ sv.dead newId = none

instance (sv : Srv) (newId : Nat) : Decidable (sv.fresh newId) := by
  unfold Srv.fresh; infer_instance

/-- When a step can happen: a socket event arrives on a connected socket, a new
socket has an unused id, a resumed task is suspended, a fired timer is pending and
due. -/
def Step.enabled (sv : Srv) : Step → Prop
  | Step.connect sid =>
    sv.base.sockets sid = ⟨none, none, none, false⟩ ∧ ∀ k ∈ sv.tasks, k.socket ≠ some sid
  | Step.joinGame sid _ => (sv.base.sockets sid).connected = true
  | Step.joinResume sid username newId _ =>
    Task.joinBody sid username ∈ sv.tasks ∧ sv.fresh newId
  | Step.reconnectGame sid _ _ => (sv.base.sockets sid).connected = true
  | Step.makeMove sid _ _ => (sv.base.sockets sid).connected = true
  | Step.moveResume sid gameId _ => Task.moveRest sid gameId ∈ sv.tasks
  | Step.endResume gameId winner reason d _ => Task.endRest gameId winner reason d ∈ sv.tasks
  | Step.disconnect sid _ => (sv.base.sockets sid).connected = true
  | Step.fire t newId now => t ∈ sv.base.timers ∧ t.due ≤ now ∧ sv.fresh newId

instance (sv : Srv) (e : Step) : Decidable (e.enabled sv) := by
  cases e <;> unfold Step.enabled <;> infer_instance

/-- The transition of a step; `none` when the process dies. -/
def Step.apply (sv : Srv) : Step → Option (Srv × List Out)
  | Step.connect sid => some (sv.lift (handleConnection sv.base sid, []))
  | Step.joinGame sid username =>
    some ({ sv with tasks := sv.tasks ++ [Task.joinBody sid username] }, [])
  | Step.joinResume sid username newId now =>
    let sv0 : Srv := { sv with tasks := sv.tasks.erase (Task.joinBody sid username) }
    some (sv0.lift (handleJoinGame sv0.base sid username newId now))
  | Step.reconnectGame sid username gameId =>
    some (sv.lift (handleReconnectGame sv.base sid username gameId))
  | Step.makeMove sid gameId column => some (makeMoveStart sv sid gameId column)
  | Step.moveResume sid gameId now =>
    some (makeMoveRest { sv with tasks := sv.tasks.erase (Task.moveRest sid gameId) }
      sid gameId now)
  | Step.endResume gameId winner reason d dbOk =>
    some (endGameRest
      { sv with tasks := sv.tasks.erase (Task.endRest gameId winner reason d) }
      gameId winner reason d dbOk)
  | Step.disconnect sid now => some (sv.lift (handleDisconnect sv.base sid now))
  | Step.fire t newId now => fireTimerSrv sv t newId now

/-- The servers that can be reached from start-up. -/
inductive Reach : Srv → Prop where
  | init : Reach Srv.init
  | step {sv : Srv} (e : Step) (r : Srv × List Out) :
      Reach sv → e.enabled sv → e.apply sv = some r → Reach r.1

/-- Runs a list of steps from a server, checking that each one is enabled; `none`
if one is not, or if the process dies. -/
def runSteps (sv : Srv) : List Step → Option Srv
  | [] => some sv
  | e :: rest =>
    if e.enabled sv then
      match e.apply sv with
      | some r => runSteps r.1 rest
      | none => none
    else none

/-! ### Runs of the interleaved server -/

/-- Alice (socket 1) and bob (socket 2) are paired in match 7 at time 5. -/
def pairedRun : List Step :=
  [Step.connect 1, Step.connect 2, Step.joinGame 1 "alice", Step.joinResume 1 "alice" 0 0,
   Step.joinGame 2 "bob", Step.joinResume 2 "bob" 7 5]

/-- Alice sends `makeMove` for column 3 twice; the second request arrives while the
first handler is suspended at `sendGameEvent`; then both handlers resume. -/
def turnRaceRun : List Step :=
  pairedRun ++ [Step.makeMove 1 7 3, Step.makeMove 1 7 3, Step.moveResume 1 7 100,
    Step.moveResume 1 7 100]

/-- Alice reconnects to match 7 on socket 3 while socket 1 is open; socket 1
disconnects at time 100 (forfeit timer 1) and socket 3 at time 200 (forfeit timer 2,
which replaces timer 1 in alice's record); alice reconnects on socket 4. -/
def reconnectRun : List Step :=
  pairedRun ++ [Step.connect 3, Step.reconnectGame 3 "alice" 7, Step.disconnect 1 100,
    Step.disconnect 3 200, Step.connect 4, Step.reconnectGame 4 "alice" 7]

/-- The forfeit timer of socket 1 in `reconnectRun`. -/
def staleForfeitTimer : Timer := ⟨1, 30100, TimerKind.forfeit 1 7 (some "bob")⟩

/-- Alice joins twice on socket 1 (escalation timers 0 and 1) and is paired with bob
in match 7; socket 1 disconnects at time 100, which cancels timer 1 and starts
forfeit timer 2; alice joins again on socket 3 at time 9000 and waits (timer 3);
timer 0 fires at time 10000 and starts bot match 9 for alice on the disconnected
socket 1; timer 3 fires at time 19000 and finds the queue without alice. -/
def reboundSocketRun : List Step :=
  [Step.connect 1, Step.joinGame 1 "alice", Step.joinResume 1 "alice" 0 0,
   Step.joinGame 1 "alice", Step.joinResume 1 "alice" 8 1,
   Step.connect 2, Step.joinGame 2 "bob", Step.joinResume 2 "bob" 7 5,
   Step.disconnect 1 100,
   Step.connect 3, Step.joinGame 3 "alice", Step.joinResume 3 "alice" 8 9000,
   Step.fire ⟨0, 10000, TimerKind.escalate 1 "alice"⟩ 9 10000,
   Step.fire ⟨3, 19000, TimerKind.escalate 3 "alice"⟩ 10 19000]

/-- The forfeit timer of socket 1 in `reboundSocketRun`. -/
def reboundForfeitTimer : Timer := ⟨2, 30100, TimerKind.forfeit 1 7 (some "bob")⟩

/-- Alice plays bot match 7 on socket 2 after her socket 1 has disconnected at time
11000 (forfeit timer 1, due 41000); her move in column 3 resumes at time 40001 and
schedules the bot move (timer 2, due 41001); the forfeit timer fires at time 41000
and `endGame` starts. -/
def botRaceRun : List Step :=
  [Step.connect 1, Step.joinGame 1 "alice", Step.joinResume 1 "alice" 0 0,
   Step.fire ⟨0, 10000, TimerKind.escalate 1 "alice"⟩ 7 10000,
   Step.connect 2, Step.reconnectGame 2 "alice" 7, Step.disconnect 1 11000,
   Step.makeMove 2 7 3, Step.moveResume 2 7 40001,
   Step.fire ⟨1, 41000, TimerKind.forfeit 1 7 (some "Bot")⟩ 9 41000]

/-- The bot-move timer of `botRaceRun`. -/
def raceBotTimer : Timer := ⟨2, 41001, TimerKind.botMove 7⟩
/-! ### Invariants of the interleaved server -/

/-- A match object stored under `gameId`: it carries that id and has two
participants, with different usernames in a match between humans and the second
one called `Bot` in a bot match. -/
structure MatchShape (gameId : Nat) (g : Game) : Prop where
  key : g.gameId = gameId
  two : ∃ p0 p1 : Player, g.players = [p0, p1] ∧
    (g.isBot = false → p0.username ≠ p1.username) ∧ (g.isBot = true → p1.username = "Bot")

/-- Every registry entry has the shape of a match. -/
def RegShape (s : State) : Prop := ∀ gameId g, s.games gameId = some g → MatchShape gameId g

/-- What a segment other than the forfeit branch of `disconnect` does to timers,
sockets and disconnection records: the timer counter does not decrease, a new timer
has a new handle and is not a forfeit timer, a socket that has disconnected with a
username stays so, and no record is added or changed. -/
structure Frame (s s' : State) : Prop where
  next : s.nextTimer ≤ s'.nextTimer
  timers : ∀ t ∈ s'.timers, t ∈ s.timers ∨
    (s.nextTimer ≤ t.id ∧ t.id < s'.nextTimer ∧
      ∀ sid gid opp, t.kind ≠ TimerKind.forfeit sid gid opp)
  sockets : ∀ x u, (s.sockets x).connected = false → (s.sockets x).username = some u →
    (s'.sockets x).connected = false ∧ ∃ u', (s'.sockets x).username = some u'
  records : ∀ u info, s'.disconnectedPlayers u = some info →
    s.disconnectedPlayers u = some info

/-- The link between disconnection records and forfeit timers that holds under
interleaving: timer handles are below the counter; a pending forfeit timer belongs
to a socket that has disconnected and carries a username; a record has a non-empty
key and holds a handle that was issued, and a pending timer with that handle is the
forfeit timer of the recorded match, due 30 seconds after the recorded time. -/
structure RecordInv (s : State) : Prop where
  below : ∀ t ∈ s.timers, t.id < s.nextTimer
  forfeit : ∀ t ∈ s.timers, ∀ sid gid opp, t.kind = TimerKind.forfeit sid gid opp →
    (s.sockets sid).connected = false ∧ ∃ u, (s.sockets sid).username = some u
  record : ∀ u info, s.disconnectedPlayers u = some info →
    u ≠ "" ∧ info.timeoutId < s.nextTimer ∧
    ∀ t ∈ s.timers, t.id = info.timeoutId →
      t.due = info.disconnectTime + 30000 ∧
      ∃ sid opp, t.kind = TimerKind.forfeit sid info.gameId opp

/-! ### Reachable servers used as examples -/

/-- The server at the end of a run from start-up. -/
def serverAfter (run : List Step) : Srv := (runSteps Srv.init run).getD Srv.init

/-- Alice and bob are paired in match 7 and both disconnect, alice at time 100
(forfeit timer 1) and bob at time 200 (forfeit timer 2); alice's timer fires at time
30100 and `endGame` runs to its end. -/
def recordOutlivesRun : List Step :=
  pairedRun ++ [Step.disconnect 1 100, Step.disconnect 2 200,
    Step.fire ⟨1, 30100, TimerKind.forfeit 1 7 (some "bob")⟩ 9 30100,
    Step.endResume 7 (some "bob") (some "forfeit") 30 true]

/-- While matched with bob in match 7, alice joins again on socket 1 at time 9000
and waits; carol joins on socket 3 at time 9500 and is paired with alice in match
8. -/
def twoMatchesRun : List Step :=
  pairedRun ++ [Step.joinGame 1 "alice", Step.joinResume 1 "alice" 8 9000,
    Step.connect 3, Step.joinGame 3 "carol", Step.joinResume 3 "carol" 8 9500]

/-- Alice and bob are paired in match 7 and alice's socket disconnects at time
100. -/
def oneDisconnectRun : List Step := pairedRun ++ [Step.disconnect 1 100]

/-- Socket 1, alice's socket in match 7, sends `joinGame` as zed and disconnects at
time 100 while that handler waits for the database (forfeit timer 1, record of
alice); the handler resumes at time 150, names the socket zed and queues zed (timer
2), whose escalation at time 10150 starts bot match 8 on socket 1; at time 30100 the
forfeit timer fires and deletes the record of zed. -/
def lateJoinRun : List Step :=
  pairedRun ++ [Step.joinGame 1 "zed", Step.disconnect 1 100, Step.joinResume 1 "zed" 8 150,
    Step.fire ⟨2, 10150, TimerKind.escalate 1 "zed"⟩ 8 10150,
    Step.fire ⟨1, 30100, TimerKind.forfeit 1 7 (some "bob")⟩ 9 30100]

/-- Alice plays bot match 7 on socket 1 and sends `makeMove` for column 0 twice back
to back; the two handlers resume at time 20000: the first gives the turn to the bot
and schedules its move (timer 1, due 21000), the second gives the turn back to
alice.  Before the timer fires alice sends 40 more requests, which fill column 0
and then columns 1 to 6; each passes the guards, since it is alice's turn and the
column has room, and its handler is still waiting at the `await` of line 255 when
the run ends. -/
def floodRun : List Step :=
  [Step.connect 1, Step.joinGame 1 "alice", Step.joinResume 1 "alice" 0 0,
   Step.fire ⟨0, 10000, TimerKind.escalate 1 "alice"⟩ 7 10000,
   Step.makeMove 1 7 0, Step.makeMove 1 7 0,
   Step.moveResume 1 7 20000, Step.moveResume 1 7 20000] ++
  List.replicate 4 (Step.makeMove 1 7 0) ++
  List.replicate 6 (Step.makeMove 1 7 1) ++ List.replicate 6 (Step.makeMove 1 7 2) ++
  List.replicate 6 (Step.makeMove 1 7 3) ++ List.replicate 6 (Step.makeMove 1 7 4) ++
  List.replicate 6 (Step.makeMove 1 7 5) ++ List.replicate 6 (Step.makeMove 1 7 6)

/-- The bot-move timer of `floodRun`. -/
def floodBotTimer : Timer := ⟨1, 21000, TimerKind.botMove 7⟩

/-- The board with alice's disc in every cell. -/
def aliceEverywhere : Board := List.replicate 6 (List.replicate 7 (some "alice"))

/-! ## Lemmas on cells -/

theorem cell_setCell_of_ne (b : Board) (r c r' c' : Nat) (v : Cell)
    (h : r' ≠ r ∨ c' ≠ c) : cell (setCell b r c v) r' c' = cell b r' c' := by
  unfold cell setCell
  by_cases hr : r' = r
  · subst hr
    have hc : c' ≠ c := by
      rcases h with h | h
      · exact absurd rfl h
      · exact h
    by_cases hlt : r' < b.length
    · simp [List.getD_eq_getElem?_getD, List.getElem?_set, hlt, Ne.symm hc]
    · have hge : b.length ≤ r' := by omega
      simp [List.getD_eq_getElem?_getD, List.getElem?_set, hlt, List.getElem?_eq_none hge]
  · simp [List.getD_eq_getElem?_getD, List.getElem?_set, Ne.symm hr]

theorem rowLen_of_WF {b : Board} (h : WF b) {r : Nat} (hr : r < ROWS) :
    (b.getD r []).length = COLS := by
  have hlt : r < b.length := by rw [h.1]; exact hr
  have : b.getD r [] = b[r] := by simp [List.getD_eq_getElem?_getD, hlt]
  rw [this]
  exact h.2 _ (List.getElem_mem _)

theorem cell_setCell_self {b : Board} (h : WF b) {r c : Nat} (hr : r < ROWS) (hc : c < COLS)
    (v : Cell) : cell (setCell b r c v) r c = v := by
  have hlt : r < b.length := by rw [h.1]; exact hr
  have hlen := rowLen_of_WF h hr
  unfold cell setCell
  simp [List.getD_eq_getElem?_getD, List.getElem?_set, hlt] at hlen ⊢
  simp [hlen, hc]

theorem WF_setCell {b : Board} (h : WF b) (r c : Nat) (v : Cell) : WF (setCell b r c v) := by
  refine ⟨by simp [setCell, h.1], ?_⟩
  intro row hrow
  unfold setCell at hrow
  rcases List.mem_or_eq_of_mem_set hrow with h1 | h1
  · exact h.2 _ h1
  · subst h1
    by_cases hr : r < b.length
    · have : b.getD r [] = b[r] := by simp [List.getD_eq_getElem?_getD, hr]
      rw [List.length_set, this]
      exact h.2 _ (List.getElem_mem _)
    · rw [List.set_eq_of_length_le (by omega)] at hrow
      exact h.2 _ hrow

theorem makeMoveFrom_eq (b : Board) (col : Nat) (m : String) (n r : Nat) (hr : r < n)
    (hnone : cell b r col = none) (hbelow : ∀ r', r < r' → r' < n → cell b r' col ≠ none) :
    makeMoveFrom b col m n = (setCell b r col (some m), some ⟨r, col⟩) := by
  induction n with
  | zero => omega
  | succ k ih =>
    unfold makeMoveFrom
    by_cases hk : r = k
    · subst hk
      simp [hnone]
    · have hlt : r < k := by omega
      have hne : cell b k col ≠ none := hbelow k hlt (by omega)
      rw [if_neg hne]
      exact ih hlt (fun r' h1 h2 => hbelow r' h1 (by omega))

theorem exists_lowest_empty (b : Board) (col : Nat) (n : Nat) (h : ∃ r, r < n ∧ cell b r col = none) :
    ∃ r, r < n ∧ cell b r col = none ∧ ∀ r', r < r' → r' < n → cell b r' col ≠ none := by
  induction n with
  | zero => obtain ⟨r, hr, _⟩ := h; omega
  | succ k ih =>
    by_cases hk : cell b k col = none
    · exact ⟨k, by omega, hk, fun r' h1 h2 => by omega⟩
    · obtain ⟨r, hr, hnone⟩ := h
      have hrk : r ≠ k := fun e => hk (e ▸ hnone)
      obtain ⟨r0, h0, h1, h2⟩ := ih ⟨r, by omega, hnone⟩
      refine ⟨r0, by omega, h1, fun r' h3 h4 => ?_⟩
      by_cases e : r' = k
      · subst e; exact hk
      · exact h2 r' h3 (by omega)

theorem makeMove_eq (b : Board) (col : Nat) (m : String) (r : Nat) (hr : r < ROWS)
    (hnone : cell b r col = none) (hbelow : ∀ r', r < r' → r' < ROWS → cell b r' col ≠ none) :
    makeMove b col m = (setCell b r col (some m), some ⟨r, col⟩) :=
  makeMoveFrom_eq b col m ROWS r hr hnone hbelow

theorem isValidMove_iff (b : Board) (col : Int) :
    isValidMove b col = true ↔ 0 ≤ col ∧ col < 7 ∧ cell b 0 col.toNat = none := by
  simp [isValidMove, COLS, and_assoc]

/-! ## `checkWinner` -/

theorem scan_some {lo n : Nat} {body : Nat → Option String} {v : String}
    (h : scan lo n body = some v) : ∃ i, lo ≤ i ∧ i < lo + n ∧ body i = some v := by
  unfold scan at h
  obtain ⟨i, hi, hv⟩ := List.exists_of_findSome?_eq_some h
  rw [List.mem_range'_1] at hi
  exact ⟨i, hi.1, hi.2, hv⟩

theorem scan_none {lo n : Nat} {body : Nat → Option String} :
    scan lo n body = none ↔ ∀ i, lo ≤ i → i < lo + n → body i = none := by
  unfold scan
  rw [List.findSome?_eq_none_iff]
  constructor
  · intro h i h1 h2
    exact h i (List.mem_range'_1.2 ⟨h1, h2⟩)
  · intro h i hi
    rw [List.mem_range'_1] at hi
    exact h i hi.1 hi.2

theorem four_some {b : Board} {r0 c0 r1 c1 r2 c2 r3 c3 : Nat} {m : String}
    (h : four b r0 c0 r1 c1 r2 c2 r3 c3 = some m) :
    m ≠ "" ∧ cell b r0 c0 = some m ∧ cell b r1 c1 = some m ∧ cell b r2 c2 = some m ∧
      cell b r3 c3 = some m := by
  unfold four at h
  split at h
  · rename_i hc
    simp only [Bool.and_eq_true, beq_iff_eq] at hc
    obtain ⟨⟨⟨ht, h1⟩, h2⟩, h3⟩ := hc
    rw [h] at ht h1 h2 h3
    refine ⟨?_, h, h1.symm, h2.symm, h3.symm⟩
    simpa [truthy, truthyStr] using ht
  · exact absurd h (by simp)

theorem four_of_cells {b : Board} {r0 c0 r1 c1 r2 c2 r3 c3 : Nat} {m : String}
    (hm : m ≠ "") (h0 : cell b r0 c0 = some m) (h1 : cell b r1 c1 = some m)
    (h2 : cell b r2 c2 = some m) (h3 : cell b r3 c3 = some m) :
    four b r0 c0 r1 c1 r2 c2 r3 c3 = some m := by
  unfold four
  simp [h0, h1, h2, h3, truthy, truthyStr, hm]

theorem checkHorizontal_some {b : Board} {m : String} (h : checkHorizontal b = some m) :
    m ≠ "" ∧ LineOfFour b m := by
  obtain ⟨r, _, hr, h1⟩ := scan_some h
  obtain ⟨c, _, hc, h2⟩ := scan_some h1
  obtain ⟨hm, a0, a1, a2, a3⟩ := four_some h2
  simp only [ROWS, COLS] at hr hc
  exact ⟨hm, r, by unfold ROWS; omega, c, by unfold COLS; omega,
    Or.inl ⟨by unfold COLS; omega, a0, a1, a2, a3⟩⟩

theorem checkVertical_some {b : Board} {m : String} (h : checkVertical b = some m) :
    m ≠ "" ∧ LineOfFour b m := by
  obtain ⟨c, _, hc, h1⟩ := scan_some h
  obtain ⟨r, _, hr, h2⟩ := scan_some h1
  obtain ⟨hm, a0, a1, a2, a3⟩ := four_some h2
  simp only [ROWS, COLS] at hr hc
  exact ⟨hm, r, by unfold ROWS; omega, c, by unfold COLS; omega,
    Or.inr (Or.inl ⟨by unfold ROWS; omega, a0, a1, a2, a3⟩)⟩

theorem checkDiagDown_some {b : Board} {m : String} (h : checkDiagDown b = some m) :
    m ≠ "" ∧ LineOfFour b m := by
  obtain ⟨r, _, hr, h1⟩ := scan_some h
  obtain ⟨c, _, hc, h2⟩ := scan_some h1
  obtain ⟨hm, a0, a1, a2, a3⟩ := four_some h2
  simp only [ROWS, COLS] at hr hc
  exact ⟨hm, r, by unfold ROWS; omega, c, by unfold COLS; omega,
    Or.inr (Or.inr (Or.inl ⟨by unfold ROWS; omega, by unfold COLS; omega, a0, a1, a2, a3⟩))⟩

theorem checkDiagUp_some {b : Board} {m : String} (h : checkDiagUp b = some m) :
    m ≠ "" ∧ LineOfFour b m := by
  obtain ⟨r, hr0, hr, h1⟩ := scan_some h
  obtain ⟨c, _, hc, h2⟩ := scan_some h1
  obtain ⟨hm, a0, a1, a2, a3⟩ := four_some h2
  simp only [ROWS, COLS] at hr hc
  obtain ⟨k, rfl⟩ : ∃ k, r = k + 3 := ⟨r - 3, by omega⟩
  have e1 : k + 3 - 1 = k + 2 := by omega
  have e2 : k + 3 - 2 = k + 1 := by omega
  have e3 : k + 3 - 3 = k := by omega
  rw [e1] at a1; rw [e2] at a2; rw [e3] at a3
  exact ⟨hm, k, by unfold ROWS; omega, c, by unfold COLS; omega,
    Or.inr (Or.inr (Or.inr ⟨by unfold ROWS; omega, by unfold COLS; omega, a0, a1, a2, a3⟩))⟩

theorem checkWinner_some {b : Board} {m : String} (h : checkWinner b = some m) :
    m ≠ "" ∧ LineOfFour b m := by
  unfold checkWinner at h
  cases hH : checkHorizontal b with
  | some v => rw [hH] at h; simp only [Option.orElse] at h; exact checkHorizontal_some (hH.trans h)
  | none =>
    rw [hH] at h; simp only [Option.orElse] at h
    cases hV : checkVertical b with
    | some v => rw [hV] at h; simp only [Option.orElse] at h; exact checkVertical_some (hV.trans h)
    | none =>
      rw [hV] at h; simp only [Option.orElse] at h
      cases hU : checkDiagUp b with
      | some v => rw [hU] at h; simp only [Option.orElse] at h; exact checkDiagUp_some (hU.trans h)
      | none =>
        rw [hU] at h; simp only [Option.orElse] at h
        exact checkDiagDown_some h

theorem checkWinner_none {b : Board} (h : checkWinner b = none) :
    checkHorizontal b = none ∧ checkVertical b = none ∧ checkDiagUp b = none ∧
      checkDiagDown b = none := by
  unfold checkWinner at h
  cases hH : checkHorizontal b <;> cases hV : checkVertical b <;>
    cases hU : checkDiagUp b <;> cases hD : checkDiagDown b <;>
    simp_all [Option.orElse]

theorem checkWinner_complete {b : Board} {m : String} (hm : m ≠ "") (h : LineOfFour b m) :
    checkWinner b ≠ none := by
  intro hn
  obtain ⟨hH, hV, hU, hD⟩ := checkWinner_none hn
  obtain ⟨r, hr, c, hc, hl⟩ := h
  simp only [ROWS, COLS] at hr hc hl
  rcases hl with ⟨hb, a0, a1, a2, a3⟩ | ⟨hb, a0, a1, a2, a3⟩ | ⟨hb, hb', a0, a1, a2, a3⟩ |
      ⟨hb, hb', a0, a1, a2, a3⟩
  · have h1 := scan_none.1 hH r (by omega) (by unfold ROWS; omega)
    have h2 := scan_none.1 h1 c (by omega) (by unfold COLS; omega)
    rw [four_of_cells hm a0 a1 a2 a3] at h2
    exact absurd h2 (by simp)
  · have h1 := scan_none.1 hV c (by omega) (by unfold COLS; omega)
    have h2 := scan_none.1 h1 r (by omega) (by unfold ROWS; omega)
    rw [four_of_cells hm a0 a1 a2 a3] at h2
    exact absurd h2 (by simp)
  · have h1 := scan_none.1 hD r (by omega) (by unfold ROWS; omega)
    have h2 := scan_none.1 h1 c (by omega) (by unfold COLS; omega)
    rw [four_of_cells hm a0 a1 a2 a3] at h2
    exact absurd h2 (by simp)
  · have h1 := scan_none.1 hU (r + 3) (by omega) (by unfold ROWS; omega)
    have h2 := scan_none.1 h1 c (by omega) (by unfold COLS; omega)
    have e1 : r + 3 - 1 = r + 2 := by omega
    have e2 : r + 3 - 2 = r + 1 := by omega
    have e3 : r + 3 - 3 = r := by omega
    rw [e1, e2, e3, four_of_cells hm a0 a1 a2 a3] at h2
    exact absurd h2 (by simp)

/-- C1: on every 6x7 board `checkWinner` returns a marker if and only if four
adjacent cells in a line along a row, a column or either diagonal all hold the same
non-empty marker (a cell value that is neither `null` nor the empty string, which is
what the truthiness test of the scan accepts); the value returned is the marker of
such a line, and in every other case the result is `null`. -/
theorem checkWinner_iff_line_of_four (b : Board) (hb : WF b) :
    ((∃ m, checkWinner b = some m) ↔ ∃ m, m ≠ "" ∧ LineOfFour b m) ∧
    (∀ m, checkWinner b = some m → m ≠ "" ∧ LineOfFour b m) ∧
    ((¬ ∃ m, m ≠ "" ∧ LineOfFour b m) → checkWinner b = none) := by
  have _ := hb
  refine ⟨⟨?_, ?_⟩, fun m h => checkWinner_some h, ?_⟩
  · rintro ⟨m, h⟩
    exact ⟨m, checkWinner_some h⟩
  · rintro ⟨m, hm, hl⟩
    cases h : checkWinner b with
    | some v => exact ⟨v, rfl⟩
    | none => exact absurd h (checkWinner_complete hm hl)
  · intro hno
    cases h : checkWinner b with
    | some v => exact absurd ⟨v, checkWinner_some h⟩ hno
    | none => rfl

/-- Witness for C1: alice drops four discs into columns 0, 1, 2, 3 of the empty board. -/
theorem checkWinner_iff_line_of_four_witness :
    WF (makeMove (makeMove (makeMove (makeMove createEmptyBoard 0 "alice").1 1 "alice").1
      2 "alice").1 3 "alice").1 ∧
    checkWinner (makeMove (makeMove (makeMove (makeMove createEmptyBoard 0 "alice").1 1
      "alice").1 2 "alice").1 3 "alice").1 = some "alice" ∧
    LineOfFour (makeMove (makeMove (makeMove (makeMove createEmptyBoard 0 "alice").1 1
      "alice").1 2 "alice").1 3 "alice").1 "alice" :=
  ⟨by decide, by decide,
    ((checkWinner_iff_line_of_four _ (by decide)).2.1 "alice" (by decide)).2⟩

/-! ## `makeMove` -/

theorem cell_setCell {b : Board} (h : WF b) {r c : Nat} (hr : r < ROWS) (hc : c < COLS)
    (v : Cell) (r' c' : Nat) :
    cell (setCell b r c v) r' c' = if r' = r ∧ c' = c then v else cell b r' c' := by
  by_cases e : r' = r ∧ c' = c
  · obtain ⟨e1, e2⟩ := e
    subst e1; subst e2
    simp [cell_setCell_self h hr hc]
  · rw [if_neg e]
    exact cell_setCell_of_ne b r c r' c' v (by omega)

theorem makeMove_valid (b : Board) (col : Int) (marker : String)
    (hb : WF b) (hv : isValidMove b col = true) :
    ∃ r, r < ROWS ∧ cell b r col.toNat = none ∧
      (∀ r', r < r' → r' < ROWS → cell b r' col.toNat ≠ none) ∧
      (makeMove b col.toNat marker).2 = some ⟨r, col.toNat⟩ ∧
      cell (makeMove b col.toNat marker).1 r col.toNat = some marker ∧
      (∀ r' c', (r' ≠ r ∨ c' ≠ col.toNat) →
        cell (makeMove b col.toNat marker).1 r' c' = cell b r' c') ∧
      WF (makeMove b col.toNat marker).1 := by
  obtain ⟨h0, h7, htop⟩ := (isValidMove_iff b col).1 hv
  have hc : col.toNat < COLS := by unfold COLS; omega
  obtain ⟨r, hr, hnone, hbelow⟩ :=
    exists_lowest_empty b col.toNat ROWS ⟨0, by decide, htop⟩
  have he := makeMove_eq b col.toNat marker r hr hnone hbelow
  refine ⟨r, hr, hnone, hbelow, ?_, ?_, ?_, ?_⟩
  · rw [he]
  · rw [he]; exact cell_setCell_self hb hr hc _
  · intro r' c' hne; rw [he]; exact cell_setCell_of_ne b r col.toNat r' c' _ hne
  · rw [he]; exact WF_setCell hb _ _ _

theorem stack_four (b : Board) (marker other : String) (hb : WF b)
    (hempty : ∀ r, r < ROWS → cell b r 3 = none) :
    let m1 := makeMove b 3 marker
    let m2 := makeMove m1.1 3 other
    let m3 := makeMove m2.1 3 marker
    let m4 := makeMove m3.1 3 other
    m1.2 = some ⟨5, 3⟩ ∧ m2.2 = some ⟨4, 3⟩ ∧ m3.2 = some ⟨3, 3⟩ ∧ m4.2 = some ⟨2, 3⟩ ∧
    cell m4.1 5 3 = some marker ∧ cell m4.1 4 3 = some other ∧
    cell m4.1 3 3 = some marker ∧ cell m4.1 2 3 = some other ∧
    cell m4.1 1 3 = none ∧ cell m4.1 0 3 = none := by
  have key : ∀ (b' : Board) (k : Nat) (m : String), k < ROWS →
      (∀ r, r ≤ k → cell b' r 3 = none) → (∀ r, k < r → r < ROWS → cell b' r 3 ≠ none) →
      makeMove b' 3 m = (setCell b' k 3 (some m), some ⟨k, 3⟩) :=
    fun b' k m hk he hf => makeMove_eq b' 3 m k hk (he k (le_refl k)) hf
  have e1 : makeMove b 3 marker = (setCell b 5 3 (some marker), some ⟨5, 3⟩) :=
    makeMove_eq b 3 marker 5 (by decide) (hempty 5 (by decide))
      (fun r' h1 h2 => by unfold ROWS at h2; omega)
  have w1 := WF_setCell hb 5 3 (some marker)
  have w2 := WF_setCell w1 4 3 (some other)
  have w3 := WF_setCell w2 3 3 (some marker)
  have hR : ∀ k, k < 6 → k < ROWS := fun k h => h
  have hC : (3 : Nat) < COLS := by decide
  have hE : ∀ r, r < 6 → cell b r 3 = none := hempty
  have e2 : makeMove (setCell b 5 3 (some marker)) 3 other =
      (setCell (setCell b 5 3 (some marker)) 4 3 (some other), some ⟨4, 3⟩) := by
    apply key _ 4 other (by decide)
    · intro r hr
      rw [cell_setCell hb (hR 5 (by omega)) hC, if_neg (by omega)]
      exact hE r (by omega)
    · intro r h1 h2
      have : r = 5 := by unfold ROWS at h2; omega
      subst this
      simp [cell_setCell hb (hR 5 (by omega)) hC]
  have e3 : makeMove (setCell (setCell b 5 3 (some marker)) 4 3 (some other)) 3 marker =
      (setCell (setCell (setCell b 5 3 (some marker)) 4 3 (some other)) 3 3 (some marker),
        some ⟨3, 3⟩) := by
    apply key _ 3 marker (by decide)
    · intro r hr
      rw [cell_setCell w1 (hR 4 (by omega)) hC, if_neg (by omega),
        cell_setCell hb (hR 5 (by omega)) hC, if_neg (by omega)]
      exact hE r (by omega)
    · intro r h1 h2
      have : r = 4 ∨ r = 5 := by unfold ROWS at h2; omega
      rcases this with e | e <;> subst e <;>
        simp [cell_setCell w1 (hR 4 (by omega)) hC, cell_setCell hb (hR 5 (by omega)) hC]
  have e4 : makeMove (setCell (setCell (setCell b 5 3 (some marker)) 4 3 (some other)) 3 3
        (some marker)) 3 other =
      (setCell (setCell (setCell (setCell b 5 3 (some marker)) 4 3 (some other)) 3 3
        (some marker)) 2 3 (some other), some ⟨2, 3⟩) := by
    apply key _ 2 other (by decide)
    · intro r hr
      rw [cell_setCell w2 (hR 3 (by omega)) hC, if_neg (by omega),
        cell_setCell w1 (hR 4 (by omega)) hC, if_neg (by omega),
        cell_setCell hb (hR 5 (by omega)) hC, if_neg (by omega)]
      exact hE r (by omega)
    · intro r h1 h2
      have : r = 3 ∨ r = 4 ∨ r = 5 := by unfold ROWS at h2; omega
      rcases this with e | e | e <;> subst e <;>
        simp [cell_setCell w2 (hR 3 (by omega)) hC, cell_setCell w1 (hR 4 (by omega)) hC,
          cell_setCell hb (hR 5 (by omega)) hC]
  simp only [e1, e2, e3, e4]
  simp [cell_setCell w3 (hR 2 (by omega)) hC, cell_setCell w2 (hR 3 (by omega)) hC,
    cell_setCell w1 (hR 4 (by omega)) hC, cell_setCell hb (hR 5 (by omega)) hC,
    hE 1 (by omega), hE 0 (by omega)]

/-- C2: on a 6x7 board and a column accepted by `isValidMove`, `makeMove` lands in
the largest row index `r` whose cell in that column is `null`, returns exactly
`{row: r, col}`, writes the marker there and leaves every other cell (and the
shape) unchanged; four alternating moves into an empty column 3 land on rows
5, 4, 3, 2 in move order. -/
theorem makeMove_lands_in_lowest_empty (b : Board) (col : Int) (marker : String)
    (hb : WF b) (hv : isValidMove b col = true) :
    (∃ r, r < ROWS ∧ cell b r col.toNat = none ∧
      (∀ r', r < r' → r' < ROWS → cell b r' col.toNat ≠ none) ∧
      (makeMove b col.toNat marker).2 = some ⟨r, col.toNat⟩ ∧
      cell (makeMove b col.toNat marker).1 r col.toNat = some marker ∧
      (∀ r' c', (r' ≠ r ∨ c' ≠ col.toNat) →
        cell (makeMove b col.toNat marker).1 r' c' = cell b r' c') ∧
      WF (makeMove b col.toNat marker).1) ∧
    (col = 3 → (∀ r, r < ROWS → cell b r 3 = none) → ∀ other : String,
      let m1 := makeMove b 3 marker
      let m2 := makeMove m1.1 3 other
      let m3 := makeMove m2.1 3 marker
      let m4 := makeMove m3.1 3 other
      m1.2 = some ⟨5, 3⟩ ∧ m2.2 = some ⟨4, 3⟩ ∧ m3.2 = some ⟨3, 3⟩ ∧ m4.2 = some ⟨2, 3⟩ ∧
      cell m4.1 5 3 = some marker ∧ cell m4.1 4 3 = some other ∧
      cell m4.1 3 3 = some marker ∧ cell m4.1 2 3 = some other ∧
      cell m4.1 1 3 = none ∧ cell m4.1 0 3 = none) :=
  ⟨makeMove_valid b col marker hb hv, fun _ hempty other => stack_four b marker other hb hempty⟩

/-- Witness for C2: alice and bob stacking four discs in column 3 of the empty board. -/
theorem makeMove_lands_in_lowest_empty_witness :
    WF createEmptyBoard ∧ isValidMove createEmptyBoard 3 = true ∧
    (let m1 := makeMove createEmptyBoard 3 "alice"
     let m2 := makeMove m1.1 3 "bob"
     let m3 := makeMove m2.1 3 "alice"
     let m4 := makeMove m3.1 3 "bob"
     m1.2 = some ⟨5, 3⟩ ∧ m2.2 = some ⟨4, 3⟩ ∧ m3.2 = some ⟨3, 3⟩ ∧ m4.2 = some ⟨2, 3⟩ ∧
     cell m4.1 5 3 = some "alice" ∧ cell m4.1 4 3 = some "bob" ∧
     cell m4.1 3 3 = some "alice" ∧ cell m4.1 2 3 = some "bob" ∧
     cell m4.1 1 3 = none ∧ cell m4.1 0 3 = none) :=
  ⟨by decide, by decide,
    (makeMove_lands_in_lowest_empty createEmptyBoard 3 "alice" (by decide) (by decide)).2
      rfl (by decide) "bob"⟩

/-! ## `getBotMove` -/

theorem winningColFrom_eq_find (b : Board) (p : String) (n : Nat) (hn : n ≤ COLS) :
    winningColFrom b p n = (List.range' (COLS - n) n).find? (winsAt b p) := by
  induction n with
  | zero => simp [winningColFrom]
  | succ k ih =>
    have e : COLS - (k + 1) + 1 = COLS - k := by omega
    rw [winningColFrom, List.range'_succ, List.find?_cons, e, ← ih (by omega)]
    simp only [winsAt]
    cases hc : (isValidMove b ↑(COLS - (k + 1)) &&
      (checkWinner (makeMove b (COLS - (k + 1)) p).1 == some p)) <;> simp

theorem firstStrategic_eq_find (b : Board) (l : List Nat) :
    firstStrategic b l = l.find? fun c => isValidMove b (c : Nat) := by
  induction l with
  | nil => rfl
  | cons c rest ih =>
    rw [firstStrategic, List.find?_cons, ih]
    cases hc : isValidMove b (c : Nat) <;> simp

theorem getBotMove_eq_ref (b : Board) (botMarker humanMarker : String) :
    getBotMove b botMarker humanMarker = chooseColumnRef b botMarker humanMarker := by
  unfold getBotMove chooseColumnRef
  rw [winningColFrom_eq_find b botMarker COLS (le_refl _),
    winningColFrom_eq_find b humanMarker COLS (le_refl _), firstStrategic_eq_find]
  have e : List.range' (COLS - COLS) COLS = List.range 7 := by decide
  rw [e]
  cases List.find? (winsAt b botMarker) (List.range 7) with
  | some c => rfl
  | none =>
    cases List.find? (winsAt b humanMarker) (List.range 7) with
    | some c => rfl
    | none =>
      simp only [strategicCols]
      split
      · rfl
      · cases List.find? (fun c => isValidMove b (c : Nat)) [3, 2, 4, 1, 5, 0, 6] <;> rfl

theorem find_range_lowest (p : Nat → Bool) (c : Nat) (hc : c < 7) (hp : p c = true)
    (hlow : ∀ j, j < c → p j = false) : (List.range 7).find? p = some c := by
  rw [List.find?_range_eq_some]
  refine ⟨hp, List.mem_range.2 hc, fun j hj => ?_⟩
  simp [hlow j hj]

theorem find_range_none (p : Nat → Bool) (h : ∀ j, j < 7 → p j = false) :
    (List.range 7).find? p = none := by
  rw [List.find?_range_eq_none]
  intro i hi
  simp [h i hi]

theorem getBotMove_win (b : Board) (botMarker humanMarker : String) (c : Nat) (hc : c < 7)
    (hw : winsAt b botMarker c = true) (hlow : ∀ j, j < c → winsAt b botMarker j = false) :
    getBotMove b botMarker humanMarker = c := by
  rw [getBotMove_eq_ref, chooseColumnRef, find_range_lowest _ c hc hw hlow]

theorem getBotMove_block (b : Board) (botMarker humanMarker : String)
    (hbot : ∀ j, j < 7 → winsAt b botMarker j = false) (c : Nat) (hc : c < 7)
    (hw : winsAt b humanMarker c = true) (hlow : ∀ j, j < c → winsAt b humanMarker j = false) :
    getBotMove b botMarker humanMarker = c := by
  rw [getBotMove_eq_ref, chooseColumnRef, find_range_none _ hbot,
    find_range_lowest _ c hc hw hlow]

theorem getBotMove_fallback (b : Board) (botMarker humanMarker : String)
    (hbot : ∀ j, j < 7 → winsAt b botMarker j = false)
    (hhum : ∀ j, j < 7 → winsAt b humanMarker j = false) :
    (isValidMove b 3 = true → getBotMove b botMarker humanMarker = 3) ∧
    (∀ (pre post : List Nat) (c : Nat), [3, 2, 4, 1, 5, 0, 6] = pre ++ c :: post →
      isValidMove b (c : Nat) = true → (∀ x, x ∈ pre → isValidMove b (x : Nat) = false) →
      getBotMove b botMarker humanMarker = c) ∧
    ((∀ c : Nat, c < 7 → isValidMove b (c : Nat) = false) →
      getBotMove b botMarker humanMarker = 0) := by
  have hred : getBotMove b botMarker humanMarker =
      if isValidMove b 3 then 3
      else ([3, 2, 4, 1, 5, 0, 6].find? fun c => isValidMove b (c : Nat)).getD 0 := by
    rw [getBotMove_eq_ref, chooseColumnRef, find_range_none _ hbot, find_range_none _ hhum]
  refine ⟨fun h3 => ?_, ?_, ?_⟩
  · rw [hred, if_pos h3]
  · intro pre post c hsplit hv hpre
    have hfind : ([3, 2, 4, 1, 5, 0, 6].find? fun c => isValidMove b (c : Nat)) = some c := by
      rw [List.find?_eq_some]
      exact ⟨hv, pre, post, hsplit, fun a ha => by simp [hpre a ha]⟩
    rw [hred, hfind]
    by_cases h3 : isValidMove b 3 = true
    · rw [if_pos h3]
      cases pre with
      | nil =>
        simp only [List.nil_append, List.cons.injEq] at hsplit
        exact hsplit.1
      | cons x xs =>
        simp only [List.cons_append, List.cons.injEq] at hsplit
        have := hpre x (List.mem_cons_self _ _)
        rw [← hsplit.1] at this
        simp [h3] at this
    · rw [if_neg h3]; rfl
  · intro hnone
    have h3 : ¬ (isValidMove b 3 = true) := by
      have := hnone 3 (by decide)
      simpa using this
    have hfind : ([3, 2, 4, 1, 5, 0, 6].find? fun c => isValidMove b (c : Nat)) = none := by
      rw [List.find?_eq_none]
      intro x hx
      have hx7 : x < 7 := by
        have hx' : x = 3 ∨ x = 2 ∨ x = 4 ∨ x = 1 ∨ x = 5 ∨ x = 0 ∨ x = 6 := by
          simpa using hx
        clear hx hred
        omega
      simp [hnone x hx7]
    rw [hred, if_neg h3, hfind]; rfl

/-- C3: `getBotMove` equals the reference function defined by the strict priority
list, for every board and both marker arguments; spelled out: (1) the lowest-indexed
legal column that wins for the bot, (2) otherwise the lowest-indexed legal column that
would win for the human, (3) otherwise column 3 if legal, (4) otherwise the first legal
column in the order `[3,2,4,1,5,0,6]`, (5) otherwise 0. -/
theorem getBotMove_eq_reference (b : Board) (botMarker humanMarker : String) :
    getBotMove b botMarker humanMarker = chooseColumnRef b botMarker humanMarker ∧
    (∀ c, c < 7 → winsAt b botMarker c = true → (∀ j, j < c → winsAt b botMarker j = false) →
      getBotMove b botMarker humanMarker = c) ∧
    ((∀ j, j < 7 → winsAt b botMarker j = false) →
      ∀ c, c < 7 → winsAt b humanMarker c = true →
        (∀ j, j < c → winsAt b humanMarker j = false) →
        getBotMove b botMarker humanMarker = c) ∧
    ((∀ j, j < 7 → winsAt b botMarker j = false) →
      (∀ j, j < 7 → winsAt b humanMarker j = false) →
      (isValidMove b 3 = true → getBotMove b botMarker humanMarker = 3) ∧
      (∀ (pre post : List Nat) (c : Nat), [3, 2, 4, 1, 5, 0, 6] = pre ++ c :: post →
        isValidMove b (c : Nat) = true → (∀ x, x ∈ pre → isValidMove b (x : Nat) = false) →
        getBotMove b botMarker humanMarker = c) ∧
      ((∀ c : Nat, c < 7 → isValidMove b (c : Nat) = false) →
        getBotMove b botMarker humanMarker = 0)) :=
  ⟨getBotMove_eq_ref b botMarker humanMarker, getBotMove_win b botMarker humanMarker,
    getBotMove_block b botMarker humanMarker, getBotMove_fallback b botMarker humanMarker⟩

/-- Witness for C3: on the empty board nobody can win at once and the centre column
is taken. -/
theorem getBotMove_eq_reference_witness :
    getBotMove createEmptyBoard "Bot" "alice" = chooseColumnRef createEmptyBoard "Bot" "alice" ∧
    getBotMove createEmptyBoard "Bot" "alice" = 3 :=
  ⟨(getBotMove_eq_reference createEmptyBoard "Bot" "alice").1,
    ((getBotMove_eq_reference createEmptyBoard "Bot" "alice").2.2.2
      (by decide) (by decide)).1 (by decide)⟩

/-! ## Legal columns and `isBoardFull` -/

theorem cell_zero_eq (b : Board) (c : Nat) : cell b 0 c = (b.getD 0 []).getD c none := rfl

theorem isBoardFull_iff {b : Board} (hb : WF b) :
    isBoardFull b = true ↔ ∀ c, c < COLS → cell b 0 c ≠ none := by
  have hlen := rowLen_of_WF hb (show 0 < ROWS by decide)
  unfold isBoardFull
  simp only [cell_zero_eq]
  generalize b.getD 0 [] = row at hlen
  rw [List.all_eq_true]
  constructor
  · intro h c hc
    have hc' : c < row.length := by rw [hlen]; exact hc
    have := h row[c] (List.getElem_mem _)
    simpa [List.getD_eq_getElem?_getD, hc'] using this
  · intro h x hx
    obtain ⟨c, hc, rfl⟩ := List.mem_iff_getElem.1 hx
    have := h c (by rw [← hlen]; exact hc)
    simpa [List.getD_eq_getElem?_getD, hc] using this

theorem not_full_iff_legal {b : Board} (hb : WF b) :
    isBoardFull b = false ↔ ∃ c : Int, isValidMove b c = true := by
  rw [← Bool.not_eq_true, isBoardFull_iff hb]
  constructor
  · intro h
    push_neg at h
    obtain ⟨c, hc, hn⟩ := h
    refine ⟨(c : Int), (isValidMove_iff b c).2 ⟨by omega, ?_, by simpa using hn⟩⟩
    unfold COLS at hc; omega
  · rintro ⟨c, hc⟩ h
    obtain ⟨h0, h7, hn⟩ := (isValidMove_iff b c).1 hc
    exact h c.toNat (by unfold COLS; omega) hn

theorem winsAt_valid {b : Board} {p : String} {c : Nat} (h : winsAt b p c = true) :
    isValidMove b (c : Int) = true := by
  unfold winsAt at h
  simp only [Bool.and_eq_true] at h
  exact h.1

theorem chooseColumnRef_valid (b : Board) (bot human : String)
    (h : ∃ c : Int, isValidMove b c = true) :
    isValidMove b (chooseColumnRef b bot human : Nat) = true := by
  unfold chooseColumnRef
  cases h1 : (List.range 7).find? (winsAt b bot) with
  | some c => exact winsAt_valid (List.find?_some h1)
  | none =>
    cases h2 : (List.range 7).find? (winsAt b human) with
    | some c => exact winsAt_valid (List.find?_some h2)
    | none =>
      by_cases h3 : isValidMove b 3 = true
      · rw [if_pos h3]; exact h3
      · rw [if_neg h3]
        cases h4 : ([3, 2, 4, 1, 5, 0, 6].find? fun c => isValidMove b (c : Nat)) with
        | some c =>
          have := List.find?_some h4
          simpa using this
        | none =>
          exfalso
          obtain ⟨c, hc⟩ := h
          obtain ⟨h0, h7, hn⟩ := (isValidMove_iff b c).1 hc
          rw [List.find?_eq_none] at h4
          have hmem : c.toNat ∈ [3, 2, 4, 1, 5, 0, 6] := by
            have : c.toNat = 3 ∨ c.toNat = 2 ∨ c.toNat = 4 ∨ c.toNat = 1 ∨ c.toNat = 5 ∨
                c.toNat = 0 ∨ c.toNat = 6 := by omega
            simpa using this
          apply h4 _ hmem
          have e : ((c.toNat : Nat) : Int) = c := Int.toNat_of_nonneg h0
          rw [e]; exact hc

/-- The column chosen by `getBotMove` on a 6x7 board: legal whenever a legal column
exists, an illegal result is the fallback 0 on a full board, and `makeMove` on it
places the piece. -/
theorem getBotMove_legal_board (b : Board) (botPlayer humanPlayer : String) (hb : WF b) :
    (isBoardFull b = false → isValidMove b (getBotMove b botPlayer humanPlayer : Nat) = true) ∧
    (isValidMove b (getBotMove b botPlayer humanPlayer : Nat) = false →
      getBotMove b botPlayer humanPlayer = 0 ∧ isBoardFull b = true ∧
      ∀ c : Int, isValidMove b c = false) ∧
    (isBoardFull b = false → ∃ r, r < ROWS ∧
      cell b r (getBotMove b botPlayer humanPlayer) = none ∧
      makeMove b (getBotMove b botPlayer humanPlayer) botPlayer =
        (setCell b r (getBotMove b botPlayer humanPlayer) (some botPlayer),
          some ⟨r, getBotMove b botPlayer humanPlayer⟩) ∧
      cell (makeMove b (getBotMove b botPlayer humanPlayer) botPlayer).1 r
        (getBotMove b botPlayer humanPlayer) = some botPlayer) := by
  have hlegal : isBoardFull b = false →
      isValidMove b (getBotMove b botPlayer humanPlayer : Nat) = true := by
    intro hf
    rw [getBotMove_eq_ref]
    exact chooseColumnRef_valid b botPlayer humanPlayer ((not_full_iff_legal hb).1 hf)
  refine ⟨hlegal, ?_, ?_⟩
  · intro hbad
    have hfull : isBoardFull b = true := by
      cases hf : isBoardFull b with
      | true => rfl
      | false => rw [hlegal hf] at hbad; exact absurd hbad (by simp)
    have hnone : ∀ c : Int, isValidMove b c = false := by
      intro c
      cases hc : isValidMove b c with
      | false => rfl
      | true =>
        have := (not_full_iff_legal hb).2 ⟨c, hc⟩
        rw [hfull] at this; exact absurd this (by simp)
    refine ⟨?_, hfull, hnone⟩
    have hw : ∀ p j, winsAt b p j = false := by
      intro p j
      unfold winsAt
      rw [hnone]; rfl
    exact (getBotMove_fallback b botPlayer humanPlayer
      (fun j _ => hw _ j) (fun j _ => hw _ j)).2.2 (fun c _ => hnone c)
  · intro hf
    have hv := hlegal hf
    obtain ⟨r, hr, hnone, hbelow, _, hcell, _, _⟩ :=
      makeMove_valid b (getBotMove b botPlayer humanPlayer : Nat) botPlayer hb hv
    simp only [Int.toNat_ofNat] at hnone hbelow hcell
    exact ⟨r, hr, hnone, makeMove_eq b _ botPlayer r hr hnone hbelow, hcell⟩


/-! ## Gravity and the number of occupied cells -/

theorem filled_le (b : Board) : filled b ≤ 42 := by
  unfold filled occupied
  exact (Finset.card_filter_le _ _).trans (by simp)

theorem filled_empty : filled createEmptyBoard = 0 := by
  unfold filled occupied
  rw [Finset.card_eq_zero, Finset.filter_eq_empty_iff]
  intro p _
  revert p
  decide

theorem gravity_empty : Gravity createEmptyBoard := by
  intro r c hr hc h
  exfalso
  apply h
  unfold ROWS at hr
  unfold COLS at hc
  have hr' : r = 0 ∨ r = 1 ∨ r = 2 ∨ r = 3 ∨ r = 4 := by omega
  have hc' : c = 0 ∨ c = 1 ∨ c = 2 ∨ c = 3 ∨ c = 4 ∨ c = 5 ∨ c = 6 := by omega
  rcases hr' with e | e | e | e | e <;> subst e <;>
    rcases hc' with e | e | e | e | e | e | e <;> subst e <;> rfl

theorem filled_setCell {b : Board} (hb : WF b) {r c : Nat} (hr : r < ROWS) (hc : c < COLS)
    (m : String) (hnone : cell b r c = none) :
    filled (setCell b r c (some m)) = filled b + 1 := by
  unfold filled
  have hins : occupied (setCell b r c (some m)) = insert (⟨r, hr⟩, ⟨c, hc⟩) (occupied b) := by
    ext p
    simp only [occupied, Finset.mem_filter, Finset.mem_univ, true_and, Finset.mem_insert]
    rw [cell_setCell hb hr hc]
    constructor
    · intro h
      by_cases e : (p.1 : Nat) = r ∧ (p.2 : Nat) = c
      · left
        exact Prod.ext (Fin.ext e.1) (Fin.ext e.2)
      · right
        rwa [if_neg e] at h
    · rintro (h | h)
      · subst h
        simp
      · by_cases e : (p.1 : Nat) = r ∧ (p.2 : Nat) = c
        · rw [if_pos e]; simp
        · rwa [if_neg e]
  have hnot : (⟨r, hr⟩, ⟨c, hc⟩) ∉ occupied b := by
    simp [occupied, hnone]
  rw [hins, Finset.card_insert_of_not_mem hnot]

theorem gravity_setCell {b : Board} (hb : WF b) (hg : Gravity b) {r c : Nat} (hr : r < ROWS)
    (hc : c < COLS) (m : String)
    (hbelow : ∀ r', r < r' → r' < ROWS → cell b r' c ≠ none) :
    Gravity (setCell b r c (some m)) := by
  intro r0 c0 hr0 hc0 h
  rw [cell_setCell hb hr hc] at h ⊢
  by_cases e1 : r0 + 1 = r ∧ c0 = c
  · rw [if_pos e1]; simp
  · rw [if_neg e1]
    by_cases e0 : r0 = r ∧ c0 = c
    · obtain ⟨rfl, rfl⟩ := e0
      exact hbelow (r0 + 1) (by omega) hr0
    · rw [if_neg e0] at h
      exact hg r0 c0 hr0 hc0 h

theorem gravity_column {b : Board} (hg : Gravity b) {c : Nat} (hc : c < COLS)
    (htop : cell b 0 c ≠ none) : ∀ r, r < ROWS → cell b r c ≠ none := by
  intro r
  induction r with
  | zero => intro _; exact htop
  | succ k ih => intro hk; exact hg k c hk hc (ih (by omega))

theorem full_iff_filled {b : Board} (hb : WF b) (hg : Gravity b) :
    isBoardFull b = true ↔ filled b = 42 := by
  rw [isBoardFull_iff hb]
  unfold filled
  have hcard : (Finset.univ : Finset (Fin 6 × Fin 7)).card = 42 := by simp
  constructor
  · intro h
    have : occupied b = Finset.univ := by
      unfold occupied
      rw [Finset.filter_eq_self]
      intro p _
      exact gravity_column hg p.2.isLt (h _ p.2.isLt) _ p.1.isLt
    rw [this, hcard]
  · intro h c hc
    have huniv : occupied b = Finset.univ := by
      apply Finset.eq_univ_of_card
      rw [h]; simp
    have hmem : ((⟨0, by decide⟩ : Fin 6), (⟨c, hc⟩ : Fin 7)) ∈ occupied b := by
      rw [huniv]; exact Finset.mem_univ _
    simpa [occupied] using hmem

/-- What one legal move does to the shape, the gravity property and the number of
occupied cells. -/
theorem makeMove_invariants {b : Board} (hb : WF b) (hg : Gravity b) (col : Int) (m : String)
    (hv : isValidMove b col = true) :
    WF (makeMove b col.toNat m).1 ∧ Gravity (makeMove b col.toNat m).1 ∧
      filled (makeMove b col.toNat m).1 = filled b + 1 := by
  obtain ⟨h0, h7, htop⟩ := (isValidMove_iff b col).1 hv
  have hc : col.toNat < COLS := by unfold COLS; omega
  obtain ⟨r, hr, hnone, hbelow⟩ :=
    exists_lowest_empty b col.toNat ROWS ⟨0, by decide, htop⟩
  rw [makeMove_eq b col.toNat m r hr hnone hbelow]
  exact ⟨WF_setCell hb _ _ _, gravity_setCell hb hg hr hc m hbelow,
    filled_setCell hb hr hc m hnone⟩

/-! ## The `makeMove` handler -/

theorem handleMakeMove_not_found (s : State) (sid gameId : Nat) (column : Int) (now : Nat)
    (h : s.games gameId = none) :
    handleMakeMove s sid gameId column now =
      (s, [Out.emit (some sid) (Event.error "Game not found")]) := by
  unfold handleMakeMove
  rw [h]

theorem handleMakeMove_not_turn (s : State) (sid gameId : Nat) (column : Int) (now : Nat)
    (game : Game) (h : s.games gameId = some game)
    (ht : (s.sockets sid).username ≠ some game.currentTurn) :
    handleMakeMove s sid gameId column now =
      (s, [Out.emit (some sid) (Event.error "Not your turn")]) := by
  unfold handleMakeMove
  rw [h]
  simp only
  rw [if_pos (fun e => ht e.symm)]

theorem handleMakeMove_invalid (s : State) (sid gameId : Nat) (column : Int) (now : Nat)
    (game : Game) (h : s.games gameId = some game)
    (ht : (s.sockets sid).username = some game.currentTurn)
    (hv : isValidMove game.board column = false) :
    handleMakeMove s sid gameId column now =
      (s, [Out.emit (some sid) (Event.error "Invalid move")]) := by
  unfold handleMakeMove
  rw [h]
  simp only
  rw [if_neg (fun e => e ht.symm)]
  simp [hv]

/-- C5: a `makeMove` request for a match that is not in the registry, or from a
sender that is not `game.currentTurn`, or with a column for which `isValidMove` is
false, is answered with one `error` event to the sender and leaves the whole server
state exactly as it was. -/
theorem makeMove_rejected_state_unchanged (s : State) (sid gameId : Nat) (column : Int)
    (now : Nat)
    (h : s.games gameId = none ∨ ∃ game, s.games gameId = some game ∧
      ((s.sockets sid).username ≠ some game.currentTurn ∨
        isValidMove game.board column = false)) :
    (handleMakeMove s sid gameId column now).1 = s ∧
    ∃ message, (handleMakeMove s sid gameId column now).2 =
      [Out.emit (some sid) (Event.error message)] := by
  rcases h with h | ⟨game, hg, h⟩
  · rw [handleMakeMove_not_found s sid gameId column now h]
    exact ⟨rfl, _, rfl⟩
  · by_cases ht : (s.sockets sid).username = some game.currentTurn
    · rcases h with h | h
      · exact absurd ht h
      · rw [handleMakeMove_invalid s sid gameId column now game hg ht h]
        exact ⟨rfl, _, rfl⟩
    · rw [handleMakeMove_not_turn s sid gameId column now game hg ht]
      exact ⟨rfl, _, rfl⟩

/-- Witness for C5: bob (socket 2) asks for column 3 of match 7 while it is alice's
turn. -/
theorem makeMove_rejected_state_unchanged_witness :
    (aliceVsBob.sockets 2).username ≠ some "alice" ∧
    (handleMakeMove aliceVsBob 2 7 3 9).1 = aliceVsBob ∧
    ∃ message, (handleMakeMove aliceVsBob 2 7 3 9).2 =
      [Out.emit (some 2) (Event.error message)] :=
  ⟨by decide,
    makeMove_rejected_state_unchanged aliceVsBob 2 7 3 9
      (Or.inr ⟨⟨7, [⟨"alice", "red", some 1⟩, ⟨"bob", "yellow", some 2⟩], createEmptyBoard,
        "alice", none, 5, 0, false⟩, by decide, Or.inl (by decide)⟩)⟩

/-! ## Accepted moves -/

theorem handleMakeMove_accepted (s : State) (sid gameId : Nat) (column : Int) (now : Nat)
    (game : Game) (h : s.games gameId = some game)
    (ht : (s.sockets sid).username = some game.currentTurn)
    (hv : isValidMove game.board column = true) :
    handleMakeMove s sid gameId column now = acceptMove s sid gameId column now game := by
  unfold handleMakeMove
  rw [h]
  simp only
  rw [if_neg (fun e => e ht.symm)]
  simp [hv]

theorem makeBotMove_applied (s : State) (gameId now : Nat) (game : Game) (human : Player)
    (h : s.games gameId = some game)
    (hh : game.players.find? (fun p => p.username != "Bot") = some human) :
    makeBotMove s gameId now = some (applyBotMove s gameId now game human) := by
  unfold makeBotMove
  rw [h]
  simp only
  rw [hh]

/-- Registry after an accepted human move that ends the match. -/
theorem acceptMove_ended (s : State) (sid gameId : Nat) (column : Int) (now : Nat) (game : Game)
    (he : (truthy (checkWinner (makeMove game.board column.toNat game.currentTurn).1) ||
      isBoardFull (makeMove game.board column.toNat game.currentTurn).1) = true) :
    acceptMove s sid gameId column now game =
      ((endGame { s with games := Function.update s.games gameId (some
          { game with board := (makeMove game.board column.toNat game.currentTurn).1,
                      moves := game.moves + 1 }) }
          { game with board := (makeMove game.board column.toNat game.currentTurn).1,
                      moves := game.moves + 1 }
          (checkWinner (makeMove game.board column.toNat game.currentTurn).1) none now).1,
        Out.publish "game.move" gameId ::
        (endGame { s with games := Function.update s.games gameId (some
          { game with board := (makeMove game.board column.toNat game.currentTurn).1,
                      moves := game.moves + 1 }) }
          { game with board := (makeMove game.board column.toNat game.currentTurn).1,
                      moves := game.moves + 1 }
          (checkWinner (makeMove game.board column.toNat game.currentTurn).1) none now).2) := by
  unfold acceptMove
  simp only
  rw [if_pos he]

/-- Registry entry after an accepted human move that does not end the match. -/
theorem acceptMove_continues (s : State) (sid gameId : Nat) (column : Int) (now : Nat)
    (game : Game)
    (he : (truthy (checkWinner (makeMove game.board column.toNat game.currentTurn).1) ||
      isBoardFull (makeMove game.board column.toNat game.currentTurn).1) = false) :
    (acceptMove s sid gameId column now game).1.games = Function.update s.games gameId (some
        { game with board := (makeMove game.board column.toNat game.currentTurn).1,
                    moves := game.moves + 1,
                    currentTurn :=
                      match game.players.find? (fun p => p.username != game.currentTurn) with
                      | some p => p.username
                      | none => game.currentTurn }) ∧
    ∀ o ∈ (acceptMove s sid gameId column now game).2,
      ∀ g w d n, o ≠ Out.saveGame g w d n := by
  unfold acceptMove
  simp only
  rw [if_neg (by rw [he]; simp)]
  cases hf : game.players.find? (fun p => p.username != game.currentTurn) with
  | none =>
    simp only
    refine ⟨by first | rfl | trivial, ?_⟩
    intro o ho
    simp only [List.mem_cons, List.mem_singleton, List.not_mem_nil, or_false] at ho
    rcases ho with rfl | rfl <;> intros <;> simp
  | some p =>
    simp only
    split
    · refine ⟨by simp [State.setTimeout], ?_⟩
      intro o ho
      simp only [List.mem_cons, broadcastGameState, notifyPlayers, List.mem_map] at ho
      rcases ho with rfl | ⟨q, _, rfl⟩ <;> intros <;> simp
    · refine ⟨by simp, ?_⟩
      intro o ho
      simp only [List.mem_cons, broadcastGameState, notifyPlayers, List.mem_map] at ho
      rcases ho with rfl | ⟨q, _, rfl⟩ <;> intros <;> simp

/-- Registry after a bot move that ends the match. -/
theorem applyBotMove_ended (s : State) (gameId now : Nat) (game : Game) (human : Player)
    (he : (truthy (checkWinner
        (makeMove game.board (getBotMove game.board "Bot" human.username) "Bot").1) ||
      isBoardFull (makeMove game.board (getBotMove game.board "Bot" human.username) "Bot").1)
        = true) :
    applyBotMove s gameId now game human =
      ((endGame { s with games := Function.update s.games gameId (some
          { game with
            board := (makeMove game.board (getBotMove game.board "Bot" human.username) "Bot").1,
            moves := game.moves + 1 }) }
          { game with
            board := (makeMove game.board (getBotMove game.board "Bot" human.username) "Bot").1,
            moves := game.moves + 1 }
          (checkWinner (makeMove game.board (getBotMove game.board "Bot" human.username)
            "Bot").1) none now).1,
        Out.publish "game.move" game.gameId ::
        (endGame { s with games := Function.update s.games gameId (some
          { game with
            board := (makeMove game.board (getBotMove game.board "Bot" human.username) "Bot").1,
            moves := game.moves + 1 }) }
          { game with
            board := (makeMove game.board (getBotMove game.board "Bot" human.username) "Bot").1,
            moves := game.moves + 1 }
          (checkWinner (makeMove game.board (getBotMove game.board "Bot" human.username)
            "Bot").1) none now).2) := by
  unfold applyBotMove
  simp only
  rw [if_pos he]

/-- Registry entry after a bot move that does not end the match. -/
theorem applyBotMove_continues (s : State) (gameId now : Nat) (game : Game) (human : Player)
    (he : (truthy (checkWinner
        (makeMove game.board (getBotMove game.board "Bot" human.username) "Bot").1) ||
      isBoardFull (makeMove game.board (getBotMove game.board "Bot" human.username) "Bot").1)
        = false) :
    (applyBotMove s gameId now game human).1.games = Function.update s.games gameId (some
        { game with
          board := (makeMove game.board (getBotMove game.board "Bot" human.username) "Bot").1,
          moves := game.moves + 1,
          currentTurn := human.username }) ∧
    ∀ o ∈ (applyBotMove s gameId now game human).2, ∀ g w d n, o ≠ Out.saveGame g w d n := by
  unfold applyBotMove
  simp only
  rw [if_neg (by rw [he]; simp)]
  refine ⟨by simp, ?_⟩
  intro o ho
  simp only [List.mem_cons, broadcastGameState, notifyPlayers, List.mem_map] at ho
  rcases ho with rfl | ⟨q, _, rfl⟩ <;> intros <;> simp

theorem endGame_games (s : State) (g : Game) (winner reason : Option String) (now : Nat) :
    (endGame s g winner reason now).1.games = Function.update s.games g.gameId none := rfl
/-! ## Completion of a match -/

theorem truthy_checkWinner (b : Board) : truthy (checkWinner b) = true ↔ checkWinner b ≠ none := by
  cases h : checkWinner b with
  | none => simp [truthy]
  | some m =>
    have := (checkWinner_some h).1
    simp [truthy, truthyStr, this]

theorem outcomeLabel_checkWinner (b : Board) :
    outcomeLabel (checkWinner b) = (checkWinner b).getD "draw" := by
  cases h : checkWinner b with
  | none => rfl
  | some m =>
    have := (checkWinner_some h).1
    simp [outcomeLabel, truthyStr, this]

theorem ended_iff (b : Board) :
    (truthy (checkWinner b) || isBoardFull b) = true ↔
      (checkWinner b ≠ none ∨ isBoardFull b = true) := by
  rw [Bool.or_eq_true, truthy_checkWinner]

/-- An accepted human move after which there is a winner or a full board: the match
leaves the registry and its outcome is recorded and announced. -/
theorem handleMakeMove_completes (s : State) (sid : Nat) (column : Int) (now : Nat)
    (game : Game) (hg : s.games game.gameId = some game)
    (ht : (s.sockets sid).username = some game.currentTurn)
    (hv : isValidMove game.board column = true)
    (he : checkWinner (makeMove game.board column.toNat game.currentTurn).1 ≠ none ∨
      isBoardFull (makeMove game.board column.toNat game.currentTurn).1 = true) :
    (handleMakeMove s sid game.gameId column now).1.games =
        Function.update s.games game.gameId none ∧
    (handleMakeMove s sid game.gameId column now).2 =
      [Out.publish "game.move" game.gameId,
       Out.saveGame game.gameId
         (checkWinner (makeMove game.board column.toNat game.currentTurn).1)
         (duration now game.startTime) (game.moves + 1),
       Out.publish "game.completed" game.gameId] ++
      notifyPlayers game.players (Event.gameOver
        ((checkWinner (makeMove game.board column.toNat game.currentTurn).1).getD "draw")
        (makeMove game.board column.toNat game.currentTurn).1
        (duration now game.startTime) (game.moves + 1) none) := by
  rw [handleMakeMove_accepted s sid _ column now game hg ht hv,
    acceptMove_ended s sid _ column now game ((ended_iff _).2 he)]
  constructor
  · rw [endGame_games]
    simp
  · simp [endGame, outcomeLabel_checkWinner]

/-- A bot move after which there is a winner or a full board: the match leaves the
registry and its outcome is recorded and announced. -/
theorem makeBotMove_completes (s : State) (now : Nat) (game : Game) (human : Player)
    (hg : s.games game.gameId = some game)
    (hh : game.players.find? (fun p => p.username != "Bot") = some human)
    (he : checkWinner
        (makeMove game.board (getBotMove game.board "Bot" human.username) "Bot").1 ≠ none ∨
      isBoardFull (makeMove game.board (getBotMove game.board "Bot" human.username) "Bot").1
        = true) :
    ∃ r, makeBotMove s game.gameId now = some r ∧
      r.1.games = Function.update s.games game.gameId none ∧
      r.2 =
        [Out.publish "game.move" game.gameId,
         Out.saveGame game.gameId
           (checkWinner (makeMove game.board (getBotMove game.board "Bot" human.username)
             "Bot").1)
           (duration now game.startTime) (game.moves + 1),
         Out.publish "game.completed" game.gameId] ++
        notifyPlayers game.players (Event.gameOver
          ((checkWinner (makeMove game.board (getBotMove game.board "Bot" human.username)
            "Bot").1).getD "draw")
          (makeMove game.board (getBotMove game.board "Bot" human.username) "Bot").1
          (duration now game.startTime) (game.moves + 1) none) := by
  refine ⟨_, makeBotMove_applied s _ now game human hg hh, ?_, ?_⟩
  · rw [applyBotMove_ended s _ now game human ((ended_iff _).2 he), endGame_games]
    simp
  · rw [applyBotMove_ended s _ now game human ((ended_iff _).2 he)]
    simp [endGame, outcomeLabel_checkWinner]

theorem movedBoard_no_game (s : State) (gameId : Nat) (e : MoveEv) (h : s.games gameId = none) :
    movedBoard s gameId e = none := by
  cases e <;> simp [movedBoard, h]

theorem getBotMove_valid_of_filled {b : Board} (hb : WF b) (hg : Gravity b)
    (hk : filled b < 42) (bot human : String) :
    isValidMove b (getBotMove b bot human : Nat) = true := by
  have hnf : isBoardFull b = false := by
    cases h : isBoardFull b with
    | false => rfl
    | true => have := (full_iff_filled hb hg).1 h; omega
  rw [getBotMove_eq_ref]
  exact chooseColumnRef_valid b bot human ((not_full_iff_legal hb).1 hnf)

/-- One accepted move without a four-in-a-row on a match whose board has fewer than
42 discs: the board gains one disc; the match ends, as a draw, exactly if that was
the 42nd disc. -/
theorem stepMove_clean (s : State) (e : MoveEv) (b : Board) (r : State × List Out) (g : Game)
    (hg : s.games g.gameId = some g) (hwf : WF g.board) (hgr : Gravity g.board)
    (hk : filled g.board < 42)
    (hb : movedBoard s g.gameId e = some b) (hr : stepMove s g.gameId e = some r)
    (hno : checkWinner b = none) :
    WF b ∧ Gravity b ∧ filled b = filled g.board + 1 ∧
    (filled b = 42 → r.1.games g.gameId = none ∧
      ∃ d, Out.saveGame g.gameId none d (g.moves + 1) ∈ r.2) ∧
    (filled b ≠ 42 →
      (∃ g', r.1.games g.gameId = some g' ∧ g'.gameId = g.gameId ∧ g'.board = b ∧
        g'.moves = g.moves + 1) ∧
      ∀ o ∈ r.2, ∀ i w d n, o ≠ Out.saveGame i w d n) := by
  cases e with
  | human sid column now =>
    simp only [movedBoard, hg] at hb
    split at hb
    · rename_i hc
      obtain ⟨ht, hv⟩ := hc
      simp only [Option.some.injEq] at hb
      subst hb
      simp only [stepMove, Option.some.injEq] at hr
      subst hr
      obtain ⟨w1, w2, w3⟩ := makeMove_invariants hwf hgr column g.currentTurn hv
      refine ⟨w1, w2, w3, ?_, ?_⟩
      · intro h42
        have hfull := (full_iff_filled w1 w2).2 h42
        obtain ⟨c1, c2⟩ := handleMakeMove_completes s sid column now g hg ht hv (Or.inr hfull)
        rw [c1, c2, hno]
        exact ⟨by simp, duration now g.startTime, by simp⟩
      · intro h42
        have hnf : isBoardFull (makeMove g.board column.toNat g.currentTurn).1 = false := by
          cases h : isBoardFull (makeMove g.board column.toNat g.currentTurn).1 with
          | false => rfl
          | true => exact absurd ((full_iff_filled w1 w2).1 h) h42
        have he : (truthy (checkWinner (makeMove g.board column.toNat g.currentTurn).1) ||
            isBoardFull (makeMove g.board column.toNat g.currentTurn).1) = false := by
          rw [hno, hnf]; rfl
        rw [handleMakeMove_accepted s sid _ column now g hg ht hv]
        obtain ⟨c1, c2⟩ := acceptMove_continues s sid g.gameId column now g he
        have hgame := congrFun c1 g.gameId
        rw [Function.update_same] at hgame
        exact ⟨⟨_, hgame, rfl, rfl, rfl⟩, c2⟩
    · exact absurd hb (by simp)
  | bot now =>
    simp only [movedBoard, hg] at hb
    cases hh : g.players.find? (fun p => p.username != "Bot") with
    | none => rw [hh] at hb; exact absurd hb (by simp)
    | some human =>
      rw [hh] at hb
      simp only [Option.some.injEq] at hb
      subst hb
      simp only [stepMove] at hr
      rw [makeBotMove_applied s _ now g human hg hh, Option.some.injEq] at hr
      have hv := getBotMove_valid_of_filled hwf hgr hk "Bot" human.username
      obtain ⟨w1, w2, w3⟩ :=
        makeMove_invariants hwf hgr (getBotMove g.board "Bot" human.username : Nat) "Bot" hv
      simp only [Int.toNat_ofNat] at w1 w2 w3
      refine ⟨w1, w2, w3, ?_, ?_⟩
      · intro h42
        have hfull := (full_iff_filled w1 w2).2 h42
        obtain ⟨r', e1, c1, c2⟩ := makeBotMove_completes s now g human hg hh (Or.inr hfull)
        rw [makeBotMove_applied s _ now g human hg hh, Option.some.injEq] at e1
        rw [← hr, e1, c1, c2, hno]
        exact ⟨by simp, duration now g.startTime, by simp⟩
      · intro h42
        have hnf : isBoardFull
            (makeMove g.board (getBotMove g.board "Bot" human.username) "Bot").1 = false := by
          cases h : isBoardFull
              (makeMove g.board (getBotMove g.board "Bot" human.username) "Bot").1 with
          | false => rfl
          | true => exact absurd ((full_iff_filled w1 w2).1 h) h42
        have he : (truthy (checkWinner
            (makeMove g.board (getBotMove g.board "Bot" human.username) "Bot").1) ||
            isBoardFull (makeMove g.board (getBotMove g.board "Bot" human.username) "Bot").1)
              = false := by
          rw [hno, hnf]; rfl
        obtain ⟨c1, c2⟩ := applyBotMove_continues s g.gameId now g human he
        rw [← hr]
        have hgame := congrFun c1 g.gameId
        rw [Function.update_same] at hgame
        exact ⟨⟨_, hgame, rfl, rfl, rfl⟩, c2⟩

/-- A run of accepted moves without a four-in-a-row, from a match whose board holds
fewer than 42 discs: the match is removed exactly when the board reaches 42 discs,
and only then is an outcome (a draw) recorded. -/
theorem runClean_spec (evs : List MoveEv) :
    ∀ (s : State) (g : Game) (r : State × List Out),
      s.games g.gameId = some g → WF g.board → Gravity g.board → filled g.board < 42 →
      runClean s g.gameId evs = some r →
      filled g.board + evs.length ≤ 42 ∧
      (r.1.games g.gameId = none ↔ filled g.board + evs.length = 42) ∧
      (filled g.board + evs.length = 42 →
        ∃ d, Out.saveGame g.gameId none d (g.moves + evs.length) ∈ r.2) ∧
      (filled g.board + evs.length < 42 → ∀ o ∈ r.2, ∀ i w d n, o ≠ Out.saveGame i w d n) := by
  induction evs with
  | nil =>
    intro s g r hg _ _ hk hr
    simp only [runClean, Option.some.injEq] at hr
    subst hr
    simp only [List.length_nil, Nat.add_zero]
    refine ⟨by omega, ⟨fun h => ?_, fun h => by omega⟩, fun h => by omega, fun _ o ho => ?_⟩
    · rw [hg] at h; exact absurd h (by simp)
    · exact absurd ho (List.not_mem_nil _)
  | cons e rest ih =>
    intro s g r hg hwf hgr hk hr
    simp only [runClean] at hr
    cases hb : movedBoard s g.gameId e with
    | none => simp [hb] at hr
    | some b =>
      cases hs : stepMove s g.gameId e with
      | none => simp [hb, hs] at hr
      | some r1 =>
        simp only [hb, hs] at hr
        by_cases hno : checkWinner b = none
        · rw [if_pos hno] at hr
          cases hq : runClean r1.1 g.gameId rest with
          | none => simp [hq] at hr
          | some q =>
            simp only [hq, Option.some.injEq] at hr
            subst hr
            obtain ⟨w1, w2, w3, hend, hcont⟩ := stepMove_clean s e b r1 g hg hwf hgr hk hb hs hno
            by_cases h42 : filled b = 42
            · obtain ⟨hnone, d, hd⟩ := hend h42
              have hrest : rest = [] := by
                cases rest with
                | nil => rfl
                | cons e' rest' =>
                  simp only [runClean, movedBoard_no_game r1.1 g.gameId e' hnone] at hq
                  exact absurd hq (by simp)
              subst hrest
              simp only [runClean, Option.some.injEq] at hq
              subst hq
              simp only [List.length_cons, List.length_nil]
              refine ⟨by omega, ⟨fun _ => by omega, fun _ => hnone⟩, fun _ => ⟨d, ?_⟩,
                fun h => by omega⟩
              simpa using hd
            · obtain ⟨⟨g', hg', hid, hbd, hmv⟩, hnosave⟩ := hcont h42
              have hlt : filled g'.board < 42 := by
                rw [hbd]; have := filled_le b; omega
              rw [← hid] at hg' hq
              obtain ⟨i1, i2, i3, i4⟩ := ih r1.1 g' q hg' (hbd ▸ w1) (hbd ▸ w2) hlt hq
              rw [hbd, w3] at i1 i2 i3 i4
              rw [hid] at i2 i3
              simp only [List.length_cons]
              refine ⟨by omega, ⟨fun h => by have := i2.1 h; omega,
                fun h => i2.2 (by omega)⟩, fun h => ?_, fun h o ho => ?_⟩
              · obtain ⟨d, hd⟩ := i3 (by omega)
                refine ⟨d, List.mem_append_right _ ?_⟩
                rw [hmv] at hd
                have e : g.moves + 1 + rest.length = g.moves + (rest.length + 1) := by omega
                rw [← e]; exact hd
              · rcases List.mem_append.1 ho with h1 | h1
                · exact hnosave o h1
                · exact i4 (by omega) o h1
        · rw [if_neg hno] at hr
          exact absurd hr (by simp)

/-- C7: for every accepted move (human or bot) after which `checkWinner` returns a
marker or `isBoardFull` is true, the match completes: it is no longer in the
registry, and the outcome saved and announced is that marker, or a draw when
`checkWinner` returns `null`; and a match started on the empty board in which 42
moves are accepted without a four-in-a-row ever appearing is removed, with a draw
as its outcome, on the 42nd move and not earlier. -/
theorem match_completes_on_win_or_full (s : State) (game : Game)
    (hg : s.games game.gameId = some game) :
    (∀ (sid : Nat) (column : Int) (now : Nat),
      (s.sockets sid).username = some game.currentTurn →
      isValidMove game.board column = true →
      (checkWinner (makeMove game.board column.toNat game.currentTurn).1 ≠ none ∨
        isBoardFull (makeMove game.board column.toNat game.currentTurn).1 = true) →
      (handleMakeMove s sid game.gameId column now).1.games =
          Function.update s.games game.gameId none ∧
      (handleMakeMove s sid game.gameId column now).2 =
        [Out.publish "game.move" game.gameId,
         Out.saveGame game.gameId
           (checkWinner (makeMove game.board column.toNat game.currentTurn).1)
           (duration now game.startTime) (game.moves + 1),
         Out.publish "game.completed" game.gameId] ++
        notifyPlayers game.players (Event.gameOver
          ((checkWinner (makeMove game.board column.toNat game.currentTurn).1).getD "draw")
          (makeMove game.board column.toNat game.currentTurn).1
          (duration now game.startTime) (game.moves + 1) none)) ∧
    (∀ (human : Player) (now : Nat),
      game.players.find? (fun p => p.username != "Bot") = some human →
      (checkWinner
          (makeMove game.board (getBotMove game.board "Bot" human.username) "Bot").1 ≠ none ∨
        isBoardFull (makeMove game.board (getBotMove game.board "Bot" human.username) "Bot").1
          = true) →
      ∃ r, makeBotMove s game.gameId now = some r ∧
        r.1.games = Function.update s.games game.gameId none ∧
        r.2 =
          [Out.publish "game.move" game.gameId,
           Out.saveGame game.gameId
             (checkWinner (makeMove game.board (getBotMove game.board "Bot" human.username)
               "Bot").1)
             (duration now game.startTime) (game.moves + 1),
           Out.publish "game.completed" game.gameId] ++
          notifyPlayers game.players (Event.gameOver
            ((checkWinner (makeMove game.board (getBotMove game.board "Bot" human.username)
              "Bot").1).getD "draw")
            (makeMove game.board (getBotMove game.board "Bot" human.username) "Bot").1
            (duration now game.startTime) (game.moves + 1) none)) ∧
    (game.board = createEmptyBoard → ∀ (evs : List MoveEv) (r : State × List Out),
      runClean s game.gameId evs = some r →
      evs.length ≤ 42 ∧
      (r.1.games game.gameId = none ↔ evs.length = 42) ∧
      (evs.length = 42 → ∃ d, Out.saveGame game.gameId none d (game.moves + 42) ∈ r.2) ∧
      (evs.length < 42 → ∀ o ∈ r.2, ∀ i w d n, o ≠ Out.saveGame i w d n)) := by
  refine ⟨fun sid column now ht hv he => handleMakeMove_completes s sid column now game hg ht hv he,
    fun human now hh he => makeBotMove_completes s now game human hg hh he, ?_⟩
  intro hb evs r hr
  have hwf : WF game.board := by rw [hb]; decide
  have hgr : Gravity game.board := by rw [hb]; exact gravity_empty
  have hf : filled game.board = 0 := by rw [hb]; exact filled_empty
  obtain ⟨h1, h2, h3, h4⟩ := runClean_spec evs s game r hg hwf hgr (by omega) hr
  rw [hf] at h1 h2 h3 h4
  simp only [Nat.zero_add] at h1 h2 h3 h4
  refine ⟨h1, h2, fun h => ?_, h4⟩
  obtain ⟨d, hd⟩ := h3 h
  rw [h] at hd
  exact ⟨d, hd⟩

set_option maxRecDepth 100000 in
/-- Witness for C7: alice and bob play the 42 moves of `drawGame` in match 7; every
move is accepted, no four-in-a-row appears, and the run ends with the match removed
and a draw saved with move count 42. -/
theorem match_completes_on_win_or_full_witness :
    ∃ r, runClean aliceVsBob 7 drawGame = some r ∧ r.1.games 7 = none ∧
      ∃ d, Out.saveGame 7 none d 42 ∈ r.2 := by
  obtain ⟨r, hr⟩ := Option.isSome_iff_exists.1
    (show (runClean aliceVsBob 7 drawGame).isSome = true by decide)
  have h := (match_completes_on_win_or_full aliceVsBob
    ⟨7, [⟨"alice", "red", some 1⟩, ⟨"bob", "yellow", some 2⟩], createEmptyBoard, "alice", none,
      5, 0, false⟩ (by decide)).2.2 rfl drawGame r hr
  exact ⟨r, hr, h.2.1.2 (by decide), h.2.2.1 (by decide)⟩

/-! ## The `joinGame` handler -/

theorem setWaitingSocketGameId_frame (s : State) (w : String) (gameId : Nat) :
    (s.setWaitingSocketGameId w gameId).games = s.games ∧
    (s.setWaitingSocketGameId w gameId).waitingPlayers = s.waitingPlayers ∧
    (s.setWaitingSocketGameId w gameId).timers = s.timers ∧
    (s.setWaitingSocketGameId w gameId).playerSockets = s.playerSockets ∧
    (s.setWaitingSocketGameId w gameId).disconnectedPlayers = s.disconnectedPlayers := by
  unfold State.setWaitingSocketGameId
  cases s.playerSockets w with
  | none => exact ⟨rfl, rfl, rfl, rfl, rfl⟩
  | some wsid =>
    simp only
    split
    · exact ⟨rfl, rfl, rfl, rfl, rfl⟩
    · exact ⟨rfl, rfl, rfl, rfl, rfl⟩

theorem handleJoinGame_pair (s : State) (sid : Nat) (username w : String) (rest : List String)
    (newId now : Nat) (hq : s.waitingPlayers = w :: rest) (hw : w ≠ "") (hne : username ≠ w) :
    (handleJoinGame s sid username newId now).1.waitingPlayers = rest ∧
    (handleJoinGame s sid username newId now).1.games =
      Function.update s.games newId (some
        ⟨newId, [⟨w, "red", s.playerSockets w⟩, ⟨username, "yellow", some sid⟩],
          createEmptyBoard, w, none, now, 0, false⟩) ∧
    (handleJoinGame s sid username newId now).1.timers = s.timers := by
  have ht : (truthyStr w && (w != username)) = true := by
    simp [truthyStr, hw, Ne.symm hne]
  have hps : Function.update s.playerSockets username (some sid) w = s.playerSockets w :=
    Function.update_noteq (Ne.symm hne) _ _
  unfold handleJoinGame
  simp only [hq, List.head?_cons, List.tail_cons, ht, if_true, hps]
  refine ⟨?_, ?_, ?_⟩
  · rw [(setWaitingSocketGameId_frame _ _ _).2.1]; rfl
  · rw [(setWaitingSocketGameId_frame _ _ _).1]; rfl
  · rw [(setWaitingSocketGameId_frame _ _ _).2.2.1]; rfl

theorem handleJoinGame_empty_queue (s : State) (sid : Nat) (username : String) (newId now : Nat)
    (hq : s.waitingPlayers = []) :
    (handleJoinGame s sid username newId now).1.waitingPlayers = [username] ∧
    (handleJoinGame s sid username newId now).1.games = s.games ∧
    (handleJoinGame s sid username newId now).1.playerSockets =
      Function.update s.playerSockets username (some sid) := by
  unfold handleJoinGame
  simp [hq, joinWaiting, State.setTimeout, State.setSocketMatchTimeout]

/-- C8 as stated fails: with the empty string at the head of the queue, a join by a
different identity removes the head, forms no match and queues the joiner. -/
theorem joinGame_empty_name_head_not_paired :
    emptyNameWaiting.waitingPlayers = [""] ∧ "bob" ≠ "" ∧
    (handleJoinGame emptyNameWaiting 2 "bob" 7 5).1.games 7 = none ∧
    (handleJoinGame emptyNameWaiting 2 "bob" 7 5).1.waitingPlayers = ["bob"] := by
  decide

/-- C8 (amended): when the head of the waiting queue is a non-empty string and the
joining identity differs from it, `joinGame` removes the head from the queue and
creates exactly one match, under the fresh id: not a bot match, participants (head,
joiner) in that order, head as first mover, empty board, no timer added; so a join
of a non-empty identity on an empty queue followed by a join of a different identity
forms one human-human match of the two. -/
theorem joinGame_pairs_with_queue_head (s : State) (sid : Nat) (username w : String)
    (rest : List String) (newId now : Nat)
    (hw : w ≠ "") (hne : username ≠ w) :
    (s.waitingPlayers = w :: rest →
      (handleJoinGame s sid username newId now).1.waitingPlayers = rest ∧
      (handleJoinGame s sid username newId now).1.games =
        Function.update s.games newId (some
          ⟨newId, [⟨w, "red", s.playerSockets w⟩, ⟨username, "yellow", some sid⟩],
            createEmptyBoard, w, none, now, 0, false⟩) ∧
      (handleJoinGame s sid username newId now).1.timers = s.timers) ∧
    (s.waitingPlayers = [] → ∀ sid0 id0 t0 : Nat,
      (handleJoinGame (handleJoinGame s sid0 w id0 t0).1 sid username newId now).1.waitingPlayers
        = [] ∧
      (handleJoinGame (handleJoinGame s sid0 w id0 t0).1 sid username newId now).1.games =
        Function.update s.games newId (some
          ⟨newId, [⟨w, "red", some sid0⟩, ⟨username, "yellow", some sid⟩],
            createEmptyBoard, w, none, now, 0, false⟩)) := by
  refine ⟨fun hq => handleJoinGame_pair s sid username w rest newId now hq hw hne, ?_⟩
  intro hq sid0 id0 t0
  obtain ⟨q1, g1, p1⟩ := handleJoinGame_empty_queue s sid0 w id0 t0 hq
  obtain ⟨a, b, _⟩ := handleJoinGame_pair (handleJoinGame s sid0 w id0 t0).1 sid username w []
    newId now q1 hw hne
  refine ⟨a, ?_⟩
  rw [b, g1, p1, Function.update_same]

/-- Witness for C8: bob joins while alice waits. -/
theorem joinGame_pairs_with_queue_head_witness :
    (handleJoinGame aliceWaiting 2 "bob" 7 5).1.waitingPlayers = [] ∧
    (handleJoinGame aliceWaiting 2 "bob" 7 5).1.games 7 = some
      ⟨7, [⟨"alice", "red", some 1⟩, ⟨"bob", "yellow", some 2⟩], createEmptyBoard, "alice",
        none, 5, 0, false⟩ :=
  ⟨((joinGame_pairs_with_queue_head aliceWaiting 2 "bob" "alice" [] 7 5 (by decide)
      (by decide)).1 (by decide)).1,
    by
      rw [((joinGame_pairs_with_queue_head aliceWaiting 2 "bob" "alice" [] 7 5 (by decide)
        (by decide)).1 (by decide)).2.1]
      decide⟩

/-! ## The `disconnect` handler -/

theorem clearTimeout_frame (s : State) (id : Nat) :
    (s.clearTimeout id).games = s.games ∧ (s.clearTimeout id).nextTimer = s.nextTimer ∧
    (s.clearTimeout id).sockets = s.sockets ∧
    (s.clearTimeout id).disconnectedPlayers = s.disconnectedPlayers ∧
    (s.clearTimeout id).waitingPlayers = s.waitingPlayers ∧
    (s.clearTimeout id).playerSockets = s.playerSockets :=
  ⟨rfl, rfl, rfl, rfl, rfl, rfl⟩

theorem handleDisconnect_in_game (s : State) (sid now gameId : Nat) (username : String)
    (game : Game) (hgid : (s.sockets sid).gameId = some gameId)
    (hu : (s.sockets sid).username = some username) (hne : username ≠ "")
    (hg : s.games gameId = some game) (hw : game.winner = none) :
    (handleDisconnect s sid now).1.games = s.games ∧
    (handleDisconnect s sid now).1.disconnectedPlayers username =
      some ⟨gameId, now, s.nextTimer⟩ ∧
    (⟨s.nextTimer, now + 30000, TimerKind.forfeit sid gameId
        ((game.players.find? (fun p => p.username != username)).map (·.username))⟩ : Timer) ∈
      (handleDisconnect s sid now).1.timers := by
  have ht : truthyStr username = true := by simp [truthyStr, hne]
  unfold handleDisconnect
  cases hm : (s.sockets sid).matchTimeout with
  | none =>
    simp [hm, hu, hgid, ht, hg, hw, State.setTimeout]
  | some tid =>
    simp [hm, hu, hgid, ht, hg, hw, State.setTimeout, State.clearTimeout]

/-- C9 as stated fails: after alice's socket disconnects from match 7, her
`socketId` in the match is still her old socket, not `null` (the Disconnection
record is there). -/
theorem disconnect_keeps_socketId :
    (aliceVsBob.sockets 1).username = some "alice" ∧ (aliceVsBob.sockets 1).gameId = some 7 ∧
    (handleDisconnect aliceVsBob 1 20).1.games 7 = some
      ⟨7, [⟨"alice", "red", some 1⟩, ⟨"bob", "yellow", some 2⟩], createEmptyBoard, "alice",
        none, 5, 0, false⟩ ∧
    (handleDisconnect aliceVsBob 1 20).1.disconnectedPlayers "alice" = some ⟨7, 20, 1⟩ := by
  decide

/-- C9 (amended): when a socket that carries a non-empty username and the id of a
match that is in the registry without a winner disconnects, the registry, and with it
that participant's `socketId` in the match, is left as it was (the handle is not set
to `null`), and a Disconnection record exists for the identity holding the match id,
the disconnect time and the handle of a pending forfeit timer due 30 seconds (30000
ms) later. -/
theorem disconnect_records_forfeit_deadline (s : State) (sid now gameId : Nat)
    (username : String) (game : Game) (hgid : (s.sockets sid).gameId = some gameId)
    (hu : (s.sockets sid).username = some username) (hne : username ≠ "")
    (hg : s.games gameId = some game) (hw : game.winner = none) :
    (handleDisconnect s sid now).1.games = s.games ∧
    (handleDisconnect s sid now).1.games gameId = some game ∧
    ∃ info timer, (handleDisconnect s sid now).1.disconnectedPlayers username = some info ∧
      info.gameId = gameId ∧ info.disconnectTime = now ∧
      timer ∈ (handleDisconnect s sid now).1.timers ∧ timer.id = info.timeoutId ∧
      timer.due = now + 30000 ∧
      timer.kind = TimerKind.forfeit sid gameId
        ((game.players.find? (fun p => p.username != username)).map (·.username)) := by
  obtain ⟨h1, h2, h3⟩ := handleDisconnect_in_game s sid now gameId username game hgid hu hne hg hw
  exact ⟨h1, by rw [h1, hg], _, _, h2, rfl, rfl, h3, rfl, rfl, rfl⟩

/-- Witness for C9: alice's socket disconnects from match 7 at time 20. -/
theorem disconnect_records_forfeit_deadline_witness :
    (handleDisconnect aliceVsBob 1 20).1.games = aliceVsBob.games ∧
    (handleDisconnect aliceVsBob 1 20).1.games 7 = some
      ⟨7, [⟨"alice", "red", some 1⟩, ⟨"bob", "yellow", some 2⟩], createEmptyBoard, "alice",
        none, 5, 0, false⟩ ∧
    ∃ info timer, (handleDisconnect aliceVsBob 1 20).1.disconnectedPlayers "alice" = some info ∧
      info.gameId = 7 ∧ info.disconnectTime = 20 ∧
      timer ∈ (handleDisconnect aliceVsBob 1 20).1.timers ∧ timer.id = info.timeoutId ∧
      timer.due = 20 + 30000 ∧
      timer.kind = TimerKind.forfeit 1 7
        (([⟨"alice", "red", some 1⟩, ⟨"bob", "yellow", some 2⟩].find?
          (fun p : Player => p.username != "alice")).map (·.username)) :=
  disconnect_records_forfeit_deadline aliceVsBob 1 20 7 "alice"
    ⟨7, [⟨"alice", "red", some 1⟩, ⟨"bob", "yellow", some 2⟩], createEmptyBoard, "alice", none,
      5, 0, false⟩ (by decide) (by decide) (by decide) (by decide) (by decide)

/-! ## The `reconnectGame` handler -/

theorem clearDisconnection_spec (s : State) (username : String) :
    (s.clearDisconnection username).games = s.games ∧
    (s.clearDisconnection username).disconnectedPlayers username = none ∧
    (∀ info, s.disconnectedPlayers username = some info →
      ∀ t ∈ (s.clearDisconnection username).timers, t.id ≠ info.timeoutId) ∧
    (∀ t ∈ (s.clearDisconnection username).timers, t ∈ s.timers) := by
  unfold State.clearDisconnection
  cases h : s.disconnectedPlayers username with
  | none =>
    refine ⟨rfl, h, fun info hi => by simp at hi, fun t ht => ht⟩
  | some info =>
    refine ⟨rfl, by simp, ?_, ?_⟩
    · intro info' hi t ht
      simp only [Option.some.injEq] at hi
      subst hi
      simp only [State.clearTimeout, List.mem_filter, bne_iff_ne] at ht
      exact ht.2
    · intro t ht
      simp only [State.clearTimeout, List.mem_filter] at ht
      exact ht.1

theorem findIdx_username_some (ps : List Player) (username : String) (i : Nat)
    (h : ps.findIdx? (fun p => p.username == username) = some i) :
    ∃ p, ps[i]? = some p ∧ p.username = username := by
  have := List.findIdx?_of_eq_some h
  cases hp : ps[i]? with
  | none => rw [hp] at this; simp at this
  | some p =>
    rw [hp] at this
    exact ⟨p, rfl, by simpa using this⟩

theorem handleReconnectGame_ok (s : State) (sid : Nat) (username : String) (gameId : Nat)
    (game : Game) (i : Nat) (hg : s.games gameId = some game)
    (hi : game.players.findIdx? (fun p => p.username == username) = some i) :
    (handleReconnectGame s sid username gameId).1.games =
      Function.update s.games gameId
        (some { game with players := setSocketId game.players i (some sid) }) ∧
    (handleReconnectGame s sid username gameId).1.disconnectedPlayers username = none ∧
    (∀ info, s.disconnectedPlayers username = some info →
      ∀ t ∈ (handleReconnectGame s sid username gameId).1.timers, t.id ≠ info.timeoutId) ∧
    (handleReconnectGame s sid username gameId).1.playerSockets username = some sid ∧
    (∃ rest, (handleReconnectGame s sid username gameId).2 =
      Out.emit (some sid) (Event.gameStart game.gameId
        (((setSocketId game.players i (some sid)).find? (fun p => p.username != username)).map
          (·.username))
        ((setSocketId game.players i (some sid)).getD i ⟨"", "", none⟩).color
        game.currentTurn) :: rest) := by
  obtain ⟨c1, c2, c3, _⟩ := clearDisconnection_spec s username
  unfold handleReconnectGame
  simp only [hg, hi]
  refine ⟨by rw [c1], c2, c3, by simp, _, rfl⟩
/-! ## The bot's move always lands -/

/-- The match entry that a `makeMove` request leaves in the registry has a board with a
legal column, if it had one before. -/
theorem handleMakeMove_not_full (s : State) (sid : Nat) (column : Int) (now : Nat)
    (game game' : Game) (hg : s.games game.gameId = some game) (hwf : WF game.board)
    (hnf : isBoardFull game.board = false)
    (h : (handleMakeMove s sid game.gameId column now).1.games game.gameId = some game') :
    WF game'.board ∧ isBoardFull game'.board = false := by
  by_cases ht : (s.sockets sid).username = some game.currentTurn
  · cases hv : isValidMove game.board column with
    | false =>
      rw [handleMakeMove_invalid s sid _ column now game hg ht hv, hg,
        Option.some.injEq] at h
      subst h; exact ⟨hwf, hnf⟩
    | true =>
      rw [handleMakeMove_accepted s sid _ column now game hg ht hv] at h
      cases he : (truthy (checkWinner (makeMove game.board column.toNat game.currentTurn).1) ||
          isBoardFull (makeMove game.board column.toNat game.currentTurn).1) with
      | true =>
        rw [acceptMove_ended s sid _ column now game he, endGame_games] at h
        simp at h
      | false =>
        rw [(acceptMove_continues s sid _ column now game he).1, Function.update_same,
          Option.some.injEq] at h
        subst h
        obtain ⟨_, _, _, _, _, _, _, w⟩ := makeMove_valid game.board column game.currentTurn hwf hv
        rw [Bool.or_eq_false_iff] at he
        exact ⟨w, he.2⟩
  · rw [handleMakeMove_not_turn s sid _ column now game hg ht, hg, Option.some.injEq] at h
    subst h; exact ⟨hwf, hnf⟩

/-- The match entry that `makeBotMove` leaves in the registry has a board with a
legal column, if it had one before. -/
theorem makeBotMove_not_full (s : State) (now : Nat) (game game' : Game)
    (r : State × List Out) (hg : s.games game.gameId = some game) (hwf : WF game.board)
    (hnf : isBoardFull game.board = false)
    (hr : makeBotMove s game.gameId now = some r)
    (h : r.1.games game.gameId = some game') :
    WF game'.board ∧ isBoardFull game'.board = false := by
  cases hf : game.players.find? (fun p => p.username != "Bot") with
  | none =>
    unfold makeBotMove at hr
    rw [hg] at hr
    simp only [hf] at hr
    exact absurd hr (by simp)
  | some human =>
    rw [makeBotMove_applied s _ now game human hg hf, Option.some.injEq] at hr
    subst hr
    cases he : (truthy (checkWinner
        (makeMove game.board (getBotMove game.board "Bot" human.username) "Bot").1) ||
        isBoardFull (makeMove game.board (getBotMove game.board "Bot" human.username)
          "Bot").1) with
    | true =>
      rw [applyBotMove_ended s _ now game human he, endGame_games] at h
      simp at h
    | false =>
      rw [(applyBotMove_continues s _ now game human he).1, Function.update_same,
        Option.some.injEq] at h
      subst h
      have hv := (getBotMove_legal_board game.board "Bot" human.username hwf).1 hnf
      obtain ⟨_, _, _, _, _, _, _, w⟩ := makeMove_valid game.board
        (getBotMove game.board "Bot" human.username : Nat) "Bot" hwf hv
      simp only [Int.toNat_ofNat] at w
      rw [Bool.or_eq_false_iff] at he
      exact ⟨w, he.2⟩

/-- C4: on a 6x7 board with a legal column (`isBoardFull` false) the column returned
by `getBotMove` satisfies `isValidMove`; an illegal result is the fallback 0 and
occurs only when no column is legal (the board is full); hence the unvalidated
`makeMove` of `makeBotMove` places a piece in a cell that was empty, for every match
of the registry whose board has a legal column, and the entry that a `makeMove`
request or `makeBotMove`, run to completion before the next event is handled, leaves
in the registry again has a legal column. -/
theorem getBotMove_is_legal (b : Board) (botPlayer humanPlayer : String) (hb : WF b) :
    (isBoardFull b = false → isValidMove b (getBotMove b botPlayer humanPlayer : Nat) = true) ∧
    (isValidMove b (getBotMove b botPlayer humanPlayer : Nat) = false →
      getBotMove b botPlayer humanPlayer = 0 ∧ isBoardFull b = true ∧
      ∀ c : Int, isValidMove b c = false) ∧
    (isBoardFull b = false → ∃ r, r < ROWS ∧
      cell b r (getBotMove b botPlayer humanPlayer) = none ∧
      makeMove b (getBotMove b botPlayer humanPlayer) botPlayer =
        (setCell b r (getBotMove b botPlayer humanPlayer) (some botPlayer),
          some ⟨r, getBotMove b botPlayer humanPlayer⟩) ∧
      cell (makeMove b (getBotMove b botPlayer humanPlayer) botPlayer).1 r
        (getBotMove b botPlayer humanPlayer) = some botPlayer) ∧
    (∀ (s : State) (game : Game), s.games game.gameId = some game → game.board = b →
      isBoardFull b = false →
      (∀ (human : Player) (now : Nat),
        game.players.find? (fun p => p.username != "Bot") = some human →
        ∃ r, r < ROWS ∧ cell b r (getBotMove b "Bot" human.username) = none ∧
          movedBoard s game.gameId (MoveEv.bot now) =
            some (setCell b r (getBotMove b "Bot" human.username) (some "Bot"))) ∧
      (∀ (sid : Nat) (column : Int) (now : Nat) (game' : Game),
        (handleMakeMove s sid game.gameId column now).1.games game.gameId = some game' →
        WF game'.board ∧ isBoardFull game'.board = false) ∧
      (∀ (now : Nat) (r : State × List Out) (game' : Game),
        makeBotMove s game.gameId now = some r → r.1.games game.gameId = some game' →
        WF game'.board ∧ isBoardFull game'.board = false)) := by
  obtain ⟨h1, h2, h3⟩ := getBotMove_legal_board b botPlayer humanPlayer hb
  refine ⟨h1, h2, h3, ?_⟩
  intro s game hg hbd hnf
  subst hbd
  refine ⟨?_, ?_, ?_⟩
  · intro human now hh
    obtain ⟨r, hr, hnone, hmv, _⟩ :=
      (getBotMove_legal_board game.board "Bot" human.username hb).2.2 hnf
    refine ⟨r, hr, hnone, ?_⟩
    simp only [movedBoard, hg, hh, hmv]
  · intro sid column now game' h
    exact handleMakeMove_not_full s sid column now game game' hg hb hnf h
  · intro now r game' hr h
    exact makeBotMove_not_full s now game game' r hg hb hnf hr h

/-- Witness for C4: the empty board has a legal column and the bot's column is legal. -/
theorem getBotMove_is_legal_witness :
    WF createEmptyBoard ∧ isBoardFull createEmptyBoard = false ∧
    isValidMove createEmptyBoard (getBotMove createEmptyBoard "Bot" "alice" : Nat) = true :=
  ⟨by decide, by decide,
    (getBotMove_is_legal createEmptyBoard "Bot" "alice" (by decide)).1 (by decide)⟩

/-! ## `isValidMove` and `isBoardFull` -/

theorem isValidMove_iff_nat (b : Board) (column : Int) :
    isValidMove b column = true ↔ ∃ c : Nat, column = (c : Int) ∧ c < COLS ∧ cell b 0 c = none := by
  rw [isValidMove_iff]
  constructor
  · rintro ⟨h0, h7, hn⟩
    exact ⟨column.toNat, (Int.toNat_of_nonneg h0).symm, by unfold COLS; omega, hn⟩
  · rintro ⟨c, rfl, hc, hn⟩
    unfold COLS at hc
    exact ⟨by omega, by omega, by simpa using hn⟩

/-- C18: for every board and every column value, `isValidMove(board, column)` is true
if and only if `0 <= column < 7` and the cell in row 0 of that column is empty
(`null`). -/
theorem isValidMove_iff_in_range_and_top_empty (b : Board) (column : Int) :
    (isValidMove b column = true ↔
      0 ≤ column ∧ column < 7 ∧ cell b 0 column.toNat = none) ∧
    (isValidMove b column = true ↔
      ∃ c : Nat, column = (c : Int) ∧ c < COLS ∧ cell b 0 c = none) :=
  ⟨isValidMove_iff b column, isValidMove_iff_nat b column⟩

theorem full_iff_all_cells {b : Board} (hb : WF b) (hg : Gravity b) :
    isBoardFull b = true ↔ ∀ r c, r < ROWS → c < COLS → cell b r c ≠ none := by
  rw [isBoardFull_iff hb]
  constructor
  · intro h r c hr hc
    exact gravity_column hg hc (h c hc) r hr
  · intro h c hc
    exact h 0 c (by decide) hc

/-- C19: `isBoardFull(board)` is true if and only if row 0 of the 6x7 board contains no
empty cell, and on a board that satisfies the gravity invariant this is equivalent
to the board having no empty cell anywhere: all 42 cells are occupied. -/
theorem isBoardFull_iff_top_row_full (b : Board) (hb : WF b) :
    (isBoardFull b = true ↔ ∀ c, c < COLS → cell b 0 c ≠ none) ∧
    (Gravity b →
      (isBoardFull b = true ↔ ∀ r c, r < ROWS → c < COLS → cell b r c ≠ none) ∧
      (isBoardFull b = true ↔ filled b = 42)) :=
  ⟨isBoardFull_iff hb, fun hg => ⟨full_iff_all_cells hb hg, full_iff_filled hb hg⟩⟩

/-- Witness for C19: the empty board is not full and has an empty cell in row 0. -/
theorem isBoardFull_iff_top_row_full_witness :
    WF createEmptyBoard ∧ isBoardFull createEmptyBoard = false ∧
    ¬ ∀ c, c < COLS → cell createEmptyBoard 0 c ≠ none :=
  ⟨by decide, by decide,
    fun h => absurd ((isBoardFull_iff_top_row_full createEmptyBoard (by decide)).1.2 h)
      (by decide)⟩

/-! ## Escalation to a bot match -/

theorem mem_clearTimeout (s : State) (id : Nat) (t : Timer) :
    t ∈ (s.clearTimeout id).timers ↔ t ∈ s.timers ∧ t.id ≠ id := by
  simp [State.clearTimeout, List.mem_filter]

theorem joinWaiting_spec (s : State) (sid : Nat) (username : String) (now : Nat) :
    (joinWaiting s sid username now).1.waitingPlayers = s.waitingPlayers ++ [username] ∧
    (joinWaiting s sid username now).1.games = s.games ∧
    (joinWaiting s sid username now).1.timers =
      s.timers ++ [⟨s.nextTimer, now + 10000, TimerKind.escalate sid username⟩] ∧
    (joinWaiting s sid username now).1.nextTimer = s.nextTimer + 1 ∧
    (joinWaiting s sid username now).1.disconnectedPlayers = s.disconnectedPlayers ∧
    (joinWaiting s sid username now).1.playerSockets = s.playerSockets ∧
    (joinWaiting s sid username now).1.sockets =
      Function.update s.sockets sid { s.sockets sid with matchTimeout := some s.nextTimer } ∧
    (joinWaiting s sid username now).2 = [Out.emit (some sid) Event.waiting] :=
  ⟨rfl, rfl, rfl, rfl, rfl, rfl, rfl, rfl⟩

/-- A join that does not pair: the queue is empty, or its head is falsy or is the
joining identity itself.  The head is dropped and the joiner waits. -/
theorem handleJoinGame_waits (s : State) (sid : Nat) (username : String) (newId now : Nat)
    (h : s.waitingPlayers = [] ∨ ∃ w rest, s.waitingPlayers = w :: rest ∧
      (w = "" ∨ w = username)) :
    handleJoinGame s sid username newId now =
      joinWaiting
        { s with playerSockets := Function.update s.playerSockets username (some sid),
                 sockets := Function.update s.sockets sid
                   { s.sockets sid with username := some username },
                 waitingPlayers := s.waitingPlayers.tail } sid username now := by
  unfold handleJoinGame
  rcases h with h | ⟨w, rest, h, hw⟩
  · simp [h]
  · have ht : (truthyStr w && (w != username)) = false := by
      rcases hw with rfl | rfl <;> simp [truthyStr]
    simp [h, ht]

theorem fireEscalate_waiting (s : State) (sid : Nat) (username : String) (newId now : Nat)
    (h : username ∈ s.waitingPlayers) :
    (fireEscalate s sid username newId now).1.waitingPlayers = s.waitingPlayers.erase username ∧
    (fireEscalate s sid username newId now).1.games =
      Function.update s.games newId (some
        ⟨newId, [⟨username, "red", some sid⟩, ⟨"Bot", "yellow", none⟩], createEmptyBoard,
          username, none, now, 0, true⟩) ∧
    (fireEscalate s sid username newId now).1.timers = s.timers ∧
    (fireEscalate s sid username newId now).2 =
      [Out.emit (some sid) (Event.gameStart newId (some "Bot") "red" username),
       Out.publish "game.started" newId] := by
  unfold fireEscalate
  rw [if_pos h]
  exact ⟨rfl, rfl, rfl, rfl⟩

theorem fireEscalate_not_waiting (s : State) (sid : Nat) (username : String) (newId now : Nat)
    (h : username ∉ s.waitingPlayers) :
    fireEscalate s sid username newId now = (s, []) := by
  unfold fireEscalate
  rw [if_neg h]

/-- C15: a `joinGame` that finds the queue empty enqueues the identity, forms no match
and starts one escalation timer due 10 seconds later; when that timer fires with
nothing in between, and more generally in any state where the identity is still in
the queue, the identity is removed from the queue and exactly one match is created:
a bot match, under the fresh id, with the human as first participant and first
mover; the timer is then no longer pending. -/
theorem escalation_creates_one_bot_match (s : State) (sid : Nat) (username : String)
    (id0 now newId now2 : Nat) (hq : s.waitingPlayers = []) :
    (handleJoinGame s sid username id0 now).1.waitingPlayers = [username] ∧
    (handleJoinGame s sid username id0 now).1.games = s.games ∧
    (handleJoinGame s sid username id0 now).1.timers =
      s.timers ++ [⟨s.nextTimer, now + 10000, TimerKind.escalate sid username⟩] ∧
    (∃ r, fireTimer (handleJoinGame s sid username id0 now).1
        ⟨s.nextTimer, now + 10000, TimerKind.escalate sid username⟩ newId now2 = some r ∧
      r.1.waitingPlayers = [] ∧
      r.1.games = Function.update s.games newId (some
        ⟨newId, [⟨username, "red", some sid⟩, ⟨"Bot", "yellow", none⟩], createEmptyBoard,
          username, none, now2, 0, true⟩) ∧
      ∀ t ∈ r.1.timers, t.id ≠ s.nextTimer) ∧
    (∀ (s2 : State) (t : Timer), t.kind = TimerKind.escalate sid username →
      username ∈ s2.waitingPlayers →
      ∃ r, fireTimer s2 t newId now2 = some r ∧
        r.1.waitingPlayers = s2.waitingPlayers.erase username ∧
        r.1.games = Function.update s2.games newId (some
          ⟨newId, [⟨username, "red", some sid⟩, ⟨"Bot", "yellow", none⟩], createEmptyBoard,
            username, none, now2, 0, true⟩) ∧
        ∀ t' ∈ r.1.timers, t'.id ≠ t.id) := by
  have hgen : ∀ (s2 : State) (t : Timer), t.kind = TimerKind.escalate sid username →
      username ∈ s2.waitingPlayers →
      ∃ r, fireTimer s2 t newId now2 = some r ∧
        r.1.waitingPlayers = s2.waitingPlayers.erase username ∧
        r.1.games = Function.update s2.games newId (some
          ⟨newId, [⟨username, "red", some sid⟩, ⟨"Bot", "yellow", none⟩], createEmptyBoard,
            username, none, now2, 0, true⟩) ∧
        ∀ t' ∈ r.1.timers, t'.id ≠ t.id := by
    intro s2 t hk hmem
    refine ⟨fireEscalate (s2.clearTimeout t.id) sid username newId now2, ?_, ?_⟩
    · simp only [fireTimer, hk]
    · obtain ⟨a, b, c, _⟩ := fireEscalate_waiting (s2.clearTimeout t.id) sid username newId now2
        hmem
      refine ⟨a, b, ?_⟩
      intro t' ht'
      rw [c] at ht'
      exact ((mem_clearTimeout s2 t.id t').1 ht').2
  have hw := handleJoinGame_waits s sid username id0 now (Or.inl hq)
  obtain ⟨j1, j2, j3, _⟩ := joinWaiting_spec
    { s with playerSockets := Function.update s.playerSockets username (some sid),
             sockets := Function.update s.sockets sid
               { s.sockets sid with username := some username },
             waitingPlayers := s.waitingPlayers.tail } sid username now
  rw [← hw] at j1 j2 j3
  simp only [hq, List.tail_nil, List.nil_append] at j1
  refine ⟨j1, j2, j3, ?_, hgen⟩
  obtain ⟨r, hr, h1, h2, h3⟩ := hgen (handleJoinGame s sid username id0 now).1
    ⟨s.nextTimer, now + 10000, TimerKind.escalate sid username⟩ rfl (by rw [j1]; simp)
  refine ⟨r, hr, ?_, ?_, h3⟩
  · rw [h1, j1]; simp
  · rw [h2, j2]

/-- Witness for C15: on the empty server socket 1 connects and alice joins at time 0;
her timer fires at time 10000 and starts bot match 7. -/
theorem escalation_creates_one_bot_match_witness :
    aliceWaiting.waitingPlayers = ["alice"] ∧
    ∃ r, fireTimer aliceWaiting aliceTimer 7 10000 = some r ∧ r.1.waitingPlayers = [] ∧
      r.1.games 7 = some ⟨7, [⟨"alice", "red", some 1⟩, ⟨"Bot", "yellow", none⟩],
        createEmptyBoard, "alice", none, 10000, 0, true⟩ := by
  obtain ⟨h1, _, _, ⟨r, hr, h2, h3, _⟩, _⟩ := escalation_creates_one_bot_match
    (handleConnection (handleConnection State.init 1) 2) 1 "alice" 0 0 7 10000 rfl
  exact ⟨h1, r, hr, h2, by rw [h3]; decide⟩

/-! ## Escalation timers after pairing and after a re-join -/

theorem fireTimer_escalate_not_waiting (s : State) (t : Timer) (sid : Nat) (username : String)
    (newId now : Nat) (hk : t.kind = TimerKind.escalate sid username)
    (h : username ∉ s.waitingPlayers) :
    fireTimer s t newId now = some (s.clearTimeout t.id, []) := by
  simp only [fireTimer, hk]
  rw [fireEscalate_not_waiting _ _ _ _ _ (by simpa [State.clearTimeout] using h)]

/-- C16 as stated fails: after bob is paired with the waiting alice, alice's
escalation timer is still pending; when alice joins again at time 9000 and waits,
that timer fires at time 10000 and turns her new waiting entry, one second old,
into bot match 9. -/
theorem pairing_keeps_head_escalation :
    aliceTimer ∈ aliceWaiting.timers ∧ aliceTimer ∈ aliceVsBob.timers ∧
    aliceRejoinsAfterPairing.waitingPlayers = ["alice"] ∧
    aliceTimer ∈ aliceRejoinsAfterPairing.timers ∧
    ((fireTimer aliceRejoinsAfterPairing aliceTimer 9 10000).map
      fun r => (r.1.waitingPlayers, r.1.games 9)) =
      some ([], some ⟨9, [⟨"alice", "red", some 1⟩, ⟨"Bot", "yellow", none⟩],
        createEmptyBoard, "alice", none, 10000, 0, true⟩) := by
  decide

/-- C16 (amended): when `joinGame` pairs a joiner with the queue head, the head's
scheduled escalation is not removed: every pending timer stays pending; when an
escalation timer fires while its identity is not in the waiting queue, nothing
happens except that the timer stops being pending. -/
theorem pairing_leaves_escalation_pending (s : State) (sid : Nat) (username w : String)
    (rest : List String) (newId now : Nat) (hq : s.waitingPlayers = w :: rest)
    (hw : w ≠ "") (hne : username ≠ w) :
    (handleJoinGame s sid username newId now).1.timers = s.timers ∧
    (∀ (s2 : State) (t : Timer) (sid0 id2 now2 : Nat),
      t.kind = TimerKind.escalate sid0 w → w ∉ s2.waitingPlayers →
      fireTimer s2 t id2 now2 = some (s2.clearTimeout t.id, [])) :=
  ⟨(handleJoinGame_pair s sid username w rest newId now hq hw hne).2.2,
    fun s2 t sid0 id2 now2 hk h => fireTimer_escalate_not_waiting s2 t sid0 w id2 now2 hk h⟩

/-- Witness for C16: bob joins while alice waits; alice's timer stays pending and does
nothing when it fires at time 10000. -/
theorem pairing_leaves_escalation_pending_witness :
    (handleJoinGame aliceWaiting 2 "bob" 7 5).1.timers = aliceWaiting.timers ∧
    fireTimer aliceVsBob aliceTimer 9 10000 = some (aliceVsBob.clearTimeout aliceTimer.id, []) :=
  ⟨(pairing_leaves_escalation_pending aliceWaiting 2 "bob" "alice" [] 7 5 (by decide)
      (by decide) (by decide)).1,
    (pairing_leaves_escalation_pending aliceWaiting 2 "bob" "alice" [] 7 5 (by decide)
      (by decide) (by decide)).2 aliceVsBob aliceTimer 1 9 10000 rfl (by decide)⟩

/-- C17 as stated fails: alice waits since time 0 and joins again at time 4000; the
queue holds her once, but two escalation timers are pending for her, and the older
one, due at time 10000, is the one that starts her bot match. -/
theorem rejoin_keeps_prior_escalation :
    aliceWaiting.waitingPlayers = ["alice"] ∧
    aliceRejoinsWhileWaiting.waitingPlayers = ["alice"] ∧
    aliceRejoinsWhileWaiting.timers =
      [⟨0, 10000, TimerKind.escalate 1 "alice"⟩, ⟨1, 14000, TimerKind.escalate 1 "alice"⟩] ∧
    ((fireTimer aliceRejoinsWhileWaiting aliceTimer 9 10000).map
      fun r => (r.1.waitingPlayers, (r.1.games 9).map (·.startTime))) =
      some ([], some 10000) := by
  decide

/-- C17 (amended): when an identity that is the only waiting entry joins again, it is
not paired with itself: no match is created and afterwards the queue holds exactly
one entry, for that identity; the prior escalation deadline is not cancelled: all
timers that were pending stay pending, next to one new escalation timer set 10
seconds after the re-join. -/
theorem rejoin_requeues_without_cancelling (s : State) (sid : Nat) (username : String)
    (newId now : Nat) (hq : s.waitingPlayers = [username]) :
    (handleJoinGame s sid username newId now).1.games = s.games ∧
    (handleJoinGame s sid username newId now).1.waitingPlayers = [username] ∧
    (handleJoinGame s sid username newId now).1.timers =
      s.timers ++ [⟨s.nextTimer, now + 10000, TimerKind.escalate sid username⟩] ∧
    (handleJoinGame s sid username newId now).2 = [Out.emit (some sid) Event.waiting] := by
  have hw := handleJoinGame_waits s sid username newId now
    (Or.inr ⟨username, [], hq, Or.inr rfl⟩)
  obtain ⟨j1, j2, j3, _, _, _, _, j8⟩ := joinWaiting_spec
    { s with playerSockets := Function.update s.playerSockets username (some sid),
             sockets := Function.update s.sockets sid
               { s.sockets sid with username := some username },
             waitingPlayers := s.waitingPlayers.tail } sid username now
  rw [← hw] at j1 j2 j3 j8
  simp only [hq, List.tail_cons, List.nil_append] at j1
  exact ⟨j2, j1, j3, j8⟩

/-- Witness for C17: alice, waiting since time 0, joins again at time 4000. -/
theorem rejoin_requeues_without_cancelling_witness :
    aliceWaiting.waitingPlayers = ["alice"] ∧
    (handleJoinGame aliceWaiting 1 "alice" 8 4000).1.waitingPlayers = ["alice"] ∧
    (handleJoinGame aliceWaiting 1 "alice" 8 4000).1.timers =
      aliceWaiting.timers ++ [⟨aliceWaiting.nextTimer, 4000 + 10000,
        TimerKind.escalate 1 "alice"⟩] :=
  ⟨by decide,
    (rejoin_requeues_without_cancelling aliceWaiting 1 "alice" 8 4000 (by decide)).2.1,
    (rejoin_requeues_without_cancelling aliceWaiting 1 "alice" 8 4000 (by decide)).2.2.1⟩

/-! ## The registry invariant -/

theorem playedBoard_invariants {b : Board} (h : PlayedBoard b) : WF b ∧ Gravity b := by
  induction h with
  | empty => exact ⟨by decide, gravity_empty⟩
  | move column marker _ hv ih =>
    obtain ⟨w, g, _⟩ := makeMove_invariants ih.1 ih.2 column marker hv
    exact ⟨w, g⟩

theorem regInv_of_update {s s' : State} (h : RegInv s) (k : Nat) (v : Option Game)
    (hs : s'.games = Function.update s.games k v) (hv : ∀ g, v = some g → GameOK k g) :
    RegInv s' := by
  intro gid g hg
  rw [hs] at hg
  by_cases e : gid = k
  · subst e
    rw [Function.update_same] at hg
    exact hv g hg
  · rw [Function.update_noteq e] at hg
    exact h gid g hg

theorem regInv_of_same {s s' : State} (h : RegInv s) (hs : s'.games = s.games) : RegInv s' := by
  intro gid g hg
  rw [hs] at hg
  exact h gid g hg

theorem gameOK_new_match (newId now : Nat) (w username : String) (a c : Option Nat)
    (hne : w ≠ username) :
    GameOK newId ⟨newId, [⟨w, "red", a⟩, ⟨username, "yellow", c⟩], createEmptyBoard, w, none,
      now, 0, false⟩ where
  key := rfl
  noWinner := rfl
  two := ⟨_, _, rfl, fun _ => hne, fun h => by simp at h⟩
  turn := by simp
  played := PlayedBoard.empty
  notFull := (by decide : isBoardFull createEmptyBoard = false)
  noLine := (by decide : checkWinner createEmptyBoard = none)
  count := filled_empty.symm

theorem gameOK_bot_match (newId now sid : Nat) (username : String) :
    GameOK newId ⟨newId, [⟨username, "red", some sid⟩, ⟨"Bot", "yellow", none⟩],
      createEmptyBoard, username, none, now, 0, true⟩ where
  key := rfl
  noWinner := rfl
  two := ⟨_, _, rfl, fun h => by simp at h, fun _ => rfl⟩
  turn := by simp
  played := PlayedBoard.empty
  notFull := (by decide : isBoardFull createEmptyBoard = false)
  noLine := (by decide : checkWinner createEmptyBoard = none)
  count := filled_empty.symm

theorem setSocketId_usernames (ps : List Player) (i : Nat) (v : Option Nat) :
    (setSocketId ps i v).map (·.username) = ps.map (·.username) := by
  unfold setSocketId
  cases hp : ps[i]? with
  | none => rfl
  | some p =>
    simp only
    rw [List.map_set]
    apply List.ext_getElem?
    intro n
    rw [List.getElem?_set]
    by_cases hn : i = n
    · subst hn
      have hlt : i < ps.length := by
        by_contra hc
        rw [List.getElem?_eq_none (by omega)] at hp
        simp at hp
      have hget : ps[i] = p := by
        have := List.getElem?_eq_getElem hlt
        rw [hp] at this
        exact (Option.some.inj this).symm
      simp [hlt, hget]
    · simp [hn]

theorem setSocketId_pair (p0 p1 : Player) (i : Nat) (v : Option Nat) :
    ∃ q0 q1 : Player, setSocketId [p0, p1] i v = [q0, q1] ∧ q0.username = p0.username ∧
      q1.username = p1.username := by
  match i with
  | 0 => exact ⟨_, _, rfl, rfl, rfl⟩
  | 1 => exact ⟨_, _, rfl, rfl, rfl⟩
  | n + 2 => exact ⟨_, _, rfl, rfl, rfl⟩

theorem gameOK_setSocketId {gid : Nat} {g : Game} (h : GameOK gid g) (i : Nat) (v : Option Nat) :
    GameOK gid { g with players := setSocketId g.players i v } where
  key := h.key
  noWinner := h.noWinner
  two := by
    obtain ⟨p0, p1, hp, hb0, hb1⟩ := h.two
    obtain ⟨q0, q1, hq, e0, e1⟩ := setSocketId_pair p0 p1 i v
    refine ⟨q0, q1, by simp only [hp, hq], ?_, ?_⟩
    · intro hb; rw [e0, e1]; exact hb0 hb
    · intro hb; rw [e1]; exact hb1 hb
  turn := by
    simp only [setSocketId_usernames]
    exact h.turn
  played := h.played
  notFull := h.notFull
  noLine := h.noLine
  count := h.count

theorem not_ended (b : Board)
    (he : (truthy (checkWinner b) || isBoardFull b) = false) :
    checkWinner b = none ∧ isBoardFull b = false := by
  rw [Bool.or_eq_false_iff] at he
  refine ⟨?_, he.2⟩
  by_contra hc
  have := (truthy_checkWinner b).2 hc
  rw [he.1] at this
  exact absurd this (by simp)

theorem gameOK_after_move {gid : Nat} {g : Game} (h : GameOK gid g) (column : Int)
    (marker next : String) (hv : isValidMove g.board column = true)
    (hn : next ∈ g.players.map (·.username))
    (he : (truthy (checkWinner (makeMove g.board column.toNat marker).1) ||
      isBoardFull (makeMove g.board column.toNat marker).1) = false) :
    GameOK gid { g with board := (makeMove g.board column.toNat marker).1,
                        moves := g.moves + 1, currentTurn := next } where
  key := h.key
  noWinner := h.noWinner
  two := h.two
  turn := hn
  played := PlayedBoard.move column marker h.played hv
  notFull := (not_ended _ he).2
  noLine := (not_ended _ he).1
  count := by
    obtain ⟨hw, hg⟩ := playedBoard_invariants h.played
    have := (makeMove_invariants hw hg column marker hv).2.2
    simp only
    rw [this, h.count]

theorem regInv_init : RegInv State.init := by
  intro gid g hg
  simp [State.init] at hg

theorem handleJoinGame_games (s : State) (sid : Nat) (username : String) (newId now : Nat) :
    (handleJoinGame s sid username newId now).1.games = s.games ∨
    ∃ w, w ≠ username ∧ (handleJoinGame s sid username newId now).1.games =
      Function.update s.games newId (some
        ⟨newId, [⟨w, "red", s.playerSockets w⟩, ⟨username, "yellow", some sid⟩],
          createEmptyBoard, w, none, now, 0, false⟩) := by
  cases hq : s.waitingPlayers with
  | nil =>
    left
    rw [handleJoinGame_waits s sid username newId now (Or.inl hq)]
    rfl
  | cons w rest =>
    by_cases hw : w = "" ∨ w = username
    · left
      rw [handleJoinGame_waits s sid username newId now (Or.inr ⟨w, rest, hq, hw⟩)]
      rfl
    · right
      push_neg at hw
      exact ⟨w, hw.2, (handleJoinGame_pair s sid username w rest newId now hq hw.1
        (Ne.symm hw.2)).2.1⟩

theorem regInv_joinGame {s : State} (h : RegInv s) (sid : Nat) (username : String)
    (newId now : Nat) : RegInv (handleJoinGame s sid username newId now).1 := by
  rcases handleJoinGame_games s sid username newId now with hg | ⟨w, hne, hg⟩
  · exact regInv_of_same h hg
  · refine regInv_of_update h newId _ hg ?_
    intro g hgs
    simp only [Option.some.injEq] at hgs
    subst hgs
    exact gameOK_new_match newId now w username _ _ hne

theorem regInv_reconnectGame {s : State} (h : RegInv s) (sid : Nat) (username : String)
    (gameId : Nat) : RegInv (handleReconnectGame s sid username gameId).1 := by
  cases hg : s.games gameId with
  | none =>
    have : handleReconnectGame s sid username gameId =
        (s, [Out.emit (some sid) (Event.error "Game no longer exists")]) := by
      unfold handleReconnectGame; rw [hg]
    rw [this]; exact h
  | some game =>
    cases hi : game.players.findIdx? (fun p => p.username == username) with
    | none =>
      have : handleReconnectGame s sid username gameId =
          (s, [Out.emit (some sid) (Event.error "You are not part of this game")]) := by
        unfold handleReconnectGame; simp only [hg, hi]
      rw [this]; exact h
    | some i =>
      obtain ⟨c1, _⟩ := handleReconnectGame_ok s sid username gameId game i hg hi
      refine regInv_of_update h gameId _ c1 ?_
      intro g hgs
      simp only [Option.some.injEq] at hgs
      subst hgs
      exact gameOK_setSocketId (h gameId game hg) i (some sid)

theorem find_username_mem (ps : List Player) (q : Player → Bool) (p : Player)
    (h : ps.find? q = some p) : p.username ∈ ps.map (·.username) :=
  List.mem_map_of_mem _ (List.mem_of_find?_eq_some h)

theorem regInv_makeMove {s : State} (h : RegInv s) (sid gameId : Nat) (column : Int)
    (now : Nat) : RegInv (handleMakeMove s sid gameId column now).1 := by
  cases hg : s.games gameId with
  | none => rw [handleMakeMove_not_found s sid gameId column now hg]; exact h
  | some game =>
    have hok := h gameId game hg
    by_cases ht : (s.sockets sid).username = some game.currentTurn
    · cases hv : isValidMove game.board column with
      | false => rw [handleMakeMove_invalid s sid gameId column now game hg ht hv]; exact h
      | true =>
        rw [handleMakeMove_accepted s sid gameId column now game hg ht hv]
        cases he : (truthy (checkWinner (makeMove game.board column.toNat game.currentTurn).1) ||
            isBoardFull (makeMove game.board column.toNat game.currentTurn).1) with
        | true =>
          rw [acceptMove_ended s sid gameId column now game he]
          refine regInv_of_update (s := s) h gameId none ?_ (fun g hg' => by simp at hg')
          rw [endGame_games]
          simp [hok.key]
        | false =>
          refine regInv_of_update h gameId _ (acceptMove_continues s sid gameId column now game
            he).1 ?_
          intro g hgs
          simp only [Option.some.injEq] at hgs
          subst hgs
          refine gameOK_after_move hok column game.currentTurn _ hv ?_ he
          cases hf : game.players.find? (fun p => p.username != game.currentTurn) with
          | none => exact hok.turn
          | some p => exact find_username_mem _ _ p hf
    · rw [handleMakeMove_not_turn s sid gameId column now game hg ht]; exact h

theorem handleDisconnect_frame (s : State) (sid now : Nat) :
    (handleDisconnect s sid now).1.games = s.games ∧
    (handleDisconnect s sid now).1.playerSockets = s.playerSockets ∧
    (handleDisconnect s sid now).1.sockets =
      Function.update s.sockets sid { s.sockets sid with connected := false } := by
  unfold handleDisconnect
  cases hm : (s.sockets sid).matchTimeout <;> cases hgid : (s.sockets sid).gameId <;>
    cases hu : (s.sockets sid).username <;> simp [hm, hgid, hu, State.clearTimeout] <;>
    (try split) <;> (try split) <;> (try split) <;>
    simp [State.setTimeout]

theorem regInv_disconnect {s : State} (h : RegInv s) (sid now : Nat) :
    RegInv (handleDisconnect s sid now).1 :=
  regInv_of_same h (handleDisconnect_frame s sid now).1

theorem regInv_connection {s : State} (h : RegInv s) (sid : Nat) :
    RegInv (handleConnection s sid) :=
  regInv_of_same h rfl

theorem regInv_clearTimeout {s : State} (h : RegInv s) (id : Nat) :
    RegInv (s.clearTimeout id) :=
  regInv_of_same h rfl

theorem regInv_fireEscalate {s : State} (h : RegInv s) (sid : Nat) (username : String)
    (newId now : Nat) : RegInv (fireEscalate s sid username newId now).1 := by
  by_cases hm : username ∈ s.waitingPlayers
  · refine regInv_of_update h newId _ (fireEscalate_waiting s sid username newId now hm).2.1 ?_
    intro g hgs
    simp only [Option.some.injEq] at hgs
    subst hgs
    exact gameOK_bot_match newId now sid username
  · rw [fireEscalate_not_waiting s sid username newId now hm]; exact h

theorem fireForfeit_games (s : State) (sid gid0 : Nat) (opp : Option String) (now : Nat) :
    (fireForfeit s sid gid0 opp now).1.games = s.games ∨
    ∃ g : Game, (fireForfeit s sid gid0 opp now).1.games =
      Function.update s.games g.gameId none := by
  have key : ∀ r : State × List Out, (r.1.games = s.games ∨
      ∃ g : Game, r.1.games = Function.update s.games g.gameId none) →
      ((match (s.sockets sid).username with
        | some u =>
          ({ r.1 with disconnectedPlayers := Function.update r.1.disconnectedPlayers u none },
            r.2)
        | none => r).1.games = s.games ∨
       ∃ g : Game, (match (s.sockets sid).username with
        | some u =>
          ({ r.1 with disconnectedPlayers := Function.update r.1.disconnectedPlayers u none },
            r.2)
        | none => r).1.games = Function.update s.games g.gameId none) := by
    intro r hr
    cases (s.sockets sid).username <;> exact hr
  unfold fireForfeit
  apply key
  cases hgid : (s.sockets sid).gameId with
  | none => exact Or.inl rfl
  | some gid =>
    cases hg : s.games gid with
    | none => simp [hg]
    | some g =>
      simp only [hg]
      split
      · exact Or.inr ⟨g, rfl⟩
      · exact Or.inl rfl

theorem regInv_fireForfeit {s : State} (h : RegInv s) (sid gid0 : Nat) (opp : Option String)
    (now : Nat) : RegInv (fireForfeit s sid gid0 opp now).1 := by
  rcases fireForfeit_games s sid gid0 opp now with hg | ⟨g, hg⟩
  · exact regInv_of_same h hg
  · exact regInv_of_update h g.gameId none hg (fun g' hg' => by simp at hg')

theorem regInv_makeBotMove {s : State} (h : RegInv s) (gameId now : Nat)
    (r : State × List Out) (hr : makeBotMove s gameId now = some r) : RegInv r.1 := by
  cases hg : s.games gameId with
  | none =>
    unfold makeBotMove at hr
    rw [hg] at hr
    simp only [Option.some.injEq] at hr
    subst hr; exact h
  | some game =>
    have hok := h gameId game hg
    cases hf : game.players.find? (fun p => p.username != "Bot") with
    | none =>
      unfold makeBotMove at hr
      rw [hg] at hr
      simp only [hf] at hr
      exact absurd hr (by simp)
    | some human =>
      rw [makeBotMove_applied s gameId now game human hg hf, Option.some.injEq] at hr
      subst hr
      cases he : (truthy (checkWinner
          (makeMove game.board (getBotMove game.board "Bot" human.username) "Bot").1) ||
          isBoardFull (makeMove game.board (getBotMove game.board "Bot" human.username)
            "Bot").1) with
      | true =>
        rw [applyBotMove_ended s gameId now game human he]
        refine regInv_of_update (s := s) h gameId none ?_ (fun g hg' => by simp at hg')
        rw [endGame_games]
        simp [hok.key]
      | false =>
        refine regInv_of_update h gameId _ (applyBotMove_continues s gameId now game human
          he).1 ?_
        intro g hgs
        simp only [Option.some.injEq] at hgs
        subst hgs
        have hwf := (playedBoard_invariants hok.played).1
        have hv := (getBotMove_legal_board game.board "Bot" human.username hwf).1 hok.notFull
        have := gameOK_after_move hok (getBotMove game.board "Bot" human.username : Nat) "Bot"
          human.username hv (find_username_mem _ _ human hf)
          (by simpa only [Int.toNat_ofNat] using he)
        simpa only [Int.toNat_ofNat] using this

theorem regInv_fireTimer {s : State} (h : RegInv s) (t : Timer) (newId now : Nat)
    (r : State × List Out) (hr : fireTimer s t newId now = some r) : RegInv r.1 := by
  unfold fireTimer at hr
  cases hk : t.kind with
  | escalate sid username =>
    simp only [hk, Option.some.injEq] at hr
    subst hr
    exact regInv_fireEscalate (regInv_clearTimeout h t.id) sid username newId now
  | forfeit sid gid0 opp =>
    simp only [hk, Option.some.injEq] at hr
    subst hr
    exact regInv_fireForfeit (regInv_clearTimeout h t.id) sid gid0 opp now
  | botMove gid =>
    simp only [hk] at hr
    exact regInv_makeBotMove (regInv_clearTimeout h t.id) gid now r hr

theorem regInv_apply {s : State} (h : RegInv s) (e : Ev) (r : State × List Out)
    (hr : e.apply s = some r) : RegInv r.1 := by
  cases e with
  | connect sid =>
    simp only [Ev.apply, Option.some.injEq] at hr
    subst hr; exact regInv_connection h sid
  | joinGame sid username newId now =>
    simp only [Ev.apply, Option.some.injEq] at hr
    subst hr; exact regInv_joinGame h sid username newId now
  | reconnectGame sid username gameId =>
    simp only [Ev.apply, Option.some.injEq] at hr
    subst hr; exact regInv_reconnectGame h sid username gameId
  | makeMove sid gameId column now =>
    simp only [Ev.apply, Option.some.injEq] at hr
    subst hr; exact regInv_makeMove h sid gameId column now
  | disconnect sid now =>
    simp only [Ev.apply, Option.some.injEq] at hr
    subst hr; exact regInv_disconnect h sid now
  | fire t newId now =>
    exact regInv_fireTimer h t newId now r hr

/-- Every reachable state satisfies the registry invariant. -/
theorem reachable_regInv {s : State} (h : Reachable s) : RegInv s := by
  induction h with
  | init => exact regInv_init
  | step e r _ _ hr ih => exact regInv_apply ih e r hr

theorem handleJoinGame_pair_state (s : State) (sid : Nat) (username w : String)
    (rest : List String) (newId now : Nat) (hq : s.waitingPlayers = w :: rest)
    (hw : w ≠ "") (hne : username ≠ w) :
    (handleJoinGame s sid username newId now).1 =
      State.setWaitingSocketGameId (State.setSocketGameId
        { s with
          games := Function.update s.games newId (some
              ⟨newId, [⟨w, "red", s.playerSockets w⟩, ⟨username, "yellow", some sid⟩],
                createEmptyBoard, w, none, now, 0, false⟩),
          waitingPlayers := rest,
          playerSockets := Function.update s.playerSockets username (some sid),
          sockets := Function.update s.sockets sid
              { s.sockets sid with username := some username } } sid newId) w newId := by
  have ht : (truthyStr w && (w != username)) = true := by
    simp [truthyStr, hw, Ne.symm hne]
  have hps : Function.update s.playerSockets username (some sid) w = s.playerSockets w :=
    Function.update_noteq (Ne.symm hne) _ _
  unfold handleJoinGame
  simp only [hq, List.head?_cons, List.tail_cons, ht, if_true, hps]

theorem handleReconnectGame_state (s : State) (sid : Nat) (username : String) (gameId : Nat)
    (game : Game) (i : Nat) (hg : s.games gameId = some game)
    (hi : game.players.findIdx? (fun p => p.username == username) = some i) :
    (handleReconnectGame s sid username gameId).1 =
      { (s.clearDisconnection username) with
        games := Function.update (s.clearDisconnection username).games gameId
          (some { game with players := setSocketId game.players i (some sid) }),
        waitingPlayers := (s.clearDisconnection username).waitingPlayers,
        playerSockets := Function.update (s.clearDisconnection username).playerSockets username
          (some sid),
        sockets := Function.update (s.clearDisconnection username).sockets sid
          { (s.clearDisconnection username).sockets sid with
            username := some username, gameId := some gameId } } := by
  unfold handleReconnectGame
  simp only [hg, hi]
/-- The state after `disconnect`: the clean-up, and, if the socket carries a non-empty
username and the id of a match without a winner, a forfeit timer and the record. -/
theorem handleDisconnect_state (s : State) (sid now : Nat) :
    (handleDisconnect s sid now).1 = disconnectCleanup s sid ∨
    ∃ gid u opp, (s.sockets sid).username = some u ∧ u ≠ "" ∧
      (handleDisconnect s sid now).1 =
        { (State.setTimeout (disconnectCleanup s sid) now 30000
            (TimerKind.forfeit sid gid opp)).1 with
          disconnectedPlayers :=
            Function.update (disconnectCleanup s sid).disconnectedPlayers u
              (some ⟨gid, now, (disconnectCleanup s sid).nextTimer⟩) } := by
  unfold handleDisconnect disconnectCleanup
  simp only
  split
  · rename_i gid u hgid hu
    by_cases htr : truthyStr u = true
    · rw [if_pos htr]
      split
      · rename_i game hg
        by_cases hwn : game.winner = none
        · rw [if_pos hwn]
          right
          exact ⟨gid, u, _, hu, by simpa [truthyStr] using htr, rfl⟩
        · rw [if_neg hwn]; left; rfl
      · left; rfl
    · rw [if_neg htr]; left; rfl
  · left; rfl

theorem disconnectCleanup_socket (s : State) (sid : Nat) :
    ((disconnectCleanup s sid).sockets sid).connected = false ∧
    ((disconnectCleanup s sid).sockets sid).username = (s.sockets sid).username := by
  unfold disconnectCleanup
  cases (s.sockets sid).matchTimeout <;> simp [State.clearTimeout]

theorem fireEscalate_fields (s : State) (sid : Nat) (username : String) (newId now : Nat) :
    (fireEscalate s sid username newId now).1.timers = s.timers ∧
    (fireEscalate s sid username newId now).1.nextTimer = s.nextTimer ∧
    (fireEscalate s sid username newId now).1.disconnectedPlayers = s.disconnectedPlayers ∧
    (fireEscalate s sid username newId now).1.playerSockets = s.playerSockets ∧
    ((fireEscalate s sid username newId now).1.sockets = s.sockets ∨
     (fireEscalate s sid username newId now).1.sockets =
        Function.update s.sockets sid { s.sockets sid with gameId := some newId }) := by
  unfold fireEscalate
  split
  · exact ⟨rfl, rfl, rfl, rfl, Or.inr rfl⟩
  · exact ⟨rfl, rfl, rfl, rfl, Or.inl rfl⟩
/-! ### Reachability of the example states -/

theorem reachable_connect {s : State} (h : Reachable s) (sid : Nat)
    (he : (Ev.connect sid).enabled s) : Reachable (handleConnection s sid) :=
  Reachable.step (Ev.connect sid) (handleConnection s sid, []) h he rfl

theorem reachable_joinGame {s : State} (h : Reachable s) (sid : Nat) (username : String)
    (newId now : Nat) (he : (Ev.joinGame sid username newId now).enabled s) :
    Reachable (handleJoinGame s sid username newId now).1 :=
  Reachable.step (Ev.joinGame sid username newId now) _ h he rfl

theorem reachable_fireEscalate {s : State} (h : Reachable s) (id due sid : Nat)
    (username : String) (newId now : Nat)
    (he : (Ev.fire ⟨id, due, TimerKind.escalate sid username⟩ newId now).enabled s) :
    Reachable (fireEscalate (s.clearTimeout id) sid username newId now).1 :=
  Reachable.step (Ev.fire ⟨id, due, TimerKind.escalate sid username⟩ newId now) _ h he rfl

theorem reachable_aliceWaiting : Reachable aliceWaiting :=
  reachable_joinGame
    (reachable_connect (reachable_connect Reachable.init 1 (by decide)) 2 (by decide))
    1 "alice" 0 0 (by decide)

theorem reachable_aliceVsBob : Reachable aliceVsBob :=
  reachable_joinGame reachable_aliceWaiting 2 "bob" 7 5 (by decide)

theorem reachable_botNamedMatch : Reachable botNamedMatch :=
  reachable_fireEscalate
    (reachable_joinGame (reachable_connect Reachable.init 1 (by decide)) 1 "Bot" 0 0
      (by decide))
    0 10000 1 "Bot" 7 10000 (by decide)

theorem gravity_block {b : Board} (hg : Gravity b) {c : Nat} (hc : c < COLS) :
    ∃ k, k ≤ ROWS ∧ ∀ r, r < ROWS → (cell b r c ≠ none ↔ k ≤ r) := by
  classical
  by_cases h : ∃ r, r < ROWS ∧ cell b r c ≠ none
  · refine ⟨Nat.find h, (Nat.find_spec h).1.le, fun r hr =>
      ⟨fun hne => Nat.find_min' h ⟨hr, hne⟩, fun hk => ?_⟩⟩
    have step : ∀ d, Nat.find h + d < ROWS → cell b (Nat.find h + d) c ≠ none := by
      intro d
      induction d with
      | zero => intro _; exact (Nat.find_spec h).2
      | succ n ih => intro hlt; exact hg (Nat.find h + n) c (by omega) hc (ih (by omega))
    have hs := step (r - Nat.find h) (by omega)
    rwa [Nat.add_sub_cancel' hk] at hs
  · exact ⟨ROWS, le_refl _, fun r hr =>
      ⟨fun hne => absurd ⟨r, hr, hne⟩ h, fun hk => absurd (Nat.lt_of_lt_of_le hr hk)
        (Nat.lt_irrefl _)⟩⟩

/-! ### C14: the turn switch -/

/-- C14, the failing input.  Socket 1 joins as `Bot` and the escalation starts bot
match 7, a reachable state whose two participants are both called `Bot`.  The search
of the turn switch for a participant with another username finds nobody: the move of
socket 1 in column 3 is applied to the board and counted, then the handler fails
with `Move failed`, the turn stays where it was and no bot move is scheduled. -/
theorem turn_switch_fails_for_human_named_Bot :
    Reachable botNamedMatch ∧
    (botNamedMatch.games 7).map
        (fun g => (g.usernames, g.currentTurn, g.isBot, g.moves)) =
      some (["Bot", "Bot"], "Bot", true, 0) ∧
    (botNamedMatch.games 7).map
        (fun g => g.players.find? (fun p => p.username != g.currentTurn)) = some none ∧
    (handleMakeMove botNamedMatch 1 7 3 10001).2 =
      [Out.publish "game.move" 7, Out.emit (some 1) (Event.error "Move failed")] ∧
    ((handleMakeMove botNamedMatch 1 7 3 10001).1.games 7).map
        (fun g => (g.currentTurn, g.moves, cell g.board 5 3)) =
      some ("Bot", 1, some "Bot") ∧
    (handleMakeMove botNamedMatch 1 7 3 10001).1.timers = [] :=
  ⟨reachable_botNamedMatch, by decide, by decide, by decide, by decide, by decide⟩

/-! ### C20: gravity -/

/-- C20.  Gravity is an invariant of the board: the empty board satisfies it; a
`makeMove` on a column accepted by `isValidMove` preserves it on every 6x7 board;
hence on every board played in a match each column is a block of occupied cells
from some row `k` down to the bottom row 5, with only empty cells above `k`; and
the board of every match in the registry of a reachable state is such a board. -/
theorem gravity_is_board_invariant :
    Gravity createEmptyBoard ∧
    (∀ (b : Board) (column : Int) (marker : String), WF b → Gravity b →
      isValidMove b column = true → Gravity (makeMove b column.toNat marker).1) ∧
    (∀ b : Board, PlayedBoard b → Gravity b ∧ ∀ c, c < COLS →
      ∃ k, k ≤ ROWS ∧ ∀ r, r < ROWS → (cell b r c ≠ none ↔ k ≤ r)) ∧
    (∀ s : State, Reachable s → ∀ gid g, s.games gid = some g → PlayedBoard g.board) :=
  ⟨gravity_empty,
    fun _ column marker hb hg hv => (makeMove_invariants hb hg column marker hv).2.1,
    fun _ hp => ⟨(playedBoard_invariants hp).2,
      fun _ hc => gravity_block (playedBoard_invariants hp).2 hc⟩,
    fun _ hs gid g hg => (reachable_regInv hs gid g hg).played⟩

theorem gravity_is_board_invariant_witness :
    WF createEmptyBoard ∧ Gravity createEmptyBoard ∧
    isValidMove createEmptyBoard 3 = true ∧
    Gravity (makeMove createEmptyBoard (3 : Int).toNat "alice").1 :=
  ⟨by decide, gravity_empty, by decide,
    gravity_is_board_invariant.2.1 createEmptyBoard 3 "alice" (by decide) gravity_empty
      (by decide)⟩

/-! ### The move counter -/

theorem handleMakeMove_counts {s : State} {gameId : Nat} {game : Game}
    (hok : GameOK gameId game) (sid : Nat) (column : Int) (now : Nat)
    (hg : s.games gameId = some game)
    (ht : (s.sockets sid).username = some game.currentTurn)
    (hv : isValidMove game.board column = true) :
    (∃ g', (handleMakeMove s sid gameId column now).1.games =
        Function.update s.games gameId (some g') ∧
      g'.moves = game.moves + 1 ∧ filled g'.board = filled game.board + 1) ∨
    ((handleMakeMove s sid gameId column now).1.games = Function.update s.games gameId none ∧
      ∃ w d, Out.saveGame gameId w d (game.moves + 1) ∈
        (handleMakeMove s sid gameId column now).2) := by
  have hwf := playedBoard_invariants hok.played
  have hfill := (makeMove_invariants hwf.1 hwf.2 column game.currentTurn hv).2.2
  rw [handleMakeMove_accepted s sid gameId column now game hg ht hv]
  cases he : (truthy (checkWinner (makeMove game.board column.toNat game.currentTurn).1) ||
      isBoardFull (makeMove game.board column.toNat game.currentTurn).1) with
  | true =>
    right
    rw [acceptMove_ended s sid gameId column now game he]
    refine ⟨?_, checkWinner (makeMove game.board column.toNat game.currentTurn).1,
      duration now game.startTime, ?_⟩
    · rw [endGame_games]
      simp [hok.key]
    · refine List.mem_cons_of_mem _ ?_
      unfold endGame
      simp only [hok.key]
      exact List.mem_append_left _ (List.mem_cons_self _ _)
  | false =>
    left
    exact ⟨_, (acceptMove_continues s sid gameId column now game he).1, rfl, hfill⟩

theorem makeBotMove_counts {s : State} {gameId : Nat} {game : Game}
    (hok : GameOK gameId game) (now : Nat) (hg : s.games gameId = some game)
    (r : State × List Out) (hr : makeBotMove s gameId now = some r) :
    (∃ g', r.1.games = Function.update s.games gameId (some g') ∧
      g'.moves = game.moves + 1 ∧ filled g'.board = filled game.board + 1) ∨
    (r.1.games = Function.update s.games gameId none ∧
      ∃ w d, Out.saveGame gameId w d (game.moves + 1) ∈ r.2) := by
  have hwf := playedBoard_invariants hok.played
  cases hf : game.players.find? (fun p => p.username != "Bot") with
  | none =>
    unfold makeBotMove at hr
    rw [hg] at hr
    simp only [hf] at hr
    exact absurd hr (by simp)
  | some human =>
    rw [makeBotMove_applied s gameId now game human hg hf, Option.some.injEq] at hr
    subst hr
    have hv := (getBotMove_legal_board game.board "Bot" human.username hwf.1).1 hok.notFull
    have hfill := (makeMove_invariants hwf.1 hwf.2
      (getBotMove game.board "Bot" human.username : Nat) "Bot" hv).2.2
    simp only [Int.toNat_ofNat] at hfill
    cases he : (truthy (checkWinner
        (makeMove game.board (getBotMove game.board "Bot" human.username) "Bot").1) ||
        isBoardFull (makeMove game.board (getBotMove game.board "Bot" human.username)
          "Bot").1) with
    | true =>
      right
      rw [applyBotMove_ended s gameId now game human he]
      refine ⟨?_, checkWinner
        (makeMove game.board (getBotMove game.board "Bot" human.username) "Bot").1,
        duration now game.startTime, ?_⟩
      · rw [endGame_games]
        simp [hok.key]
      · refine List.mem_cons_of_mem _ ?_
        unfold endGame
        simp only [hok.key]
        exact List.mem_append_left _ (List.mem_cons_self _ _)
    | false =>
      left
      exact ⟨_, (applyBotMove_continues s gameId now game human he).1, rfl, hfill⟩

theorem entryStep_same (e : Ev) (gid : Nat) (a : Option Game) : EntryStep e gid a a := by
  cases a with
  | none => exact Or.inl rfl
  | some g => exact Or.inr (Or.inr (Or.inl ⟨g, g, rfl, rfl, rfl, rfl⟩))

theorem entryStep_of_same (e : Ev) (gid : Nat) {s s' : State} (h : s'.games = s.games) :
    EntryStep e gid (s.games gid) (s'.games gid) := by
  rw [h]; exact entryStep_same e gid _

theorem entryStep_of_update (e : Ev) (gid : Nat) {s s' : State} (k : Nat) (v : Option Game)
    (h : s'.games = Function.update s.games k v)
    (hk : gid = k → EntryStep e gid (s.games gid) v) :
    EntryStep e gid (s.games gid) (s'.games gid) := by
  rw [h]
  by_cases e1 : gid = k
  · have := hk e1
    subst e1
    simpa using this
  · rw [Function.update_noteq e1]; exact entryStep_same e gid _

theorem entryStep_makeMove {s : State} (h : RegInv s) (sid gameId : Nat) (column : Int)
    (now gid : Nat) :
    EntryStep (Ev.makeMove sid gameId column now) gid (s.games gid)
      ((handleMakeMove s sid gameId column now).1.games gid) := by
  cases hg : s.games gameId with
  | none =>
    rw [handleMakeMove_not_found s sid gameId column now hg]
    exact entryStep_same _ gid _
  | some game =>
    by_cases ht : (s.sockets sid).username = some game.currentTurn
    · cases hv : isValidMove game.board column with
      | false =>
        rw [handleMakeMove_invalid s sid gameId column now game hg ht hv]
        exact entryStep_same _ gid _
      | true =>
        rcases handleMakeMove_counts (h gameId game hg) sid column now hg ht hv with
          ⟨g', hs, hm, hf⟩ | ⟨hs, _⟩
        · refine entryStep_of_update _ gid gameId _ hs ?_
          intro e1
          subst e1
          exact Or.inr (Or.inr (Or.inr ⟨game, g', hg, rfl, rfl, hm, hf⟩))
        · exact entryStep_of_update _ gid gameId _ hs (fun _ => Or.inl rfl)
    · rw [handleMakeMove_not_turn s sid gameId column now game hg ht]
      exact entryStep_same _ gid _

theorem entryStep_fireTimer {s : State} (h : RegInv s) (t : Timer) (newId now : Nat)
    (hfresh : s.games newId = none) (r : State × List Out)
    (hr : fireTimer s t newId now = some r) (gid : Nat) :
    EntryStep (Ev.fire t newId now) gid (s.games gid) (r.1.games gid) := by
  unfold fireTimer at hr
  cases hk : t.kind with
  | escalate sid username =>
    simp only [hk, Option.some.injEq] at hr
    subst hr
    by_cases hm : username ∈ (s.clearTimeout t.id).waitingPlayers
    · refine entryStep_of_update (s := s) _ gid newId _
        (fireEscalate_waiting (s.clearTimeout t.id) sid username newId now hm).2.1 ?_
      intro e1
      subst e1
      exact Or.inr (Or.inl ⟨hfresh, _, rfl, rfl, rfl⟩)
    · rw [fireEscalate_not_waiting (s.clearTimeout t.id) sid username newId now hm]
      exact entryStep_same _ gid _
  | forfeit sid gid0 opp =>
    simp only [hk, Option.some.injEq] at hr
    subst hr
    rcases fireForfeit_games (s.clearTimeout t.id) sid gid0 opp now with hg | ⟨g, hg⟩
    · exact entryStep_of_same (s := s) _ gid hg
    · exact entryStep_of_update (s := s) _ gid g.gameId none hg (fun _ => Or.inl rfl)
  | botMove gid0 =>
    simp only [hk] at hr
    cases hg : s.games gid0 with
    | none =>
      unfold makeBotMove at hr
      have hg0 : (s.clearTimeout t.id).games gid0 = none := hg
      rw [hg0] at hr
      simp only [Option.some.injEq] at hr
      subst hr
      exact entryStep_same _ gid _
    | some game =>
      rcases makeBotMove_counts (s := s.clearTimeout t.id) (h gid0 game hg) now hg r hr with
        ⟨g', hs, hm, hf⟩ | ⟨hs, _⟩
      · refine entryStep_of_update (s := s) _ gid gid0 _ hs ?_
        intro e1
        subst e1
        exact Or.inr (Or.inr (Or.inr ⟨game, g', hg, rfl, hk, hm, hf⟩))
      · exact entryStep_of_update (s := s) _ gid gid0 _ hs (fun _ => Or.inl rfl)

/-- One event changes each registry entry in one of the four ways of `EntryStep`. -/
theorem games_step {s : State} (h : RegInv s) (e : Ev) (he : e.enabled s)
    (r : State × List Out) (hr : e.apply s = some r) (gid : Nat) :
    EntryStep e gid (s.games gid) (r.1.games gid) := by
  cases e with
  | connect sid =>
    simp only [Ev.apply, Option.some.injEq] at hr
    subst hr
    exact entryStep_same _ gid _
  | joinGame sid username newId now =>
    simp only [Ev.apply, Option.some.injEq] at hr
    subst hr
    rcases handleJoinGame_games s sid username newId now with hg | ⟨w, _, hg⟩
    · exact entryStep_of_same _ gid hg
    · refine entryStep_of_update _ gid newId _ hg ?_
      intro e1
      subst e1
      exact Or.inr (Or.inl ⟨he.2, _, rfl, rfl, rfl⟩)
  | reconnectGame sid username gameId =>
    simp only [Ev.apply, Option.some.injEq] at hr
    subst hr
    cases hg : s.games gameId with
    | none =>
      have : handleReconnectGame s sid username gameId =
          (s, [Out.emit (some sid) (Event.error "Game no longer exists")]) := by
        unfold handleReconnectGame; rw [hg]
      rw [this]; exact entryStep_same _ gid _
    | some game =>
      cases hi : game.players.findIdx? (fun p => p.username == username) with
      | none =>
        have : handleReconnectGame s sid username gameId =
            (s, [Out.emit (some sid) (Event.error "You are not part of this game")]) := by
          unfold handleReconnectGame; simp only [hg, hi]
        rw [this]; exact entryStep_same _ gid _
      | some i =>
        obtain ⟨c1, _⟩ := handleReconnectGame_ok s sid username gameId game i hg hi
        refine entryStep_of_update _ gid gameId _ c1 ?_
        intro e1
        subst e1
        exact Or.inr (Or.inr (Or.inl ⟨game, _, hg, rfl, rfl, rfl⟩))
  | makeMove sid gameId column now =>
    simp only [Ev.apply, Option.some.injEq] at hr
    subst hr
    exact entryStep_makeMove h sid gameId column now gid
  | disconnect sid now =>
    simp only [Ev.apply, Option.some.injEq] at hr
    subst hr
    exact entryStep_of_same _ gid (handleDisconnect_frame s sid now).1
  | fire t newId now =>
    exact entryStep_fireTimer h t newId now he.2.2 r hr gid


/-! ### C21: the move counter -/

/-- C21: in every state reached by handlers that each run to completion before the
next event is handled, the counter `moves` of each match in the registry
equals the number of non-empty cells of its board, and is at most 42.  One event
leaves a match that stays in the registry with the same board and counter, unless
the event is a move in that match (a `makeMove` request for it or its bot-move timer
firing), which adds one disc and one to the counter; a match that enters the registry
has an empty board and counter 0.  A `makeMove` request that passes the three guards
and a bot move that is applied each add exactly one to the counter: the match is
either still in the registry with the counter one higher, or it has completed and
was saved with the counter one higher. -/
theorem move_counter_counts_discs (s : State) (hs : Reachable s) :
    (∀ gid g, s.games gid = some g → g.moves = filled g.board ∧ g.moves ≤ 42) ∧
    (∀ (e : Ev) (r : State × List Out), e.enabled s → e.apply s = some r →
      ∀ gid g', r.1.games gid = some g' →
        (s.games gid = none ∧ g'.moves = 0 ∧ g'.board = createEmptyBoard) ∨
        (∃ g, s.games gid = some g ∧ g'.moves = g.moves ∧ g'.board = g.board) ∨
        (∃ g, s.games gid = some g ∧ e.movesIn gid ∧ g'.moves = g.moves + 1 ∧
          filled g'.board = filled g.board + 1)) ∧
    (∀ (sid gameId : Nat) (column : Int) (now : Nat) (game : Game),
      s.games gameId = some game → (s.sockets sid).username = some game.currentTurn →
      isValidMove game.board column = true →
        (∃ g', (handleMakeMove s sid gameId column now).1.games gameId = some g' ∧
          g'.moves = game.moves + 1 ∧ filled g'.board = filled game.board + 1) ∨
        ((handleMakeMove s sid gameId column now).1.games gameId = none ∧
          ∃ w d, Out.saveGame gameId w d (game.moves + 1) ∈
            (handleMakeMove s sid gameId column now).2)) ∧
    (∀ (gameId now : Nat) (game : Game) (r : State × List Out),
      s.games gameId = some game → makeBotMove s gameId now = some r →
        (∃ g', r.1.games gameId = some g' ∧
          g'.moves = game.moves + 1 ∧ filled g'.board = filled game.board + 1) ∨
        (r.1.games gameId = none ∧
          ∃ w d, Out.saveGame gameId w d (game.moves + 1) ∈ r.2)) := by
  have hinv := reachable_regInv hs
  refine ⟨?_, ?_, ?_, ?_⟩
  · intro gid g hg
    have hc := (hinv gid g hg).count
    exact ⟨hc, hc ▸ filled_le g.board⟩
  · intro e r he hr gid g' hg'
    rcases games_step hinv e he r hr gid with h1 | ⟨ha, g1, h1, hm, hb⟩ |
      ⟨g, g1, ha, h1, hm, hb⟩ | ⟨g, g1, ha, h1, hmv, hm, hb⟩
    · rw [hg'] at h1; exact absurd h1 (by simp)
    · rw [hg', Option.some.injEq] at h1
      subst h1
      exact Or.inl ⟨ha, hm, hb⟩
    · rw [hg', Option.some.injEq] at h1
      subst h1
      exact Or.inr (Or.inl ⟨g, ha, hm, hb⟩)
    · rw [hg', Option.some.injEq] at h1
      subst h1
      exact Or.inr (Or.inr ⟨g, ha, hmv, hm, hb⟩)
  · intro sid gameId column now game hg ht hv
    rcases handleMakeMove_counts (hinv gameId game hg) sid column now hg ht hv with
      ⟨g', h1, hm, hf⟩ | ⟨h1, hw⟩
    · exact Or.inl ⟨g', by rw [h1, Function.update_same], hm, hf⟩
    · exact Or.inr ⟨by rw [h1, Function.update_same], hw⟩
  · intro gameId now game r hg hr
    rcases makeBotMove_counts (hinv gameId game hg) now hg r hr with
      ⟨g', h1, hm, hf⟩ | ⟨h1, hw⟩
    · exact Or.inl ⟨g', by rw [h1, Function.update_same], hm, hf⟩
    · exact Or.inr ⟨by rw [h1, Function.update_same], hw⟩

/-- Witness for C21: in match 7 between alice and bob, with no move made, the counter
is 0 = the number of discs, and after alice's move in column 3 the match is still
in the registry with counter 1. -/
theorem move_counter_counts_discs_witness :
    Reachable aliceVsBob ∧
    (aliceVsBob.games 7).map (·.moves) = some 0 ∧
    (∀ gid g, aliceVsBob.games gid = some g → g.moves = filled g.board ∧ g.moves ≤ 42) ∧
    ((handleMakeMove aliceVsBob 1 7 3 100).1.games 7).map (·.moves) = some 1 :=
  ⟨reachable_aliceVsBob, by decide,
    (move_counter_counts_discs aliceVsBob reachable_aliceVsBob).1, by decide⟩


/-! ### Runs of the interleaved server -/

/-- A run of enabled steps from a reachable server ends in a reachable server. -/
theorem reach_runSteps (run : List Step) :
    ∀ (sv sv' : Srv), Reach sv → runSteps sv run = some sv' → Reach sv' := by
  induction run with
  | nil =>
    intro sv sv' h hr
    simp only [runSteps, Option.some.injEq] at hr
    subst hr; exact h
  | cons e rest ih =>
    intro sv sv' h hr
    simp only [runSteps] at hr
    split at hr
    · rename_i he
      cases ha : e.apply sv with
      | none => rw [ha] at hr; exact absurd hr (by simp)
      | some r =>
        rw [ha] at hr
        exact ih r.1 sv' (Reach.step e r h he ha) hr
    · exact absurd hr (by simp)

/-- What is observed at the end of a run from start-up holds of a reachable server. -/
theorem reach_of_run {α : Type} (run : List Step) (f : Srv → α) (v : α)
    (h : (runSteps Srv.init run).map f = some v) :
    ∃ sv, Reach sv ∧ runSteps Srv.init run = some sv ∧ f sv = v := by
  cases hr : runSteps Srv.init run with
  | none => rw [hr] at h; exact absurd h (by simp)
  | some sv =>
    rw [hr] at h
    simp only [Option.map_some', Option.some.injEq] at h
    exact ⟨sv, reach_runSteps run Srv.init sv Reach.init hr, rfl, h⟩

/-- An observation evaluated on a run holds of the server the run ends in. -/
theorem run_obs {α : Type} {run : List Step} {sv : Srv}
    (hr : runSteps Srv.init run = some sv) (f : Srv → α) (v : α)
    (h : (runSteps Srv.init run).map f = some v) : f sv = v := by
  rw [hr] at h
  simpa using h

/-! ### C6: two requests of the same sender -/

/-- C6, the failing input.  Alice and bob play match 7 and it is alice's turn.  Alice
sends `makeMove` for column 3 twice, and the second request arrives while the first
handler waits at `sendGameEvent`: both pass the turn guard and both discs are
dropped and counted.  The first handler then gives the turn to bob and the second
gives it back: after the second accepted move, which does not end the match, the
turn is with alice, who has just moved. -/
theorem second_request_before_turn_switch :
    ∃ sv, Reach sv ∧ runSteps Srv.init turnRaceRun = some sv ∧
      (sv.base.games 7).map (fun g => (g.usernames, g.currentTurn, g.moves, g.winner)) =
        some (["alice", "bob"], "alice", 2, none) ∧
      (sv.base.games 7).map (fun g => (cell g.board 5 3, cell g.board 4 3)) =
        some (some "alice", some "alice") ∧
      sv.tasks = [] := by
  obtain ⟨sv, hreach, hrun, _⟩ := reach_of_run turnRaceRun (fun _ => ()) () (by decide)
  exact ⟨sv, hreach, hrun,
    run_obs hrun
      (fun sv => (sv.base.games 7).map
        (fun g => (g.usernames, g.currentTurn, g.moves, g.winner))) _ (by decide),
    run_obs hrun
      (fun sv => (sv.base.games 7).map (fun g => (cell g.board 5 3, cell g.board 4 3))) _
      (by decide),
    run_obs hrun (fun sv => sv.tasks) _ (by decide)⟩

/-! ### C10: a reconnection and two forfeit timers -/

/-- C10, the failing input.  Alice reconnects to match 7 on socket 3 while socket 1
is open; sockets 1 and 3 disconnect at times 100 and 200, and alice reconnects on
socket 4.  The reconnection succeeds: alice's record is removed, her participant
entry holds socket 4, and the timer that the record named is cleared.  The forfeit
timer of socket 1 is still pending, and when it fires at time 30100 `endGame` is
started for match 7 with winner bob. -/
theorem reconnect_leaves_older_forfeit_timer :
    ∃ sv, Reach sv ∧ runSteps Srv.init reconnectRun = some sv ∧
      sv.base.disconnectedPlayers "alice" = none ∧
      (sv.base.games 7).map (fun g => (g.players.map (·.socketId), g.winner)) =
        some ([some 4, some 2], none) ∧
      (sv.base.sockets 4).connected = true ∧
      sv.base.timers = [staleForfeitTimer] ∧
      (Step.fire staleForfeitTimer 9 30100).enabled sv ∧
      ((Step.fire staleForfeitTimer 9 30100).apply sv).map
          (fun r => (r.2.filter Out.isSaveGame, (r.1.base.games 7).map (·.winner))) =
        some ([Out.saveGame 7 (some "bob") 30 0], some (some "bob")) := by
  obtain ⟨sv, hreach, hrun, _⟩ := reach_of_run reconnectRun (fun _ => ()) () (by decide)
  exact ⟨sv, hreach, hrun,
    run_obs hrun (fun sv => sv.base.disconnectedPlayers "alice") _ (by decide),
    run_obs hrun
      (fun sv => (sv.base.games 7).map (fun g => (g.players.map (·.socketId), g.winner))) _
      (by decide),
    run_obs hrun (fun sv => (sv.base.sockets 4).connected) _ (by decide),
    run_obs hrun (fun sv => sv.base.timers) _ (by decide),
    of_decide_eq_true (run_obs hrun
      (fun sv => decide ((Step.fire staleForfeitTimer 9 30100).enabled sv)) true (by decide)),
    run_obs hrun
      (fun sv => ((Step.fire staleForfeitTimer 9 30100).apply sv).map
        (fun r => (r.2.filter Out.isSaveGame, (r.1.base.games 7).map (·.winner)))) _
      (by decide)⟩

/-! ### C11: a forfeit timer on a socket that has been rebound -/

/-- C11, the failing input.  Alice (socket 1) is matched with bob in match 7 and
disconnects; an escalation timer of an earlier join of socket 1 then starts bot
match 9 on that socket, so `socket.gameId` is 9.  Match 7 is in the registry with no
outcome and alice's record names it; when her forfeit timer fires at time 30100,
`endGame` is started for match 9 with winner bob, who is not a participant of it,
and match 7 is left as it was. -/
theorem forfeit_timer_completes_other_match :
    ∃ sv, Reach sv ∧ runSteps Srv.init reboundSocketRun = some sv ∧
      sv.base.disconnectedPlayers "alice" = some ⟨7, 100, 2⟩ ∧
      (sv.base.sockets 1).gameId = some 9 ∧
      (sv.base.games 7).map (fun g => (g.usernames, g.winner)) =
        some (["alice", "bob"], none) ∧
      (sv.base.games 9).map (fun g => (g.usernames, g.winner)) =
        some (["alice", "Bot"], none) ∧
      (Step.fire reboundForfeitTimer 10 30100).enabled sv ∧
      ((Step.fire reboundForfeitTimer 10 30100).apply sv).map
          (fun r => (r.2.filter Out.isSaveGame, r.1.tasks)) =
        some ([Out.saveGame 9 (some "bob") 20 0],
          [Task.endRest 9 (some "bob") (some "forfeit") 20]) ∧
      ((Step.fire reboundForfeitTimer 10 30100).apply sv).map
          (fun r => ((r.1.base.games 7).map (·.winner), (r.1.base.games 9).map (·.winner),
            r.1.base.disconnectedPlayers "alice")) =
        some (some none, some (some "bob"), none) := by
  obtain ⟨sv, hreach, hrun, _⟩ := reach_of_run reboundSocketRun (fun _ => ()) () (by decide)
  exact ⟨sv, hreach, hrun,
    run_obs hrun (fun sv => sv.base.disconnectedPlayers "alice") _ (by decide),
    run_obs hrun (fun sv => (sv.base.sockets 1).gameId) _ (by decide),
    run_obs hrun (fun sv => (sv.base.games 7).map (fun g => (g.usernames, g.winner))) _
      (by decide),
    run_obs hrun (fun sv => (sv.base.games 9).map (fun g => (g.usernames, g.winner))) _
      (by decide),
    of_decide_eq_true (run_obs hrun
      (fun sv => decide ((Step.fire reboundForfeitTimer 10 30100).enabled sv)) true
      (by decide)),
    run_obs hrun
      (fun sv => ((Step.fire reboundForfeitTimer 10 30100).apply sv).map
        (fun r => (r.2.filter Out.isSaveGame, r.1.tasks))) _ (by decide),
    run_obs hrun
      (fun sv => ((Step.fire reboundForfeitTimer 10 30100).apply sv).map
        (fun r => ((r.1.base.games 7).map (·.winner), (r.1.base.games 9).map (·.winner),
          r.1.base.disconnectedPlayers "alice"))) _ (by decide)⟩

/-! ### C22: a bot move while `endGame` waits -/

/-- C22, the failing input.  In bot match 7 alice's move has scheduled the bot move
for time 41001; the forfeit timer of her old socket fires at time 41000 and
`endGame` sets the outcome `Bot` and waits for the database, with the match still in
`games`.  The bot-move timer fires at time 41001: `games.has` is true, so the bot's
disc is dropped on the board of the completed match, the counter goes from 1 to 2
and the turn passes from `Bot` to alice. -/
theorem bot_move_applied_to_completed_match :
    ∃ sv, Reach sv ∧ runSteps Srv.init botRaceRun = some sv ∧
      (sv.base.games 7).map (fun g => (g.winner, g.moves, g.currentTurn)) =
        some (some "Bot", 1, "Bot") ∧
      (sv.base.games 7).map (fun g => (cell g.board 5 3, cell g.board 4 3)) =
        some (some "alice", none) ∧
      sv.tasks = [Task.endRest 7 (some "Bot") (some "forfeit") 31] ∧
      (Step.fire raceBotTimer 9 41001).enabled sv ∧
      ((Step.fire raceBotTimer 9 41001).apply sv).map
          (fun r => (r.1.base.games 7).map (fun g => (g.winner, g.moves, g.currentTurn))) =
        some (some (some "Bot", 2, "alice")) ∧
      ((Step.fire raceBotTimer 9 41001).apply sv).map
          (fun r => (r.1.base.games 7).map (fun g => (cell g.board 5 3, cell g.board 4 3))) =
        some (some (some "alice", some "Bot")) := by
  obtain ⟨sv, hreach, hrun, _⟩ := reach_of_run botRaceRun (fun _ => ()) () (by decide)
  exact ⟨sv, hreach, hrun,
    run_obs hrun
      (fun sv => (sv.base.games 7).map (fun g => (g.winner, g.moves, g.currentTurn))) _
      (by decide),
    run_obs hrun
      (fun sv => (sv.base.games 7).map (fun g => (cell g.board 5 3, cell g.board 4 3))) _
      (by decide),
    run_obs hrun (fun sv => sv.tasks) _ (by decide),
    of_decide_eq_true (run_obs hrun
      (fun sv => decide ((Step.fire raceBotTimer 9 41001).enabled sv)) true (by decide)),
    run_obs hrun
      (fun sv => ((Step.fire raceBotTimer 9 41001).apply sv).map
        (fun r => (r.1.base.games 7).map (fun g => (g.winner, g.moves, g.currentTurn)))) _
      (by decide),
    run_obs hrun
      (fun sv => ((Step.fire raceBotTimer 9 41001).apply sv).map
        (fun r => (r.1.base.games 7).map
          (fun g => (cell g.board 5 3, cell g.board 4 3)))) _ (by decide)⟩

/-! ### The shape of registry entries under interleaving -/

theorem matchShape_of_gameOK {gid : Nat} {g : Game} (h : GameOK gid g) : MatchShape gid g :=
  ⟨h.key, h.two⟩

theorem regShape_of_same {s s' : State} (h : RegShape s) (hs : s'.games = s.games) :
    RegShape s' := by
  intro gid g hg
  rw [hs] at hg
  exact h gid g hg

theorem regShape_of_update {s s' : State} (h : RegShape s) (k : Nat) (v : Option Game)
    (hs : s'.games = Function.update s.games k v) (hv : ∀ g, v = some g → MatchShape k g) :
    RegShape s' := by
  intro gid g hg
  rw [hs] at hg
  by_cases e : gid = k
  · subst e
    rw [Function.update_same] at hg
    exact hv g hg
  · rw [Function.update_noteq e] at hg
    exact h gid g hg

theorem regShape_joinGame {s : State} (h : RegShape s) (sid : Nat) (username : String)
    (newId now : Nat) : RegShape (handleJoinGame s sid username newId now).1 := by
  rcases handleJoinGame_games s sid username newId now with hg | ⟨w, hne, hg⟩
  · exact regShape_of_same h hg
  · refine regShape_of_update h newId _ hg ?_
    intro g hgs
    simp only [Option.some.injEq] at hgs
    subst hgs
    exact matchShape_of_gameOK (gameOK_new_match newId now w username _ _ hne)

theorem matchShape_setSocketId {gid : Nat} {g : Game} (h : MatchShape gid g) (i : Nat)
    (v : Option Nat) : MatchShape gid { g with players := setSocketId g.players i v } where
  key := h.key
  two := by
    obtain ⟨p0, p1, hp, hb0, hb1⟩ := h.two
    obtain ⟨q0, q1, hq, e0, e1⟩ := setSocketId_pair p0 p1 i v
    refine ⟨q0, q1, by simp only [hp, hq], ?_, ?_⟩
    · intro hb; rw [e0, e1]; exact hb0 hb
    · intro hb; rw [e1]; exact hb1 hb

theorem regShape_reconnectGame {s : State} (h : RegShape s) (sid : Nat) (username : String)
    (gameId : Nat) : RegShape (handleReconnectGame s sid username gameId).1 := by
  cases hg : s.games gameId with
  | none =>
    have : handleReconnectGame s sid username gameId =
        (s, [Out.emit (some sid) (Event.error "Game no longer exists")]) := by
      unfold handleReconnectGame; rw [hg]
    rw [this]; exact h
  | some game =>
    cases hi : game.players.findIdx? (fun p => p.username == username) with
    | none =>
      have : handleReconnectGame s sid username gameId =
          (s, [Out.emit (some sid) (Event.error "You are not part of this game")]) := by
        unfold handleReconnectGame; simp only [hg, hi]
      rw [this]; exact h
    | some i =>
      obtain ⟨c1, _⟩ := handleReconnectGame_ok s sid username gameId game i hg hi
      refine regShape_of_update h gameId _ c1 ?_
      intro g hgs
      simp only [Option.some.injEq] at hgs
      subst hgs
      exact matchShape_setSocketId (h gameId game hg) i (some sid)

theorem regShape_fireEscalate {s : State} (h : RegShape s) (sid : Nat) (username : String)
    (newId now : Nat) : RegShape (fireEscalate s sid username newId now).1 := by
  by_cases hm : username ∈ s.waitingPlayers
  · refine regShape_of_update h newId _ (fireEscalate_waiting s sid username newId now hm).2.1 ?_
    intro g hgs
    simp only [Option.some.injEq] at hgs
    subst hgs
    exact matchShape_of_gameOK (gameOK_bot_match newId now sid username)
  · rw [fireEscalate_not_waiting s sid username newId now hm]; exact h

/-- Writing to the match object `gameId` keeps the shape of the registry when the
new value has the shape of the registry entry it replaces. -/
theorem regShape_setObj {sv : Srv} (h : RegShape sv.base) (gameId : Nat) (g' : Game)
    (hg : ∀ g0, sv.base.games gameId = some g0 → MatchShape gameId g') :
    RegShape (sv.setObj gameId g').base := by
  unfold Srv.setObj
  cases h0 : sv.base.games gameId with
  | none => exact h
  | some g0 =>
    exact regShape_of_update (s := sv.base) h gameId (some g') rfl
      (fun g e => by simp only [Option.some.injEq] at e; subst e; exact hg g0 h0)

theorem setObj_games_isSome (sv : Srv) (gameId : Nat) (g' : Game) (k : Nat) :
    ((sv.setObj gameId g').base.games k).isSome = (sv.base.games k).isSome := by
  unfold Srv.setObj
  cases h0 : sv.base.games gameId with
  | none => rfl
  | some g0 =>
    by_cases e : k = gameId
    · subst e; simp [h0]
    · simp [Function.update_noteq e]

theorem obj_of_games {sv : Srv} {gameId : Nat} {g : Game} (h : sv.base.games gameId = some g) :
    sv.obj gameId = some g := by
  unfold Srv.obj; rw [h]

theorem regShape_deleteGame {sv : Srv} (h : RegShape sv.base) (gameId : Nat) :
    RegShape (sv.deleteGame gameId).base := by
  unfold Srv.deleteGame
  cases h0 : sv.base.games gameId with
  | none => exact h
  | some g0 =>
    exact regShape_of_update (s := sv.base) h gameId none rfl (fun g e => by simp at e)

theorem regShape_endGameStart {sv : Srv} (h : RegShape sv.base) (gameId : Nat) (game : Game)
    (winner reason : Option String) (now : Nat)
    (hg : ∀ g0, sv.base.games gameId = some g0 → MatchShape gameId game) :
    RegShape (endGameStart sv gameId game winner reason now).1.base := by
  unfold endGameStart
  exact regShape_setObj h gameId _ (fun g0 h0 => ⟨(hg g0 h0).key, (hg g0 h0).two⟩)

theorem regShape_endGameRest {sv : Srv} (h : RegShape sv.base) (gameId : Nat)
    (winner reason : Option String) (d : Nat) (dbOk : Bool) :
    RegShape (endGameRest sv gameId winner reason d dbOk).1.base := by
  unfold endGameRest
  cases sv.obj gameId with
  | none => exact h
  | some game => exact regShape_deleteGame h game.gameId

theorem regShape_makeMoveStart {sv : Srv} (h : RegShape sv.base) (sid gameId : Nat)
    (column : Int) : RegShape (makeMoveStart sv sid gameId column).1.base := by
  unfold makeMoveStart
  cases hg : sv.base.games gameId with
  | none => exact h
  | some game =>
    simp only
    split
    · exact h
    · split
      · exact h
      · exact regShape_setObj h gameId _
          (fun g0 _ => ⟨(h gameId game hg).key, (h gameId game hg).two⟩)

/-- The object with id `gameId`, when the registry has an entry under that id, is
that entry. -/
theorem shape_of_obj {sv : Srv} (h : RegShape sv.base) {gameId : Nat} {game : Game}
    (ho : sv.obj gameId = some game) :
    ∀ g0, sv.base.games gameId = some g0 → MatchShape gameId game := by
  intro g0 h0
  rw [obj_of_games h0, Option.some.injEq] at ho
  subst ho
  exact h gameId g0 h0

theorem regShape_makeMoveRest {sv : Srv} (h : RegShape sv.base) (sid gameId now : Nat) :
    RegShape (makeMoveRest sv sid gameId now).1.base := by
  unfold makeMoveRest
  cases ho : sv.obj gameId with
  | none => exact h
  | some game =>
    have hs := shape_of_obj h ho
    simp only
    split
    · exact regShape_endGameStart h gameId game _ _ now hs
    · split
      · exact h
      · have h2 := regShape_setObj h gameId
          { game with currentTurn := (‹Player› : Player).username }
          (fun g0 h0 => ⟨(hs g0 h0).key, (hs g0 h0).two⟩)
        split
        · exact h2
        · exact h2

theorem regShape_forfeitCallback {sv : Srv} (h : RegShape sv.base) (sid gameId0 : Nat)
    (opponent : Option String) (now : Nat) :
    RegShape (forfeitCallback sv sid gameId0 opponent now).1.base := by
  have key : ∀ r : Srv × List Out, RegShape r.1.base →
      RegShape ((match (sv.base.sockets sid).username with
        | some u =>
          ({ r.1 with base := { r.1.base with
              disconnectedPlayers := Function.update r.1.base.disconnectedPlayers u none } },
            r.2)
        | none => r).1.base) := by
    intro r hr
    cases (sv.base.sockets sid).username
    · exact hr
    · exact regShape_of_same hr rfl
  unfold forfeitCallback
  apply key
  cases hgid : (sv.base.sockets sid).gameId with
  | none => exact h
  | some gid =>
    cases hg : sv.base.games gid with
    | none => simpa only [hg] using h
    | some g =>
      simp only [hg]
      split
      · exact regShape_endGameStart h gid g _ _ now (fun g0 h0 => by
          rw [hg, Option.some.injEq] at h0
          subst h0
          exact h gid g hg)
      · exact h

theorem regShape_botMoveCallback {sv : Srv} (h : RegShape sv.base) (gameId now : Nat)
    (r : Srv × List Out) (hr : botMoveCallback sv gameId now = some r) :
    RegShape r.1.base := by
  unfold botMoveCallback at hr
  cases ho : sv.obj gameId with
  | none =>
    rw [ho] at hr
    simp only [Option.some.injEq] at hr
    subst hr; exact h
  | some game =>
    have hs := shape_of_obj h ho
    rw [ho] at hr
    simp only at hr
    split at hr
    · simp only [Option.some.injEq] at hr
      subst hr; exact h
    · split at hr
      · exact absurd hr (by simp)
      · rename_i human _
        have h1 : RegShape (sv.setObj gameId
            { game with
              board := (makeMove game.board (getBotMove game.board "Bot" human.username)
                "Bot").1,
              moves := game.moves + 1 }).base :=
          regShape_setObj h gameId _ (fun g0 h0 => ⟨(hs g0 h0).key, (hs g0 h0).two⟩)
        have hsome : ∀ g1, (sv.setObj gameId
            { game with
              board := (makeMove game.board (getBotMove game.board "Bot" human.username)
                "Bot").1,
              moves := game.moves + 1 }).base.games gameId = some g1 →
            ∃ g0, sv.base.games gameId = some g0 := by
          intro g1 e1
          have := setObj_games_isSome sv gameId
            { game with
              board := (makeMove game.board (getBotMove game.board "Bot" human.username)
                "Bot").1,
              moves := game.moves + 1 } gameId
          rw [e1] at this
          exact Option.isSome_iff_exists.1 this.symm
        split at hr
        · simp only [Option.some.injEq] at hr
          subst hr
          refine regShape_endGameStart h1 gameId _ _ _ now ?_
          intro g1 e1
          obtain ⟨g0, h0⟩ := hsome g1 e1
          exact ⟨(hs g0 h0).key, (hs g0 h0).two⟩
        · simp only [Option.some.injEq] at hr
          subst hr
          refine regShape_setObj h1 gameId _ ?_
          intro g1 e1
          obtain ⟨g0, h0⟩ := hsome g1 e1
          exact ⟨(hs g0 h0).key, (hs g0 h0).two⟩

theorem regShape_fireTimerSrv {sv : Srv} (h : RegShape sv.base) (t : Timer) (newId now : Nat)
    (r : Srv × List Out) (hr : fireTimerSrv sv t newId now = some r) : RegShape r.1.base := by
  have h0 : RegShape ({ sv with base := sv.base.clearTimeout t.id } : Srv).base :=
    regShape_of_same h rfl
  unfold fireTimerSrv at hr
  cases hk : t.kind with
  | escalate sid username =>
    simp only [hk, Option.some.injEq] at hr
    subst hr
    exact regShape_fireEscalate h0 sid username newId now
  | forfeit sid gid0 opp =>
    simp only [hk, Option.some.injEq] at hr
    subst hr
    exact regShape_forfeitCallback h0 sid gid0 opp now
  | botMove gid =>
    simp only [hk] at hr
    exact regShape_botMoveCallback h0 gid now r hr

theorem regShape_apply {sv : Srv} (h : RegShape sv.base) (e : Step) (r : Srv × List Out)
    (hr : e.apply sv = some r) : RegShape r.1.base := by
  cases e with
  | connect sid =>
    simp only [Step.apply, Option.some.injEq] at hr
    subst hr; exact regShape_of_same h rfl
  | joinGame sid username =>
    simp only [Step.apply, Option.some.injEq] at hr
    subst hr; exact h
  | joinResume sid username newId now =>
    simp only [Step.apply, Option.some.injEq] at hr
    subst hr
    exact regShape_joinGame (s := sv.base) h sid username newId now
  | reconnectGame sid username gameId =>
    simp only [Step.apply, Option.some.injEq] at hr
    subst hr; exact regShape_reconnectGame h sid username gameId
  | makeMove sid gameId column =>
    simp only [Step.apply, Option.some.injEq] at hr
    subst hr; exact regShape_makeMoveStart h sid gameId column
  | moveResume sid gameId now =>
    simp only [Step.apply, Option.some.injEq] at hr
    subst hr
    exact regShape_makeMoveRest
      (show RegShape ({ sv with tasks := sv.tasks.erase (Task.moveRest sid gameId) } :
        Srv).base from h) sid gameId now
  | endResume gameId winner reason d dbOk =>
    simp only [Step.apply, Option.some.injEq] at hr
    subst hr
    exact regShape_endGameRest
      (show RegShape ({ sv with tasks := sv.tasks.erase (Task.endRest gameId winner reason d) } :
        Srv).base from h) gameId winner reason d dbOk
  | disconnect sid now =>
    simp only [Step.apply, Option.some.injEq] at hr
    subst hr
    exact regShape_of_same h (handleDisconnect_frame sv.base sid now).1
  | fire t newId now =>
    exact regShape_fireTimerSrv h t newId now r hr

/-- Every registry entry of a reachable server has the shape of a match. -/
theorem reach_regShape {sv : Srv} (h : Reach sv) : RegShape sv.base := by
  induction h with
  | init => intro gid g hg; simp [Srv.init, State.init] at hg
  | step e r _ _ hr ih => exact regShape_apply ih e r hr

/-! ### Timers, sockets and records under interleaving -/

theorem frame_refl (s : State) : Frame s s :=
  ⟨le_refl _, fun _ ht => Or.inl ht, fun _ u hc hu => ⟨hc, u, hu⟩, fun _ _ h => h⟩

theorem frame_trans {s s' s'' : State} (f : Frame s s') (g : Frame s' s'') : Frame s s'' where
  next := le_trans f.next g.next
  timers := by
    intro t ht
    rcases g.timers t ht with h1 | ⟨h1, h2, h3⟩
    · rcases f.timers t h1 with h4 | ⟨h4, h5, h6⟩
      · exact Or.inl h4
      · exact Or.inr ⟨h4, lt_of_lt_of_le h5 g.next, h6⟩
    · exact Or.inr ⟨le_trans f.next h1, h2, h3⟩
  sockets := by
    intro x u hc hu
    obtain ⟨c1, u1, hu1⟩ := f.sockets x u hc hu
    exact g.sockets x u1 c1 hu1
  records := fun u info h => f.records u info (g.records u info h)

/-- A frame step keeps the record invariant. -/
theorem recordInv_frame {s s' : State} (h : RecordInv s) (f : Frame s s') : RecordInv s' where
  below := by
    intro t ht
    rcases f.timers t ht with h1 | ⟨_, h2, _⟩
    · exact lt_of_lt_of_le (h.below t h1) f.next
    · exact h2
  forfeit := by
    intro t ht sid gid opp hk
    rcases f.timers t ht with h1 | ⟨_, _, h3⟩
    · obtain ⟨c, u, hu⟩ := h.forfeit t h1 sid gid opp hk
      exact f.sockets sid u c hu
    · exact absurd hk (h3 sid gid opp)
  record := by
    intro u info hr
    obtain ⟨hne, hlt, hall⟩ := h.record u info (f.records u info hr)
    refine ⟨hne, lt_of_lt_of_le hlt f.next, ?_⟩
    intro t ht hid
    rcases f.timers t ht with h1 | ⟨h1, _, _⟩
    · exact hall t h1 hid
    · rw [hid] at h1
      exact absurd hlt (not_lt.2 h1)

/-- A step that leaves timers, counter and records alone and keeps disconnected
sockets is a frame step. -/
theorem frame_of_aux {s s' : State} (ht : s'.timers = s.timers)
    (hn : s'.nextTimer = s.nextTimer)
    (hr : s'.disconnectedPlayers = s.disconnectedPlayers)
    (hs : ∀ x u, (s.sockets x).connected = false → (s.sockets x).username = some u →
      (s'.sockets x).connected = false ∧ ∃ u', (s'.sockets x).username = some u') :
    Frame s s' :=
  ⟨by rw [hn], fun t h => Or.inl (ht ▸ h), hs, fun u info h => hr ▸ h⟩

theorem sockets_update_keeps (sockets : Nat → Sock) (sid : Nat) (k : Sock)
    (hc : (sockets sid).connected = false → k.connected = false)
    (hu : ∀ u, (sockets sid).connected = false → (sockets sid).username = some u →
      ∃ u', k.username = some u') :
    ∀ x u, (sockets x).connected = false → (sockets x).username = some u →
      ((Function.update sockets sid k) x).connected = false ∧
      ∃ u', ((Function.update sockets sid k) x).username = some u' := by
  intro x u hcx hux
  by_cases e : x = sid
  · subst e
    rw [Function.update_same]
    exact ⟨hc hcx, hu u hcx hux⟩
  · rw [Function.update_noteq e]
    exact ⟨hcx, u, hux⟩

theorem frame_connection (s : State) (sid : Nat)
    (hp : s.sockets sid = ⟨none, none, none, false⟩) : Frame s (handleConnection s sid) :=
  frame_of_aux rfl rfl rfl (by
    intro x u hc hu
    by_cases e : x = sid
    · subst e; rw [hp] at hu; simp at hu
    · simp only [handleConnection, Function.update_noteq e]
      exact ⟨hc, u, hu⟩)

theorem frame_clearTimeout (s : State) (id : Nat) : Frame s (s.clearTimeout id) :=
  ⟨le_refl _, fun t ht => Or.inl ((mem_clearTimeout s id t).1 ht).1,
    fun _ u hc hu => ⟨hc, u, hu⟩, fun _ _ h => h⟩

theorem frame_setSocketGameId (s : State) (sid gameId : Nat) :
    Frame s (s.setSocketGameId sid gameId) :=
  frame_of_aux rfl rfl rfl
    (sockets_update_keeps s.sockets sid _ (fun h => h) (fun u _ h => ⟨u, h⟩))

theorem frame_setWaitingSocketGameId (s : State) (w : String) (gameId : Nat) :
    Frame s (s.setWaitingSocketGameId w gameId) := by
  unfold State.setWaitingSocketGameId
  cases s.playerSockets w with
  | none => exact frame_refl s
  | some wsid =>
    simp only
    split
    · exact frame_setSocketGameId s wsid gameId
    · exact frame_refl s

theorem frame_joinWaiting (s : State) (sid : Nat) (username : String) (now : Nat) :
    Frame s (joinWaiting s sid username now).1 := by
  obtain ⟨_, _, j3, j4, j5, _, j7, _⟩ := joinWaiting_spec s sid username now
  refine ⟨by rw [j4]; exact Nat.le_succ _, ?_, ?_, fun u info h => j5 ▸ h⟩
  · intro t ht
    rw [j3, List.mem_append, List.mem_singleton] at ht
    rcases ht with h1 | h1
    · exact Or.inl h1
    · subst h1
      exact Or.inr ⟨le_refl _, by rw [j4]; exact Nat.lt_succ_self _,
        fun _ _ _ e => by simp at e⟩
  · rw [j7]
    exact sockets_update_keeps s.sockets sid _ (fun h => h) (fun u _ h => ⟨u, h⟩)

/-- The first statements of the `joinGame` body: the socket gets its username. -/
theorem frame_identify (s : State) (sid : Nat) (username : String)
    (games : Nat → Option Game) (q : List String) (ps : String → Option Nat) :
    Frame s { s with games := games, waitingPlayers := q, playerSockets := ps,
                     sockets := Function.update s.sockets sid
                       { s.sockets sid with username := some username } } :=
  frame_of_aux rfl rfl rfl
    (sockets_update_keeps s.sockets sid _ (fun h => h) (fun _ _ _ => ⟨username, rfl⟩))

theorem frame_joinGame (s : State) (sid : Nat) (username : String) (newId now : Nat) :
    Frame s (handleJoinGame s sid username newId now).1 := by
  have hwait : handleJoinGame s sid username newId now =
      joinWaiting
        { s with playerSockets := Function.update s.playerSockets username (some sid),
                 sockets := Function.update s.sockets sid
                   { s.sockets sid with username := some username },
                 waitingPlayers := s.waitingPlayers.tail } sid username now →
      Frame s (handleJoinGame s sid username newId now).1 := by
    intro e
    rw [e]
    exact frame_trans (frame_identify s sid username s.games s.waitingPlayers.tail
      (Function.update s.playerSockets username (some sid))) (frame_joinWaiting _ sid username now)
  cases hq : s.waitingPlayers with
  | nil => exact hwait (handleJoinGame_waits s sid username newId now (Or.inl hq))
  | cons w rest =>
    by_cases hw : w = "" ∨ w = username
    · exact hwait
        (handleJoinGame_waits s sid username newId now (Or.inr ⟨w, rest, hq, hw⟩))
    · rw [not_or] at hw
      rw [handleJoinGame_pair_state s sid username w rest newId now hq hw.1
        (fun e => hw.2 e.symm)]
      exact frame_trans (frame_trans
        (frame_identify s sid username _ rest
          (Function.update s.playerSockets username (some sid)))
        (frame_setSocketGameId _ sid newId)) (frame_setWaitingSocketGameId _ w newId)

theorem frame_clearDisconnection (s : State) (username : String) :
    Frame s (s.clearDisconnection username) := by
  unfold State.clearDisconnection
  cases hd : s.disconnectedPlayers username with
  | none => exact frame_refl s
  | some info =>
    refine ⟨le_refl _, fun t ht => Or.inl ((mem_clearTimeout s _ t).1 ht).1,
      fun _ u hc hu => ⟨hc, u, hu⟩, ?_⟩
    intro u i h
    by_cases e : u = username
    · subst e; simp at h
    · simpa [Function.update_noteq e] using h

theorem frame_reconnectGame (s : State) (sid : Nat) (username : String) (gameId : Nat) :
    Frame s (handleReconnectGame s sid username gameId).1 := by
  cases hg : s.games gameId with
  | none =>
    have : handleReconnectGame s sid username gameId =
        (s, [Out.emit (some sid) (Event.error "Game no longer exists")]) := by
      unfold handleReconnectGame; rw [hg]
    rw [this]; exact frame_refl s
  | some game =>
    cases hi : game.players.findIdx? (fun p => p.username == username) with
    | none =>
      have : handleReconnectGame s sid username gameId =
          (s, [Out.emit (some sid) (Event.error "You are not part of this game")]) := by
        unfold handleReconnectGame; simp only [hg, hi]
      rw [this]; exact frame_refl s
    | some i =>
      rw [handleReconnectGame_state s sid username gameId game i hg hi]
      refine frame_trans (frame_clearDisconnection s username) ?_
      exact frame_of_aux rfl rfl rfl
        (sockets_update_keeps _ sid _ (fun h => h) (fun _ _ _ => ⟨username, rfl⟩))

theorem frame_fireEscalate (s : State) (sid : Nat) (username : String) (newId now : Nat) :
    Frame s (fireEscalate s sid username newId now).1 := by
  obtain ⟨f1, f2, f3, _, f5⟩ := fireEscalate_fields s sid username newId now
  refine frame_of_aux f1 f2 f3 ?_
  rcases f5 with f5 | f5
  · rw [f5]; exact fun _ u hc hu => ⟨hc, u, hu⟩
  · rw [f5]
    exact sockets_update_keeps s.sockets sid _ (fun h => h) (fun u _ h => ⟨u, h⟩)

theorem frame_disconnectCleanup (s : State) (sid : Nat)
    (hc : (s.sockets sid).connected = true) : Frame s (disconnectCleanup s sid) := by
  have h1 : ∀ s1 : State, Frame s s1 → s1.sockets = s.sockets →
      Frame s { s1 with
        waitingPlayers := removeWaiting s1.waitingPlayers (s.sockets sid).username,
        sockets := Function.update s1.sockets sid { s.sockets sid with connected := false } } := by
    intro s1 f hsock
    refine frame_trans f (frame_of_aux rfl rfl rfl ?_)
    refine sockets_update_keeps s1.sockets sid _ ?_ ?_
    · intro _; rfl
    · intro u h; rw [hsock, hc] at h; simp at h
  unfold disconnectCleanup
  simp only
  split
  case h_2 => exact h1 s (frame_refl s) rfl
  case h_1 tid hm => exact h1 (s.clearTimeout tid) (frame_clearTimeout s tid) rfl

theorem disconnectCleanup_fields (s : State) (sid : Nat) :
    (disconnectCleanup s sid).nextTimer = s.nextTimer ∧
    (disconnectCleanup s sid).disconnectedPlayers = s.disconnectedPlayers ∧
    (disconnectCleanup s sid).games = s.games := by
  unfold disconnectCleanup
  simp only
  split <;> exact ⟨rfl, rfl, rfl⟩

/-- The forfeit branch of `disconnect`: a forfeit timer and the record that holds
its handle are added. -/
theorem recordInv_add_forfeit {s : State} (h : RecordInv s) (sid gid now : Nat)
    (opp : Option String) (u : String) (hne : u ≠ "")
    (hc : (s.sockets sid).connected = false) (hu : ∃ u', (s.sockets sid).username = some u') :
    RecordInv
      { (State.setTimeout s now 30000 (TimerKind.forfeit sid gid opp)).1 with
        disconnectedPlayers :=
          Function.update s.disconnectedPlayers u (some ⟨gid, now, s.nextTimer⟩) } where
  below := by
    intro t ht
    simp only [State.setTimeout, List.mem_append, List.mem_singleton] at ht
    rcases ht with h1 | h1
    · exact Nat.lt_succ_of_lt (h.below t h1)
    · subst h1; exact Nat.lt_succ_self _
  forfeit := by
    intro t ht sid' gid' opp' hk
    simp only [State.setTimeout, List.mem_append, List.mem_singleton] at ht
    rcases ht with h1 | h1
    · exact h.forfeit t h1 sid' gid' opp' hk
    · subst h1
      simp only [TimerKind.forfeit.injEq] at hk
      obtain ⟨e1, _, _⟩ := hk
      subst e1
      exact ⟨hc, hu⟩
  record := by
    intro u' info hr
    by_cases e : u' = u
    · subst e
      simp only [Function.update_same, Option.some.injEq] at hr
      subst hr
      refine ⟨hne, Nat.lt_succ_self _, ?_⟩
      intro t ht hid
      simp only [State.setTimeout, List.mem_append, List.mem_singleton] at ht
      rcases ht with h1 | h1
      · exact absurd (h.below t h1) (by simp only at hid; omega)
      · subst h1; exact ⟨rfl, sid, opp, rfl⟩
    · simp only [Function.update_noteq e] at hr
      obtain ⟨a, b, c⟩ := h.record u' info hr
      refine ⟨a, Nat.lt_succ_of_lt b, ?_⟩
      intro t ht hid
      simp only [State.setTimeout, List.mem_append, List.mem_singleton] at ht
      rcases ht with h1 | h1
      · exact c t h1 hid
      · subst h1
        simp only at hid
        omega

theorem recordInv_disconnect {s : State} (h : RecordInv s) (sid now : Nat)
    (hc : (s.sockets sid).connected = true) : RecordInv (handleDisconnect s sid now).1 := by
  have hcl := recordInv_frame h (frame_disconnectCleanup s sid hc)
  obtain ⟨k1, k2⟩ := disconnectCleanup_socket s sid
  rcases handleDisconnect_state s sid now with hs | ⟨gid, u, opp, hu, hne, hs⟩
  · rw [hs]; exact hcl
  · rw [hs]
    exact recordInv_add_forfeit hcl sid gid now opp u hne k1 ⟨u, by rw [k2, hu]⟩

/-! ### What the segments of the interleaved server do to timers, sockets and records -/

theorem setObj_fields (sv : Srv) (gameId : Nat) (g : Game) :
    (sv.setObj gameId g).base.timers = sv.base.timers ∧
    (sv.setObj gameId g).base.nextTimer = sv.base.nextTimer ∧
    (sv.setObj gameId g).base.sockets = sv.base.sockets ∧
    (sv.setObj gameId g).base.disconnectedPlayers = sv.base.disconnectedPlayers := by
  unfold Srv.setObj
  cases sv.base.games gameId <;> exact ⟨rfl, rfl, rfl, rfl⟩

theorem deleteGame_fields (sv : Srv) (gameId : Nat) :
    (sv.deleteGame gameId).base.timers = sv.base.timers ∧
    (sv.deleteGame gameId).base.nextTimer = sv.base.nextTimer ∧
    (sv.deleteGame gameId).base.sockets = sv.base.sockets ∧
    (sv.deleteGame gameId).base.disconnectedPlayers = sv.base.disconnectedPlayers := by
  unfold Srv.deleteGame
  cases sv.base.games gameId <;> exact ⟨rfl, rfl, rfl, rfl⟩

theorem endGameStart_fields (sv : Srv) (gameId : Nat) (game : Game)
    (winner reason : Option String) (now : Nat) :
    (endGameStart sv gameId game winner reason now).1.base.timers = sv.base.timers ∧
    (endGameStart sv gameId game winner reason now).1.base.nextTimer = sv.base.nextTimer ∧
    (endGameStart sv gameId game winner reason now).1.base.sockets = sv.base.sockets ∧
    (endGameStart sv gameId game winner reason now).1.base.disconnectedPlayers =
      sv.base.disconnectedPlayers :=
  setObj_fields sv gameId { game with winner := winner }

theorem endGameRest_fields (sv : Srv) (gameId : Nat) (winner reason : Option String)
    (d : Nat) (dbOk : Bool) :
    (endGameRest sv gameId winner reason d dbOk).1.base.timers = sv.base.timers ∧
    (endGameRest sv gameId winner reason d dbOk).1.base.nextTimer = sv.base.nextTimer ∧
    (endGameRest sv gameId winner reason d dbOk).1.base.sockets = sv.base.sockets ∧
    (endGameRest sv gameId winner reason d dbOk).1.base.disconnectedPlayers =
      sv.base.disconnectedPlayers := by
  unfold endGameRest
  cases sv.obj gameId with
  | none => exact ⟨rfl, rfl, rfl, rfl⟩
  | some game => exact deleteGame_fields sv game.gameId

theorem makeMoveStart_fields (sv : Srv) (sid gameId : Nat) (column : Int) :
    (makeMoveStart sv sid gameId column).1.base.timers = sv.base.timers ∧
    (makeMoveStart sv sid gameId column).1.base.nextTimer = sv.base.nextTimer ∧
    (makeMoveStart sv sid gameId column).1.base.sockets = sv.base.sockets ∧
    (makeMoveStart sv sid gameId column).1.base.disconnectedPlayers =
      sv.base.disconnectedPlayers := by
  unfold makeMoveStart
  cases sv.base.games gameId with
  | none => exact ⟨rfl, rfl, rfl, rfl⟩
  | some game =>
    simp only
    split
    · exact ⟨rfl, rfl, rfl, rfl⟩
    · split
      · exact ⟨rfl, rfl, rfl, rfl⟩
      · exact setObj_fields sv gameId _

theorem frame_of_fields {s s' : State}
    (h : s'.timers = s.timers ∧ s'.nextTimer = s.nextTimer ∧ s'.sockets = s.sockets ∧
      s'.disconnectedPlayers = s.disconnectedPlayers) : Frame s s' :=
  frame_of_aux h.1 h.2.1 h.2.2.2 (fun _ u hc hu => by rw [h.2.2.1]; exact ⟨hc, u, hu⟩)

theorem frame_setTimeout (s : State) (now delay : Nat) (kind : TimerKind)
    (hk : ∀ sid gid opp, kind ≠ TimerKind.forfeit sid gid opp) :
    Frame s (s.setTimeout now delay kind).1 where
  next := Nat.le_succ _
  timers := by
    intro t ht
    simp only [State.setTimeout, List.mem_append, List.mem_singleton] at ht
    rcases ht with h1 | h1
    · exact Or.inl h1
    · subst h1
      exact Or.inr ⟨le_refl _, Nat.lt_succ_self _, hk⟩
  sockets := fun _ u hc hu => ⟨hc, u, hu⟩
  records := fun _ _ h => h

theorem makeMoveRest_records (sv : Srv) (sid gameId now : Nat) :
    (makeMoveRest sv sid gameId now).1.base.disconnectedPlayers =
      sv.base.disconnectedPlayers := by
  unfold makeMoveRest
  cases sv.obj gameId with
  | none => rfl
  | some game =>
    simp only
    split
    · exact (endGameStart_fields sv gameId game _ _ now).2.2.2
    · split
      · rfl
      · split
        · exact (setObj_fields sv gameId _).2.2.2
        · exact (setObj_fields sv gameId _).2.2.2

theorem frame_makeMoveRest (sv : Srv) (sid gameId now : Nat) :
    Frame sv.base (makeMoveRest sv sid gameId now).1.base := by
  unfold makeMoveRest
  cases sv.obj gameId with
  | none => exact frame_refl _
  | some game =>
    simp only
    split
    · exact frame_of_fields (endGameStart_fields sv gameId game _ _ now)
    · split
      · exact frame_refl _
      · split
        · exact frame_trans (frame_of_fields (setObj_fields sv gameId _))
            (frame_setTimeout _ now 1000 _ (fun _ _ _ e => by simp at e))
        · exact frame_of_fields (setObj_fields sv gameId _)

theorem forfeitCallback_fields (sv : Srv) (sid gameId0 : Nat) (opponent : Option String)
    (now : Nat) :
    (forfeitCallback sv sid gameId0 opponent now).1.base.timers = sv.base.timers ∧
    (forfeitCallback sv sid gameId0 opponent now).1.base.nextTimer = sv.base.nextTimer ∧
    (forfeitCallback sv sid gameId0 opponent now).1.base.sockets = sv.base.sockets ∧
    (forfeitCallback sv sid gameId0 opponent now).1.base.disconnectedPlayers =
      (match (sv.base.sockets sid).username with
       | some u => Function.update sv.base.disconnectedPlayers u none
       | none => sv.base.disconnectedPlayers) := by
  have key : ∀ r : Srv × List Out,
      (r.1.base.timers = sv.base.timers ∧ r.1.base.nextTimer = sv.base.nextTimer ∧
        r.1.base.sockets = sv.base.sockets ∧
        r.1.base.disconnectedPlayers = sv.base.disconnectedPlayers) →
      ((match (sv.base.sockets sid).username with
        | some u =>
          ({ r.1 with base := { r.1.base with
              disconnectedPlayers := Function.update r.1.base.disconnectedPlayers u none } },
            r.2)
        | none => r).1.base.timers = sv.base.timers ∧
       (match (sv.base.sockets sid).username with
        | some u =>
          ({ r.1 with base := { r.1.base with
              disconnectedPlayers := Function.update r.1.base.disconnectedPlayers u none } },
            r.2)
        | none => r).1.base.nextTimer = sv.base.nextTimer ∧
       (match (sv.base.sockets sid).username with
        | some u =>
          ({ r.1 with base := { r.1.base with
              disconnectedPlayers := Function.update r.1.base.disconnectedPlayers u none } },
            r.2)
        | none => r).1.base.sockets = sv.base.sockets ∧
       (match (sv.base.sockets sid).username with
        | some u =>
          ({ r.1 with base := { r.1.base with
              disconnectedPlayers := Function.update r.1.base.disconnectedPlayers u none } },
            r.2)
        | none => r).1.base.disconnectedPlayers =
        (match (sv.base.sockets sid).username with
         | some u => Function.update sv.base.disconnectedPlayers u none
         | none => sv.base.disconnectedPlayers)) := by
    intro r hr
    obtain ⟨a, b, c, d⟩ := hr
    cases (sv.base.sockets sid).username
    · exact ⟨a, b, c, d⟩
    · exact ⟨a, b, c, by simp only [d]⟩
  unfold forfeitCallback
  apply key
  cases hgid : (sv.base.sockets sid).gameId with
  | none => exact ⟨rfl, rfl, rfl, rfl⟩
  | some gid =>
    cases hg : sv.base.games gid with
    | none => simp [hg]
    | some g =>
      simp only [hg]
      split
      · exact endGameStart_fields sv gid g _ _ now
      · exact ⟨rfl, rfl, rfl, rfl⟩

theorem frame_forfeitCallback (sv : Srv) (sid gameId0 : Nat) (opponent : Option String)
    (now : Nat) : Frame sv.base (forfeitCallback sv sid gameId0 opponent now).1.base := by
  obtain ⟨a, b, c, d⟩ := forfeitCallback_fields sv sid gameId0 opponent now
  refine ⟨by rw [b], fun t h => Or.inl (a ▸ h),
    fun _ u hc hu => by rw [c]; exact ⟨hc, u, hu⟩, ?_⟩
  intro u info h
  rw [d] at h
  cases hu : (sv.base.sockets sid).username with
  | none => simpa only [hu] using h
  | some u0 =>
    simp only [hu] at h
    by_cases e : u = u0
    · subst e; simp at h
    · simpa [Function.update_noteq e] using h

theorem botMoveCallback_fields (sv : Srv) (gameId now : Nat) (r : Srv × List Out)
    (hr : botMoveCallback sv gameId now = some r) :
    r.1.base.timers = sv.base.timers ∧ r.1.base.nextTimer = sv.base.nextTimer ∧
    r.1.base.sockets = sv.base.sockets ∧
    r.1.base.disconnectedPlayers = sv.base.disconnectedPlayers := by
  unfold botMoveCallback at hr
  cases ho : sv.obj gameId with
  | none =>
    rw [ho] at hr
    simp only [Option.some.injEq] at hr
    subst hr; exact ⟨rfl, rfl, rfl, rfl⟩
  | some game =>
    rw [ho] at hr
    simp only at hr
    split at hr
    · simp only [Option.some.injEq] at hr
      subst hr; exact ⟨rfl, rfl, rfl, rfl⟩
    · split at hr
      · exact absurd hr (by simp)
      · rename_i human _
        obtain ⟨a, b, c, d⟩ := setObj_fields sv gameId
          { game with
            board := (makeMove game.board (getBotMove game.board "Bot" human.username)
              "Bot").1,
            moves := game.moves + 1 }
        split at hr
        · simp only [Option.some.injEq] at hr
          subst hr
          obtain ⟨a', b', c', d'⟩ := endGameStart_fields (sv.setObj gameId
            { game with
              board := (makeMove game.board (getBotMove game.board "Bot" human.username)
                "Bot").1,
              moves := game.moves + 1 }) gameId
            { game with
              board := (makeMove game.board (getBotMove game.board "Bot" human.username)
                "Bot").1,
              moves := game.moves + 1 }
            (checkWinner (makeMove game.board (getBotMove game.board "Bot" human.username)
              "Bot").1) none now
          exact ⟨a'.trans a, b'.trans b, c'.trans c, d'.trans d⟩
        · simp only [Option.some.injEq] at hr
          subst hr
          obtain ⟨a', b', c', d'⟩ := setObj_fields (sv.setObj gameId
            { game with
              board := (makeMove game.board (getBotMove game.board "Bot" human.username)
                "Bot").1,
              moves := game.moves + 1 }) gameId
            { game with
              board := (makeMove game.board (getBotMove game.board "Bot" human.username)
                "Bot").1,
              moves := game.moves + 1,
              currentTurn := human.username }
          exact ⟨a'.trans a, b'.trans b, c'.trans c, d'.trans d⟩

theorem frame_fireTimerSrv (sv : Srv) (t : Timer) (newId now : Nat) (r : Srv × List Out)
    (hr : fireTimerSrv sv t newId now = some r) : Frame sv.base r.1.base := by
  have h0 : Frame sv.base ({ sv with base := sv.base.clearTimeout t.id } : Srv).base :=
    frame_clearTimeout sv.base t.id
  unfold fireTimerSrv at hr
  cases hk : t.kind with
  | escalate sid username =>
    simp only [hk, Option.some.injEq] at hr
    subst hr
    exact frame_trans h0 (frame_fireEscalate _ sid username newId now)
  | forfeit sid gid0 opp =>
    simp only [hk, Option.some.injEq] at hr
    subst hr
    exact frame_trans h0 (frame_forfeitCallback _ sid gid0 opp now)
  | botMove gid =>
    simp only [hk] at hr
    exact frame_trans h0 (frame_of_fields (botMoveCallback_fields _ gid now r hr))

theorem recordInv_apply {sv : Srv} (h : RecordInv sv.base) (e : Step) (he : e.enabled sv)
    (r : Srv × List Out) (hr : e.apply sv = some r) : RecordInv r.1.base := by
  cases e with
  | connect sid =>
    simp only [Step.apply, Option.some.injEq] at hr
    subst hr; exact recordInv_frame h (frame_connection sv.base sid he.1)
  | joinGame sid username =>
    simp only [Step.apply, Option.some.injEq] at hr
    subst hr; exact h
  | joinResume sid username newId now =>
    simp only [Step.apply, Option.some.injEq] at hr
    subst hr
    exact recordInv_frame h (frame_joinGame sv.base sid username newId now)
  | reconnectGame sid username gameId =>
    simp only [Step.apply, Option.some.injEq] at hr
    subst hr; exact recordInv_frame h (frame_reconnectGame sv.base sid username gameId)
  | makeMove sid gameId column =>
    simp only [Step.apply, Option.some.injEq] at hr
    subst hr
    exact recordInv_frame h (frame_of_fields (makeMoveStart_fields sv sid gameId column))
  | moveResume sid gameId now =>
    simp only [Step.apply, Option.some.injEq] at hr
    subst hr
    exact recordInv_frame h (frame_makeMoveRest
      { sv with tasks := sv.tasks.erase (Task.moveRest sid gameId) } sid gameId now)
  | endResume gameId winner reason d dbOk =>
    simp only [Step.apply, Option.some.injEq] at hr
    subst hr
    exact recordInv_frame h (frame_of_fields (endGameRest_fields
      { sv with tasks := sv.tasks.erase (Task.endRest gameId winner reason d) }
      gameId winner reason d dbOk))
  | disconnect sid now =>
    simp only [Step.apply, Option.some.injEq] at hr
    subst hr; exact recordInv_disconnect h sid now he
  | fire t newId now =>
    exact recordInv_frame h (frame_fireTimerSrv sv t newId now r hr)

/-- Every reachable server satisfies the record invariant. -/
theorem reach_recordInv {sv : Srv} (h : Reach sv) : RecordInv sv.base := by
  induction h with
  | init =>
    exact ⟨fun t ht => by simp [Srv.init, State.init] at ht,
      fun t ht => by simp [Srv.init, State.init] at ht,
      fun u info hr => by simp [Srv.init, State.init] at hr⟩
  | step e r _ he hr ih => exact recordInv_apply ih e he r hr

/-! ### How disconnection records come and go -/

theorem handleDisconnect_forfeit (s : State) (sid now : Nat) :
    (handleDisconnect s sid now).1 = disconnectCleanup s sid ∨
    ∃ gid u g opp, (s.sockets sid).username = some u ∧ u ≠ "" ∧
      (s.sockets sid).gameId = some gid ∧ (disconnectCleanup s sid).games gid = some g ∧
      g.winner = none ∧
      (handleDisconnect s sid now).1 =
        { (State.setTimeout (disconnectCleanup s sid) now 30000
            (TimerKind.forfeit sid gid opp)).1 with
          disconnectedPlayers :=
            Function.update (disconnectCleanup s sid).disconnectedPlayers u
              (some ⟨gid, now, (disconnectCleanup s sid).nextTimer⟩) } := by
  unfold handleDisconnect disconnectCleanup
  simp only
  split
  · rename_i gid u hgid hu
    by_cases htr : truthyStr u = true
    · rw [if_pos htr]
      split
      · rename_i game hg
        by_cases hwn : game.winner = none
        · rw [if_pos hwn]
          right
          exact ⟨gid, u, game, _, hu, by simpa [truthyStr] using htr, hgid, hg, hwn, rfl⟩
        · rw [if_neg hwn]; left; rfl
      · left; rfl
    · rw [if_neg htr]; left; rfl
  · left; rfl

theorem handleDisconnect_records (s : State) (sid now : Nat) :
    (handleDisconnect s sid now).1.disconnectedPlayers = s.disconnectedPlayers ∨
    ∃ gid u g, (s.sockets sid).username = some u ∧ u ≠ "" ∧
      (s.sockets sid).gameId = some gid ∧ s.games gid = some g ∧ g.winner = none ∧
      (handleDisconnect s sid now).1.disconnectedPlayers =
        Function.update s.disconnectedPlayers u (some ⟨gid, now, s.nextTimer⟩) := by
  obtain ⟨f1, f2, f3⟩ := disconnectCleanup_fields s sid
  rcases handleDisconnect_forfeit s sid now with h | ⟨gid, u, g, opp, hu, hne, hgid, hg, hw, h⟩
  · left; rw [h, f2]
  · right
    refine ⟨gid, u, g, hu, hne, hgid, f3 ▸ hg, hw, ?_⟩
    rw [h]
    simp only [f1, f2]

theorem handleJoinGame_records (s : State) (sid : Nat) (username : String) (newId now : Nat) :
    (handleJoinGame s sid username newId now).1.disconnectedPlayers =
      s.disconnectedPlayers := by
  have hwait : handleJoinGame s sid username newId now =
      joinWaiting
        { s with playerSockets := Function.update s.playerSockets username (some sid),
                 sockets := Function.update s.sockets sid
                   { s.sockets sid with username := some username },
                 waitingPlayers := s.waitingPlayers.tail } sid username now →
      (handleJoinGame s sid username newId now).1.disconnectedPlayers =
        s.disconnectedPlayers := by
    intro e
    rw [e, (joinWaiting_spec _ sid username now).2.2.2.2.1]
  cases hq : s.waitingPlayers with
  | nil => exact hwait (handleJoinGame_waits s sid username newId now (Or.inl hq))
  | cons w rest =>
    by_cases hw : w = "" ∨ w = username
    · exact hwait (handleJoinGame_waits s sid username newId now (Or.inr ⟨w, rest, hq, hw⟩))
    · rw [not_or] at hw
      rw [handleJoinGame_pair_state s sid username w rest newId now hq hw.1
        (fun e => hw.2 e.symm), (setWaitingSocketGameId_frame _ w newId).2.2.2.2]
      rfl

theorem clearDisconnection_records (s : State) (username u : String) :
    (s.clearDisconnection username).disconnectedPlayers u =
      if u = username then none else s.disconnectedPlayers u := by
  unfold State.clearDisconnection
  cases hd : s.disconnectedPlayers username with
  | none =>
    by_cases e : u = username
    · subst e; simp [hd]
    · simp [e]
  | some info =>
    by_cases e : u = username
    · subst e; simp
    · simp [e, Function.update_noteq e]

theorem handleReconnectGame_records (s : State) (sid : Nat) (username : String)
    (gameId : Nat) :
    (handleReconnectGame s sid username gameId).1.disconnectedPlayers =
      s.disconnectedPlayers ∨
    ∃ g, s.games gameId = some g ∧ username ∈ g.players.map (·.username) ∧
      ∀ u, (handleReconnectGame s sid username gameId).1.disconnectedPlayers u =
        if u = username then none else s.disconnectedPlayers u := by
  cases hg : s.games gameId with
  | none =>
    have : handleReconnectGame s sid username gameId =
        (s, [Out.emit (some sid) (Event.error "Game no longer exists")]) := by
      unfold handleReconnectGame; rw [hg]
    rw [this]; exact Or.inl rfl
  | some game =>
    cases hi : game.players.findIdx? (fun p => p.username == username) with
    | none =>
      have : handleReconnectGame s sid username gameId =
          (s, [Out.emit (some sid) (Event.error "You are not part of this game")]) := by
        unfold handleReconnectGame; simp only [hg, hi]
      rw [this]; exact Or.inl rfl
    | some i =>
      right
      obtain ⟨p, hp, hpu⟩ := findIdx_username_some game.players username i hi
      refine ⟨game, rfl, ?_, ?_⟩
      · rw [← hpu]
        exact List.mem_map_of_mem _ (List.getElem?_mem hp)
      · intro u
        rw [handleReconnectGame_state s sid username gameId game i hg hi]
        exact clearDisconnection_records s username u

/-- The steps that write or delete the disconnection record of `u`: the disconnect
of a socket that carries `u`, a `reconnectGame` request for `u`, and the forfeit
timer of a socket that carries `u`. -/
theorem record_step (sv : Srv) (e : Step) (r : Srv × List Out)
    (hr : e.apply sv = some r) (u : String)
    (hch : r.1.base.disconnectedPlayers u ≠ sv.base.disconnectedPlayers u) :
    (∃ sid now gid g, e = Step.disconnect sid now ∧
      (sv.base.sockets sid).username = some u ∧ u ≠ "" ∧
      (sv.base.sockets sid).gameId = some gid ∧ sv.base.games gid = some g ∧
      g.winner = none ∧
      r.1.base.disconnectedPlayers u = some ⟨gid, now, sv.base.nextTimer⟩) ∨
    (r.1.base.disconnectedPlayers u = none ∧
      ((∃ sid gameId g, e = Step.reconnectGame sid u gameId ∧
          sv.base.games gameId = some g ∧ u ∈ g.players.map (·.username)) ∨
       (∃ t newId now sid gid opp, e = Step.fire t newId now ∧
          t.kind = TimerKind.forfeit sid gid opp ∧
          (sv.base.sockets sid).username = some u))) := by
  cases e with
  | connect sid =>
    simp only [Step.apply, Option.some.injEq] at hr
    subst hr; exact absurd rfl hch
  | joinGame sid username =>
    simp only [Step.apply, Option.some.injEq] at hr
    subst hr; exact absurd rfl hch
  | joinResume sid username newId now =>
    simp only [Step.apply, Option.some.injEq] at hr
    subst hr
    exact absurd (congrFun (handleJoinGame_records sv.base sid username newId now) u) hch
  | reconnectGame sid username gameId =>
    simp only [Step.apply, Option.some.injEq] at hr
    subst hr
    rcases handleReconnectGame_records sv.base sid username gameId with h | ⟨g, hg, hm, h⟩
    · exact absurd (congrFun h u) hch
    · have hu := h u
      by_cases e1 : u = username
      · subst e1
        right
        exact ⟨by simpa using hu, Or.inl ⟨sid, gameId, g, rfl, hg, hm⟩⟩
      · rw [if_neg e1] at hu
        exact absurd hu hch
  | makeMove sid gameId column =>
    simp only [Step.apply, Option.some.injEq] at hr
    subst hr
    exact absurd (congrFun (makeMoveStart_fields sv sid gameId column).2.2.2 u) hch
  | moveResume sid gameId now =>
    simp only [Step.apply, Option.some.injEq] at hr
    subst hr
    exact absurd (congrFun (makeMoveRest_records
      { sv with tasks := sv.tasks.erase (Task.moveRest sid gameId) } sid gameId now) u) hch
  | endResume gameId winner reason d dbOk =>
    simp only [Step.apply, Option.some.injEq] at hr
    subst hr
    exact absurd (congrFun (endGameRest_fields
      { sv with tasks := sv.tasks.erase (Task.endRest gameId winner reason d) }
      gameId winner reason d dbOk).2.2.2 u) hch
  | disconnect sid now =>
    simp only [Step.apply, Option.some.injEq] at hr
    subst hr
    rcases handleDisconnect_records sv.base sid now with h | ⟨gid, u0, g, hu, hne, hgid, hg, hw, h⟩
    · exact absurd (congrFun h u) hch
    · have hu' := congrFun h u
      by_cases e1 : u = u0
      · subst e1
        left
        exact ⟨sid, now, gid, g, rfl, hu, hne, hgid, hg, hw, by simpa using hu'⟩
      · rw [Function.update_noteq e1] at hu'
        exact absurd hu' hch
  | fire t newId now =>
    simp only [Step.apply] at hr
    unfold fireTimerSrv at hr
    cases hk : t.kind with
    | escalate sid username =>
      simp only [hk, Option.some.injEq] at hr
      subst hr
      exact absurd (congrFun (fireEscalate_fields (sv.base.clearTimeout t.id) sid username
        newId now).2.2.1 u) hch
    | forfeit sid gid0 opp =>
      simp only [hk, Option.some.injEq] at hr
      subst hr
      have hd : (forfeitCallback { sv with base := sv.base.clearTimeout t.id } sid gid0 opp
          now).1.base.disconnectedPlayers =
          (match (sv.base.sockets sid).username with
           | some u => Function.update sv.base.disconnectedPlayers u none
           | none => sv.base.disconnectedPlayers) :=
        (forfeitCallback_fields { sv with base := sv.base.clearTimeout t.id }
          sid gid0 opp now).2.2.2
      cases hu : (sv.base.sockets sid).username with
      | none =>
        rw [hu] at hd
        exact absurd (congrFun hd u) hch
      | some u0 =>
        rw [hu] at hd
        have hd' := congrFun hd u
        by_cases e1 : u = u0
        · subst e1
          right
          exact ⟨by simpa using hd', Or.inr ⟨t, newId, now, sid, gid0, opp, rfl, hk, hu⟩⟩
        · simp only [Function.update_noteq e1] at hd'
          exact absurd hd' hch
    | botMove gid =>
      simp only [hk] at hr
      exact absurd (congrFun (botMoveCallback_fields
        { sv with base := sv.base.clearTimeout t.id } gid now r hr).2.2.2 u) hch

/-! ### Example servers -/

theorem reach_serverAfter (run : List Step) (h : (runSteps Srv.init run).isSome = true) :
    Reach (serverAfter run) ∧ runSteps Srv.init run = some (serverAfter run) := by
  unfold serverAfter
  cases hr : runSteps Srv.init run with
  | none => rw [hr] at h; exact absurd h (by simp)
  | some sv => exact ⟨reach_runSteps run Srv.init sv Reach.init hr, rfl⟩

theorem recordOutlives_registry_empty (gid : Nat) :
    (serverAfter recordOutlivesRun).base.games gid = none := by
  have h : (serverAfter recordOutlivesRun).base.games =
      Function.update (Function.update (Function.update (fun _ => none) 7
        ((serverAfter pairedRun).base.games 7)) 7
        ((serverAfter (recordOutlivesRun.take 9)).base.games 7)) 7 none := rfl
  rw [h]
  by_cases e : gid = 7
  · subst e; simp
  · simp [Function.update_noteq e]

/-! ### C12: disconnection records -/

/-- C12, counterexample.  A disconnection record can outlive its match: alice and bob
are matched in match 7, both disconnect, alice's forfeit timer fires and `endGame`
completes the match for bob.  The server is reachable, bob's record is still there
and the registry holds no match at all. -/
theorem disconnection_record_outlives_match :
    Reach (serverAfter recordOutlivesRun) ∧
    runSteps Srv.init recordOutlivesRun = some (serverAfter recordOutlivesRun) ∧
    (serverAfter recordOutlivesRun).base.disconnectedPlayers "bob" = some ⟨7, 200, 2⟩ ∧
    (serverAfter recordOutlivesRun).tasks = [] ∧
    ∀ gid, (serverAfter recordOutlivesRun).base.games gid = none :=
  ⟨(reach_serverAfter recordOutlivesRun (by decide)).1,
    (reach_serverAfter recordOutlivesRun (by decide)).2, by decide, by decide,
    recordOutlives_registry_empty⟩

/-- A record can also outlive its forfeit timer: the `joinGame` handler of a socket
that disconnects while the handler waits for the database changes `socket.username`
afterwards, and the forfeit callback then deletes the record of the new name.
Alice's record still holds handle 1 and no timer is pending. -/
theorem record_outlives_timer :
    Reach (serverAfter lateJoinRun) ∧
    (serverAfter lateJoinRun).base.disconnectedPlayers "alice" = some ⟨7, 100, 1⟩ ∧
    ((serverAfter lateJoinRun).base.sockets 1).username = some "zed" ∧
    (serverAfter lateJoinRun).base.timers = [] :=
  ⟨(reach_serverAfter lateJoinRun (by decide)).1, by decide, by decide, by decide⟩

/-- C12, amended.  On every reachable server, with handlers interleaving at their
`await`s, a disconnection record has a non-empty key and holds a timer handle that
has been issued, and a pending timer with that handle is the forfeit timer for the
recorded match id, due 30 seconds after the recorded disconnect time, of a socket
that has disconnected.  In one step the record of an identity is written only by
the disconnect of a socket that carries the identity and the id of a registry match
whose `winner` is null, and is deleted only by a `reconnectGame` request for the
identity that finds it among the participants of the match, or by the forfeit timer
of a socket that carries the identity. -/
theorem disconnection_record_lifecycle (sv : Srv) (h : Reach sv) :
    (∀ u info, sv.base.disconnectedPlayers u = some info →
      u ≠ "" ∧ info.timeoutId < sv.base.nextTimer ∧
      ∀ t ∈ sv.base.timers, t.id = info.timeoutId →
        t.due = info.disconnectTime + 30000 ∧
        ∃ sid opp, t.kind = TimerKind.forfeit sid info.gameId opp ∧
          (sv.base.sockets sid).connected = false) ∧
    (∀ (e : Step) (r : Srv × List Out) (u : String), e.apply sv = some r →
      r.1.base.disconnectedPlayers u ≠ sv.base.disconnectedPlayers u →
      (∃ sid now gid g, e = Step.disconnect sid now ∧
        (sv.base.sockets sid).username = some u ∧ u ≠ "" ∧
        (sv.base.sockets sid).gameId = some gid ∧ sv.base.games gid = some g ∧
        g.winner = none ∧
        r.1.base.disconnectedPlayers u = some ⟨gid, now, sv.base.nextTimer⟩) ∨
      (r.1.base.disconnectedPlayers u = none ∧
        ((∃ sid gameId g, e = Step.reconnectGame sid u gameId ∧
            sv.base.games gameId = some g ∧ u ∈ g.players.map (·.username)) ∨
         (∃ t newId now sid gid opp, e = Step.fire t newId now ∧
            t.kind = TimerKind.forfeit sid gid opp ∧
            (sv.base.sockets sid).username = some u)))) := by
  have hinv := reach_recordInv h
  refine ⟨?_, fun e r u hr hch => record_step sv e r hr u hch⟩
  intro u info hrec
  obtain ⟨a, b, c⟩ := hinv.record u info hrec
  refine ⟨a, b, fun t ht hid => ?_⟩
  obtain ⟨d, sid, opp, hk⟩ := c t ht hid
  exact ⟨d, sid, opp, hk, (hinv.forfeit t ht sid info.gameId opp hk).1⟩

/-- Witness for C12: after alice's socket has disconnected from match 7 at time 100,
her record holds handle 1, and the pending timer 1 is the forfeit timer of socket 1
for match 7, due at time 30100. -/
theorem disconnection_record_lifecycle_witness :
    Reach (serverAfter oneDisconnectRun) ∧
    (serverAfter oneDisconnectRun).base.disconnectedPlayers "alice" = some ⟨7, 100, 1⟩ ∧
    (serverAfter oneDisconnectRun).base.timers =
      [⟨1, 30100, TimerKind.forfeit 1 7 (some "bob")⟩] ∧
    ("alice" ≠ "" ∧ 1 < (serverAfter oneDisconnectRun).base.nextTimer ∧
      ∀ t ∈ (serverAfter oneDisconnectRun).base.timers, t.id = 1 →
        t.due = 100 + 30000 ∧
        ∃ sid opp, t.kind = TimerKind.forfeit sid 7 opp ∧
          ((serverAfter oneDisconnectRun).base.sockets sid).connected = false) :=
  ⟨(reach_serverAfter oneDisconnectRun (by decide)).1, by decide, by decide,
    (disconnection_record_lifecycle (serverAfter oneDisconnectRun)
      (reach_serverAfter oneDisconnectRun (by decide)).1).1 "alice" ⟨7, 100, 1⟩ (by decide)⟩

/-! ### C13: one identity, several matches -/

/-- C13, counterexample.  Alice is matched with bob in match 7, joins again and is
paired with carol in match 8: the server is reachable and both registry matches
have alice as a participant. -/
theorem identity_in_two_live_matches :
    Reach (serverAfter twoMatchesRun) ∧
    runSteps Srv.init twoMatchesRun = some (serverAfter twoMatchesRun) ∧
    ((serverAfter twoMatchesRun).base.games 7).map (fun g => (g.usernames, g.winner)) =
      some (["alice", "bob"], none) ∧
    ((serverAfter twoMatchesRun).base.games 8).map (fun g => (g.usernames, g.winner)) =
      some (["alice", "carol"], none) :=
  ⟨(reach_serverAfter twoMatchesRun (by decide)).1,
    (reach_serverAfter twoMatchesRun (by decide)).2, by decide, by decide⟩

/-- C13, amended.  On every reachable server, with handlers interleaving at their
`await`s, each match in the registry is stored under its own id and has exactly two
participants; in a match between two humans the two usernames differ, and in a bot
match the second participant is `Bot`. -/
theorem registry_match_has_two_participants (sv : Srv) (h : Reach sv) (gid : Nat)
    (g : Game) (hg : sv.base.games gid = some g) :
    g.gameId = gid ∧
    ∃ p0 p1 : Player, g.players = [p0, p1] ∧
      (g.isBot = false → p0.username ≠ p1.username) ∧
      (g.isBot = true → p1.username = "Bot") :=
  ⟨(reach_regShape h gid g hg).key, (reach_regShape h gid g hg).two⟩

/-- Witness for C13: match 7 between alice and bob. -/
theorem registry_match_has_two_participants_witness :
    Reach (serverAfter pairedRun) ∧
    (serverAfter pairedRun).base.games 7 =
      some ⟨7, [⟨"alice", "red", some 1⟩, ⟨"bob", "yellow", some 2⟩],
        createEmptyBoard, "alice", none, 5, 0, false⟩ ∧
    ((7 : Nat) = 7 ∧
      ∃ p0 p1 : Player,
        [(⟨"alice", "red", some 1⟩ : Player), ⟨"bob", "yellow", some 2⟩] = [p0, p1] ∧
        (false = false → p0.username ≠ p1.username) ∧
        (false = true → p1.username = "Bot")) :=
  ⟨(reach_serverAfter pairedRun (by decide)).1, by decide,
    registry_match_has_two_participants (serverAfter pairedRun)
      (reach_serverAfter pairedRun (by decide)).1 7
      ⟨7, [⟨"alice", "red", some 1⟩, ⟨"bob", "yellow", some 2⟩],
        createEmptyBoard, "alice", none, 5, 0, false⟩ (by decide)⟩

/-! ### C4 and C21: a bot move on a full board -/

/-- C4, counterexample.  In bot match 7 a bot move is pending while alice, whose turn
it is again after two overlapping requests, fills the board.  When the timer fires
the match is in the registry with a full board: `getBotMove` returns the fallback 0,
which is not a legal column, and the `makeMove` of `makeBotMove` places no piece:
the board is as it was, although the bot's move is announced. -/
theorem bot_move_on_full_board_places_nothing :
    Reach (serverAfter floodRun) ∧
    runSteps Srv.init floodRun = some (serverAfter floodRun) ∧
    ((serverAfter floodRun).base.games 7).map (fun g => (g.board, g.usernames)) =
      some (aliceEverywhere, ["alice", "Bot"]) ∧
    (isBoardFull aliceEverywhere, getBotMove aliceEverywhere "Bot" "alice",
      isValidMove aliceEverywhere 0) = (true, 0, false) ∧
    (Step.fire floodBotTimer 9 21000).enabled (serverAfter floodRun) ∧
    ((Step.fire floodBotTimer 9 21000).apply (serverAfter floodRun)).map
        (fun r => ((r.1.base.games 7).map (·.board), r.2.head?)) =
      some (some aliceEverywhere, some (Out.publish "game.move" 7)) := by
  set_option maxRecDepth 100000 in
  exact ⟨(reach_serverAfter floodRun (by decide)).1,
    (reach_serverAfter floodRun (by decide)).2, by decide, by decide, by decide, by decide⟩

/-- C21, counterexample.  In the same run the board of match 7 has 42 discs and the
counter is 42 when the bot-move timer fires; `makeBotMove` then adds one to the
counter without dropping a disc: the match is in the registry with counter 43 and
42 non-empty cells. -/
theorem bot_move_counted_without_disc :
    Reach (serverAfter floodRun) ∧
    ((serverAfter floodRun).base.games 7).map (fun g => (g.moves, g.board)) =
      some (42, aliceEverywhere) ∧
    (aliceEverywhere.map fun row => (row.filter fun c => c.isSome).length) =
      [7, 7, 7, 7, 7, 7] ∧
    ((Step.fire floodBotTimer 9 21000).apply (serverAfter floodRun)).map
        (fun r => (r.1.base.games 7).map (fun g => (g.moves, g.board))) =
      some (some (43, aliceEverywhere)) := by
  set_option maxRecDepth 100000 in
  exact ⟨(reach_serverAfter floodRun (by decide)).1, by decide, by decide, by decide⟩

end FourInARow
